import Mathlib

/-!
# Read classification against genomic annotations (`Expression.cpp`)

A shallow embedding of the block extractor, the annotation window
(`trimFeatures`, `dropFeatures`), the intersection query, the strand resolver,
the current classification engine (`exonAlignmentMetrics`) and the
fragment-size sampler (`fragmentSizeMetrics`), followed by theorems about
them.

Conventions of the embedding.

* `coord` values are natural numbers; every addition and subtraction the C++
  performs on a `coord` is taken modulo `coordMod`, the `unsigned int`
  accumulator modulo `uintMod`.
* A `std::map` with value-initialising `operator[]` is a total function whose
  default is the value-initialised element, except `fragmentTracker`, whose
  entries can be erased, so presence is tracked with `Option`.
* A `std::set<string>` is a duplicate-free list; insertion keeps the first
  occurrence.
* Collaborators whose code lives outside `Expression.cpp` are either parameters
  (`Env`) or small models introduced by a doc comment saying so.
-/

namespace rnaseqc

/-! ## Data model -/

/-- Modulus of the `coord` type. The typedef is in a header outside
`Expression.cpp`; coordinates are unsigned 64-bit integers. -/
def coordMod : Nat := 2 ^ 64

/-- Modulus of `unsigned int`, the type of the aligned-size accumulator. -/
def uintMod : Nat := 2 ^ 32

/-- Wrapping `coord` addition. -/
def cadd (a b : Nat) : Nat := (a + b) % coordMod

/-- Wrapping `coord` subtraction. -/
def csub (a b : Nat) : Nat := (a % coordMod + (coordMod - b % coordMod)) % coordMod

/-- Conversion of a signed `int` to `coord` (value modulo `coordMod`). -/
def toCoord (x : Int) : Nat := (x % (coordMod : Int)).toNat

/-- Modelled from the spec: the enumeration `Strand`, declared in a header
outside `Expression.cpp`, has the values Forward, Reverse and Unknown. -/
inductive Strand where
  | Forward
  | Reverse
  | Unknown
  deriving DecidableEq, Repr

/-- Modelled from the spec: the enumeration `FeatureType`, declared in a
header outside `Expression.cpp`, tells a Gene from an Exon; `Other` stands for
any further enumerator, which the code treats as neither. -/
inductive FeatureType where
  | Gene
  | Exon
  | Other
  deriving DecidableEq, Repr

/-- Modelled from the spec: the struct `Feature`, declared in a header outside
`Expression.cpp`: an annotation feature, also used for the aligned blocks of a
read. The field `end_` is the C++ member `end`. -/
structure Feature where
  start : Nat
  end_ : Nat
  chromosome : Nat
  strand : Strand
  type : FeatureType
  feature_id : String
  gene_id : String
  ribosomal : Bool
  deriving DecidableEq, Repr

/-- Modelled from the spec: one CIGAR operation of the alignment library, with
its operation character and its length, which the BAM encoding keeps in
28 bits. -/
structure CigarField where
  type : Char
  length : Nat
  hlen : length < 2 ^ 28
  deriving DecidableEq

/-- Modelled from the spec: the alignment record of the alignment library,
reduced to what `Expression.cpp` reads. `position` is the 0-based leftmost
coordinate of a mapped read. -/
structure Alignment where
  position : Nat
  positionEnd : Nat
  cigar : List CigarField
  reverseFlag : Bool
  firstFlag : Bool
  pairedFlag : Bool
  duplicateFlag : Bool
  mateReverseFlag : Bool
  qname : String
  matePosition : Int
  insertSize : Int
  length : Nat

/-! ## `extractBlocks` -/

/-- Loop state of `extractBlocks`: the running `start`, the `alignedSize`
accumulator and the caller's `blocks` vector. -/
structure ExtractState where
  start : Nat
  alignedSize : Nat
  blocks : List Feature
  deriving DecidableEq

/-- The block pushed for an `M`, `=` or `X` operation. Members the code does
not assign are left at fixed defaults. -/
def mkBlock (alignment : Alignment) (chr start len : Nat) : Feature :=
  { start := start
    end_ := cadd start len
    chromosome := chr
    strand := if alignment.reverseFlag then Strand.Reverse else Strand.Forward
    type := FeatureType.Other
    feature_id := ""
    gene_id := ""
    ribosomal := false }

/-- One iteration of the `switch` in `extractBlocks`, with the fall-through
of the C++ cases written out. -/
def cigarStep (alignment : Alignment) (chr : Nat) (legacy : Bool)
    (s : ExtractState) (current : CigarField) : Except String ExtractState :=
  if current.type = 'M' ∨ current.type = '=' ∨ current.type = 'X' then
    .ok { start := cadd s.start current.length
          alignedSize := (s.alignedSize + current.length) % uintMod
          blocks := s.blocks ++ [mkBlock alignment chr s.start current.length] }
  else if current.type = 'N' ∨ current.type = 'D' then
    .ok { s with start := cadd s.start current.length }
  else if current.type = 'H' ∨ current.type = 'P' ∨ current.type = 'I' then
    .ok s
  else if current.type = 'S' then
    .ok (if legacy then
      { s with alignedSize := (s.alignedSize + current.length) % uintMod } else s)
  else
    .error "Unrecognized Cigar Op "

/-- The `for` loop of `extractBlocks`; an exception ends it. -/
def extractLoop (alignment : Alignment) (chr : Nat) (legacy : Bool) :
    List CigarField → ExtractState → Except String ExtractState
  | [], s => .ok s
  | current :: rest, s =>
    match cigarStep alignment chr legacy s current with
    | .ok s' => extractLoop alignment chr legacy rest s'
    | .error e => .error e

/-- The function `extractBlocks(alignment, blocks, chr, legacy)`: the returned aligned size
together with the final contents of `blocks`, or the exception. -/
def extractBlocks (alignment : Alignment) (blocks : List Feature) (chr : Nat)
    (legacy : Bool) : Except String (Nat × List Feature) :=
  match extractLoop alignment chr legacy alignment.cigar
      { start := cadd alignment.position 1, alignedSize := 0, blocks := blocks } with
  | .ok s => .ok (s.alignedSize, s.blocks)
  | .error e => .error e

/-- Operation types that emit a block. -/
def isAlignedOp (c : Char) : Bool := c = 'M' || c = '=' || c = 'X'

/-- Operation types `extractBlocks` accepts. -/
def isRecognisedOp (c : Char) : Bool :=
  c = 'M' || c = '=' || c = 'X' || c = 'N' || c = 'D' || c = 'H' || c = 'P' || c = 'I' || c = 'S'

/-- Length `end - start` of a block, as the C++ computes it on `coord`. -/
def blockLength (b : Feature) : Nat := csub b.end_ b.start


/-! ## Annotation window: `trimFeatures`, `dropFeatures` -/

/-- The global `fragmentTracker`: gene id to the query names already counted
for it; `none` when the map holds no entry for the key. -/
abbrev FragmentTracker := String → Option (List String)

/-- Calls made on the `BaseCoverage` collaborator. -/
inductive CoverageCall where
  | compute (feature : Feature)
  | add (feature : Feature) (start end_ : Nat)
  | commit (gene_id : String)
  | reset
  deriving DecidableEq, Repr

/-- Modelled from the spec: the class `BaseCoverage` is declared outside
`Expression.cpp`; the embedding keeps the sequence of calls made on it, in
order, `compute` being the per-gene coverage finalisation. -/
abbrev BaseCoverage := List CoverageCall

/-- The function `trimFeatures(alignment, features)`, the two-argument overload. Returns the
window and the fragment tracker after the `while` loop. -/
def trimFeatures (alignment : Alignment) :
    List Feature → FragmentTracker → List Feature × FragmentTracker
  | [], ft => ([], ft)
  | front :: rest, ft =>
    if front.end_ < alignment.position then
      trimFeatures alignment rest
        (if front.type = FeatureType.Gene then Function.update ft front.feature_id none else ft)
    else (front :: rest, ft)

/-- The function `trimFeatures(alignment, features, coverage)`, the overload with a
coverage sink. Returns the window, the coverage calls and the fragment
tracker after the `while` loop. -/
def trimFeaturesCoverage (alignment : Alignment) :
    List Feature → BaseCoverage → FragmentTracker →
      List Feature × BaseCoverage × FragmentTracker
  | [], coverage, ft => ([], coverage, ft)
  | front :: rest, coverage, ft =>
    if front.end_ < alignment.position then
      if front.type = FeatureType.Gene then
        trimFeaturesCoverage alignment rest (coverage ++ [CoverageCall.compute front])
          (Function.update ft front.feature_id none)
      else trimFeaturesCoverage alignment rest coverage ft
    else (front :: rest, coverage, ft)

/-- The `for` loop of `dropFeatures`. -/
def dropLoop : List Feature → BaseCoverage → FragmentTracker → BaseCoverage × FragmentTracker
  | [], coverage, ft => (coverage, ft)
  | feat :: rest, coverage, ft =>
    if feat.type = FeatureType.Gene then
      dropLoop rest (coverage ++ [CoverageCall.compute feat])
        (Function.update ft feat.feature_id none)
    else dropLoop rest coverage ft

/-- The function `dropFeatures(features, coverage)`: the window is cleared after the loop. -/
def dropFeatures (features : List Feature) (coverage : BaseCoverage) (ft : FragmentTracker) :
    List Feature × BaseCoverage × FragmentTracker :=
  let r := dropLoop features coverage ft
  ([], r.1, r.2)

/-! ## `intersectBlock` and `feature_strand` -/

/-- The function `intersectBlock(block, features)`; the overlap test `intersectInterval`
is defined outside `Expression.cpp` and is a parameter. -/
def intersectBlock (intersectInterval : Feature → Feature → Bool) (block : Feature) :
    List Feature → List Feature
  | [] => []
  | current :: rest =>
    if current.start ≤ block.end_ then
      if intersectInterval block current then
        current :: intersectBlock intersectInterval block rest
      else intersectBlock intersectInterval block rest
    else []

/-- The function `feature_strand(alignment, orientation)`. -/
def feature_strand (alignment : Alignment) (orientation : Strand) : Strand :=
  if orientation = Strand.Unknown then orientation
  else
    let target := alignment.reverseFlag
    let target := if xor (decide (orientation = Strand.Forward)) alignment.firstFlag
      then !target else target
    if target then Strand.Reverse else Strand.Forward

/-! ## Collaborators of the classification engine -/

/-- Idealised `double`: a finite value is an exact rational, `none` stands for
a non-finite result (NaN or an infinity). -/
abbrev Dbl := Option ℚ

/-- Addition of idealised doubles. -/
def dblAdd (a b : Dbl) : Dbl :=
  match a, b with
  | some x, some y => some (x + y)
  | _, _ => none

/-- The quotient `static_cast<double>(n) / d` of an `int` by an `unsigned int`;
division by zero is non-finite. -/
def dblDiv (n : Int) (d : Nat) : Dbl :=
  if d = 0 then none else some ((n : ℚ) / (d : ℚ))

/-- The operation `set::insert` on a duplicate-free list. -/
def setInsert (s : List String) (x : String) : List String :=
  if x ∈ s then s else s ++ [x]

/-- The call `set_intersection(a, b)`: the elements of `a` that are in `b`. -/
def setInter (a b : List String) : List String := a.filter (fun x => decide (x ∈ b))

/-- Modelled from the spec: the deferred `Collector` (declared outside
`Expression.cpp`) stages a dosage keyed by gene and exon; nothing reaches the
real exon counters until the gene is collected. `data` is the staged entries
`(gene_id, exon_id, dosage)` in the order they were added. -/
structure Collector where
  data : List (String × String × Dbl)

/-- Modelled from the spec: `Collector::add` stages one dosage for a gene and
an exon. -/
def Collector.add (c : Collector) (gene_id exon_id : String) (coverage : Dbl) : Collector :=
  { data := c.data ++ [(gene_id, exon_id, coverage)] }

/-- Modelled from the spec: `Collector::queryGene` tells whether any dosage is
staged for the gene. -/
def Collector.queryGene (c : Collector) (gene_id : String) : Bool :=
  c.data.any (fun e => decide (e.1 = gene_id))

/-- Modelled from the spec: `Collector::collect` releases every dosage staged
for the gene into the exon counters. -/
def Collector.collect (c : Collector) (gene_id : String) (exonCounts : String → Dbl) :
    String → Dbl :=
  (c.data.filter (fun e => decide (e.1 = gene_id))).foldl
    (fun counts e => Function.update counts e.2.1 (dblAdd (counts e.2.1) e.2.2)) exonCounts

/-- Functions and tables the engine uses that are defined outside
`Expression.cpp`: the interval tests, the global `geneNames` table (an absent
key reads as the empty string) and the reference-sequence reader. -/
structure Env where
  intersectInterval : Feature → Feature → Bool
  partialIntersect : Feature → Feature → Int
  geneNames : String → String
  hasContig : Nat → Bool
  getSeq : Nat → Nat → Nat → String
  gc : String → Dbl

/-- Modelled from the spec: the class `Metrics`, declared outside
`Expression.cpp`, is a mapping from a category label to its count. -/
abbrev Metrics := String → Nat

/-- Everything the engine mutates: the `Metrics` counter, the global count
maps (`geneCounts`, `geneFragmentCounts` and `uniqueGeneCounts` only ever grow
by one, so they are natural numbers; `exonCounts` holds doubles), the global
fragment tracker, the coverage sink and the pair-state map `fragments` (query
name to recorded exon and end position). -/
structure State where
  counter : Metrics
  exonCounts : String → Dbl
  geneCounts : String → Nat
  geneFragmentCounts : String → Nat
  uniqueGeneCounts : String → Nat
  fragmentTracker : FragmentTracker
  baseCoverage : BaseCoverage
  fragments : String → Option (String × Nat)

/-- Modelled from the spec: `Metrics::increment(name)` adds one to the count
of the label. -/
def increment (counter : Metrics) (name : String) : Metrics :=
  Function.update counter name (counter name + 1)

/-- The set `blacklistedGlobins`. -/
def blacklistedGlobins : List String :=
  ["HBA1", "HBA2", "HBB", "HBD", "HBG1", "HBG2", "HBE1", "HBM", "HBQ1", "HBZ", "HBBP1", "HBZP1"]

/-! ## `exonAlignmentMetrics` -/

/-- Local variables of `exonAlignmentMetrics` that the block loop updates,
with the coverage sink. -/
structure Scan where
  genes : List (List String)
  alignedExons : List String
  collector : Collector
  coverage : BaseCoverage
  intragenic : Bool
  transcriptPlus : Bool
  transcriptMinus : Bool
  ribosomal : Bool
  exonic : Bool

/-- The call `genes.rbegin()->insert(gene_id)`: insertion into the last set of the
vector. -/
def insertLast : List (List String) → String → List (List String)
  | [], _ => []
  | [s], g => [setInsert s g]
  | s :: t :: rest, g => s :: insertLast (t :: rest) g

/-- The strand test at the top of the inner loop: the feature is kept when the
read strand is unknown or equals the feature's strand. -/
def strandCompatible (read_strand : Strand) (result : Feature) : Bool :=
  !(decide (read_strand ≠ Strand.Unknown) && decide (read_strand ≠ result.strand))

/-- The full-containment test `intersectionSize == block->end - block->start`,
the `int` being converted to `coord`. -/
def fullyContains (env : Env) (result block : Feature) : Bool :=
  decide (toCoord (env.partialIntersect result block) = csub block.end_ block.start)

/-- Body of the inner loop over the features intersecting one block. -/
def resultStep (env : Env) (read_strand : Strand) (length : Nat) (block : Feature)
    (s : Scan) (result : Feature) : Scan :=
  if strandCompatible read_strand result then
    let s1 : Scan :=
      if result.strand = Strand.Forward then { s with transcriptPlus := true }
      else if result.strand = Strand.Reverse then { s with transcriptMinus := true }
      else s
    let s2 : Scan :=
      if result.type = FeatureType.Exon then
        if fullyContains env result block then
          { s1 with
            exonic := true
            genes := insertLast s1.genes result.gene_id
            collector := s1.collector.add result.gene_id result.feature_id
              (dblDiv (env.partialIntersect result block) length)
            coverage := s1.coverage ++ [CoverageCall.add result block.start block.end_]
            alignedExons := setInsert s1.alignedExons result.feature_id }
        else { s1 with exonic := true }
      else if result.type = FeatureType.Gene then { s1 with intragenic := true }
      else s1
    if result.ribosomal then { s2 with ribosomal := true } else s2
  else s

/-- Body of the outer loop over the blocks of the read. -/
def blockStep (env : Env) (read_strand : Strand) (length : Nat) (window : List Feature)
    (s : Scan) (block : Feature) : Scan :=
  (intersectBlock env.intersectInterval block window).foldl
    (resultStep env read_strand length block) { s with genes := s.genes ++ [[]] }

/-- The set `last`: the intersection of the per-block gene sets, for a
non-empty vector `genes`. -/
def intersectGenes : List (List String) → List String
  | [] => []
  | first :: rest => rest.foldl setInter first

/-- Body of the loop over the unambiguous genes `last`. -/
def geneStep (highQuality : Bool) (alignment : Alignment) (collector : Collector)
    (st : State) (gene : String) : State :=
  if highQuality then
    let st1 : State :=
      if collector.queryGene gene then
        let tracked := (st.fragmentTracker gene).getD []
        { st with
          geneCounts := Function.update st.geneCounts gene (st.geneCounts gene + 1)
          fragmentTracker :=
            Function.update st.fragmentTracker gene
              (some (if alignment.qname ∈ tracked then tracked else tracked ++ [alignment.qname]))
          geneFragmentCounts :=
            if alignment.qname ∈ tracked then st.geneFragmentCounts
            else Function.update st.geneFragmentCounts gene (st.geneFragmentCounts gene + 1)
          uniqueGeneCounts :=
            if alignment.duplicateFlag then st.uniqueGeneCounts
            else Function.update st.uniqueGeneCounts gene (st.uniqueGeneCounts gene + 1) }
      else st
    { st1 with
      exonCounts := collector.collect gene st1.exonCounts
      baseCoverage := st1.baseCoverage ++ [CoverageCall.commit gene] }
  else st

/-- The locals before the block loop; the coverage sink is the caller's. -/
def initScan (coverage : BaseCoverage) : Scan :=
  { genes := []
    alignedExons := []
    collector := { data := [] }
    coverage := coverage
    intragenic := false
    transcriptPlus := false
    transcriptMinus := false
    ribosomal := false
    exonic := false }

/-- The loop over the blocks of the read. -/
def scanBlocks (env : Env) (read_strand : Strand) (length : Nat) (window : List Feature)
    (blocks : List Feature) (coverage : BaseCoverage) : Scan :=
  blocks.foldl (blockStep env read_strand length window) (initScan coverage)

/-- A run of `counter.increment` calls, in order. -/
def incrementAll (counter : Metrics) (names : List String) : Metrics :=
  names.foldl increment counter

/-- The set `unambiguousGeneNames`: the gene names of the ids in `last`. -/
def unambiguousGeneNames (env : Env) (last : List String) : List String :=
  last.foldl (fun names gene_id => setInsert names (env.geneNames gene_id)) []

/-- The labels incremented by the globin check inside `if (genes.size() >= 1)`. -/
def globinLabels (env : Env) (alignment : Alignment) (scan : Scan) : List String :=
  if scan.genes.length ≥ 1 then
    if setInter (unambiguousGeneNames env (intersectGenes scan.genes)) blacklistedGlobins = [] then
      if alignment.duplicateFlag then ["Non-Globin Reads", "Non-Globin Duplicate Reads"]
      else ["Non-Globin Reads"]
    else []
  else []

/-- The flag `doExonMetrics` after the `if (genes.size() >= 1)` block: set by
every iteration of the loop over `last`. -/
def doExonMetrics (scan : Scan) : Bool :=
  decide (scan.genes.length ≥ 1) && !(intersectGenes scan.genes).isEmpty

/-- The labels incremented by the three-way category `if`. -/
def categoryLabels (highQuality : Bool) (scan : Scan) : List String :=
  if !scan.exonic then
    if scan.intragenic then
      ["Intronic Reads", "Intragenic Reads"] ++
        (if highQuality then ["HQ Intronic Reads", "HQ Intragenic Reads"] else [])
    else
      ["Intergenic Reads"] ++ (if highQuality then ["HQ Intergenic Reads"] else [])
  else if doExonMetrics scan then
    ["Exonic Reads", "Intragenic Reads"] ++
      (if highQuality then ["HQ Exonic Reads", "HQ Intragenic Reads"] else [])
  else
    ["Ambiguous Reads"] ++ (if highQuality then ["HQ Ambiguous Reads"] else [])

/-- The labels incremented by the strandedness block. -/
def strandLabels (alignment : Alignment) (singleEnd transcriptPlus transcriptMinus : Bool) :
    List String :=
  if xor transcriptMinus transcriptPlus && (singleEnd || alignment.pairedFlag) then
    if singleEnd || alignment.firstFlag then
      if alignment.reverseFlag then
        (if transcriptMinus then ["End 1 Sense"] else ["End 1 Antisense"])
      else (if transcriptPlus then ["End 1 Sense"] else ["End 1 Antisense"])
    else
      if alignment.reverseFlag then
        (if transcriptMinus then ["End 2 Sense"] else ["End 2 Antisense"])
      else (if transcriptPlus then ["End 2 Sense"] else ["End 2 Antisense"])
  else []

/-- The guard of the GC-sampling block. -/
def gcEligible (env : Env) (chr : Nat) (blocks : List Feature) (alignment : Alignment)
    (highQuality : Bool) (scan : Scan) : Bool :=
  env.hasContig chr && highQuality && scan.exonic && doExonMetrics scan &&
    decide (scan.alignedExons.length = 1) && decide (blocks.length = 1) &&
    decide (alignment.insertSize.natAbs > 100) && decide (alignment.insertSize.natAbs < 1000)

/-- The GC-sampling block at the end of `exonAlignmentMetrics`: the returned
value and the pair-state map afterwards. -/
def gcSample (env : Env) (chr : Nat) (blocks : List Feature) (alignment : Alignment)
    (highQuality : Bool) (scan : Scan) (fragments : String → Option (String × Nat)) :
    Dbl × (String → Option (String × Nat)) :=
  if gcEligible env chr blocks alignment highQuality scan then
    let exonName := scan.alignedExons.headD ""
    match fragments alignment.qname with
    | none =>
      (some (-1), Function.update fragments alignment.qname (some (exonName, alignment.positionEnd)))
    | some entry =>
      if exonName = entry.1 then
        if alignment.positionEnd ≤ entry.2 ∨ (alignment.position : Int) = alignment.matePosition then
          (some (-1), fragments)
        else
          let seq := env.getSeq chr (csub entry.2 alignment.length) alignment.positionEnd
          (if seq.length > 0 then env.gc seq else some (-1),
            Function.update fragments alignment.qname none)
      else (some (-1), fragments)
  else (some (-1), fragments)

/-- The function `exonAlignmentMetrics`: the returned GC sample and the state afterwards.
`window` is `features[chr]`, `chr` the chromosome of the alignment. -/
def exonAlignmentMetrics (env : Env) (window : List Feature) (chr : Nat)
    (blocks : List Feature) (alignment : Alignment) (length : Nat) (orientation : Strand)
    (highQuality singleEnd : Bool) (st : State) : Dbl × State :=
  let read_strand := feature_strand alignment orientation
  let scan := scanBlocks env read_strand length window blocks st.baseCoverage
  let st1 : State :=
    if scan.genes.length ≥ 1 then
      (intersectGenes scan.genes).foldl (geneStep highQuality alignment scan.collector)
        { st with baseCoverage := scan.coverage }
    else { st with baseCoverage := scan.coverage }
  let counter :=
    incrementAll st1.counter
      (globinLabels env alignment scan ++ categoryLabels highQuality scan ++
        (if scan.ribosomal then ["rRNA Reads"] else []) ++
        strandLabels alignment singleEnd scan.transcriptPlus scan.transcriptMinus)
  let sample := gcSample env chr blocks alignment highQuality scan st1.fragments
  (sample.1,
    { st1 with
      counter := counter
      baseCoverage := st1.baseCoverage ++ [CoverageCall.reset]
      fragments := sample.2 })

/-! ## The window protocol and the intersection call as state transformers -/

/-- Modelled from the spec: the caller, outside `Expression.cpp`, trims the
window with the coverage sink once per alignment, in stream order. -/
def trimSequence : List Alignment → List Feature → BaseCoverage → FragmentTracker →
    List Feature × BaseCoverage × FragmentTracker
  | [], features, coverage, ft => (features, coverage, ft)
  | alignment :: rest, features, coverage, ft =>
    let r := trimFeaturesCoverage alignment features coverage ft
    trimSequence rest r.1 r.2.1 r.2.2

/-- Modelled from the spec: the caller's protocol on one chromosome, the trims
of `trimSequence` followed by `dropFeatures` at the chromosome change. -/
def trimThenDrop (alignments : List Alignment) (features : List Feature)
    (coverage : BaseCoverage) (ft : FragmentTracker) :
    List Feature × BaseCoverage × FragmentTracker :=
  let r := trimSequence alignments features coverage ft
  dropFeatures r.1 r.2.1 r.2.2

/-- The loop of `intersectBlock` with the window, which the function receives
by reference, carried along: `remaining` is what the iterator has not visited
yet, `output` the list built so far. Returns the window after the loop and the
output. -/
def intersectScan (intersectInterval : Feature → Feature → Bool) (block : Feature)
    (features : List Feature) : List Feature → List Feature → List Feature × List Feature
  | [], output => (features, output)
  | current :: remaining, output =>
    if current.start ≤ block.end_ then
      intersectScan intersectInterval block features remaining
        (if intersectInterval block current then output ++ [current] else output)
    else (features, output)

/-- A call of `intersectBlock(block, features)` as a state transformer: the
window after the call and the returned list. -/
def intersectBlockCall (intersectInterval : Feature → Feature → Bool) (block : Feature)
    (features : List Feature) : List Feature × List Feature :=
  intersectScan intersectInterval block features features []

/-! ## `fragmentSizeMetrics` -/

/-- Local variables of the block loop of `fragmentSizeMetrics`. -/
structure SizeScan where
  firstBlock : Bool
  sameExon : Bool
  exonName : String
  deriving DecidableEq

/-- One iteration of the block loop of `fragmentSizeMetrics`. The loop
condition `sameExon && block != blocks.end()` ends the loop once `sameExon` is
cleared, so the remaining blocks leave the variables as they are. The
comparison of the `int` overlap with `block->end - block->start` is
`fullyContains`. -/
def sizeBlockStep (env : Env) (window : List Feature) (s : SizeScan) (block : Feature) :
    SizeScan :=
  if s.sameExon then
    match intersectBlock env.intersectInterval block window with
    | [front] =>
      if fullyContains env front block then
        if s.firstBlock then { firstBlock := false, sameExon := true, exonName := front.feature_id }
        else if s.exonName ≠ front.feature_id then { s with sameExon := false }
        else { s with firstBlock := false }
      else { s with sameExon := false, firstBlock := false }
    | _ => { s with sameExon := false, firstBlock := false }
  else s

/-- The block loop of `fragmentSizeMetrics`. -/
def sizeScan (env : Env) (window : List Feature) (blocks : List Feature) : SizeScan :=
  blocks.foldl (sizeBlockStep env window) { firstBlock := true, sameExon := true, exonName := "" }

/-- The test `sameExon && exonName.size()` after the loop: the exon the read
is paired on, if any. -/
def pairingExon (s : SizeScan) : Option String :=
  if s.sameExon && decide (s.exonName ≠ "") then some s.exonName else none

/-- Everything `fragmentSizeMetrics` mutates: the remaining-sample budget
`doFragmentSize` (an `unsigned int`), the window `(*bedFeatures)[chr]` and
whether `bedFeatures` has been deleted, the pair-state map `fragments`, the
size histogram `fragmentSizes` (its counts are below the 32-bit budget and
never wrap) and the global fragment tracker. -/
structure SizeState where
  doFragmentSize : Nat
  bedFeatures : List Feature
  bedReleased : Bool
  fragments : String → Option (String × Nat)
  fragmentSizes : Int → Nat
  fragmentTracker : FragmentTracker

/-- The rejection test of the second occurrence in `fragmentSizeMetrics`. -/
def sizeRejects (alignment : Alignment) (recordedEnd : Nat) : Bool :=
  alignment.mateReverseFlag || !alignment.reverseFlag ||
    decide (alignment.positionEnd ≤ recordedEnd) ||
    decide ((alignment.position : Int) = alignment.matePosition)

/-- The function `fragmentSizeMetrics`: the state after the call. -/
def fragmentSizeMetrics (env : Env) (st : SizeState) (blocks : List Feature)
    (alignment : Alignment) : SizeState :=
  let trimmed := trimFeatures alignment st.bedFeatures st.fragmentTracker
  let st1 : SizeState := { st with bedFeatures := trimmed.1, fragmentTracker := trimmed.2 }
  match pairingExon (sizeScan env trimmed.1 blocks) with
  | none => st1
  | some exonName =>
    match st1.fragments alignment.qname with
    | none =>
      { st1 with fragments :=
          Function.update st1.fragments alignment.qname (some (exonName, alignment.positionEnd)) }
    | some entry =>
      if exonName = entry.1 then
        if sizeRejects alignment entry.2 then st1
        else
          let budget := (st1.doFragmentSize + uintMod - 1) % uintMod
          { st1 with
            fragmentSizes :=
              Function.update st1.fragmentSizes (alignment.insertSize.natAbs : Int)
                (st1.fragmentSizes (alignment.insertSize.natAbs : Int) + 1)
            fragments := Function.update st1.fragments alignment.qname none
            doFragmentSize := budget
            bedReleased := st1.bedReleased || decide (budget = 0) }
      else st1

/-! ## `legacyExonAlignmentMetrics` -/

/-- Conversion of a `coord` to `long long` (two's complement). -/
def toInt64 (x : Nat) : Int :=
  if x % coordMod < 2 ^ 63 then ((x % coordMod : Nat) : Int)
  else ((x % coordMod : Nat) : Int) - (coordMod : Int)

/-- Variables of the split-detection loop: `split` and `lastEnd`. -/
structure SplitScan where
  split : Bool
  lastEnd : Int
  deriving DecidableEq

/-- One iteration of the split-detection loop. `block->start - lastEnd` is an
`unsigned long long` subtraction, `SPLIT_DISTANCE - 1` an `unsigned int`
one. -/
def splitStep (SPLIT_DISTANCE : Nat) (s : SplitScan) (block : Feature) : SplitScan :=
  { split :=
      if decide (s.lastEnd > 0) && !s.split then
        decide (csub block.start (toCoord s.lastEnd) > (SPLIT_DISTANCE + uintMod - 1) % uintMod)
      else s.split
    lastEnd := toInt64 block.end_ }

/-- The flag `split` after the split-detection loop. -/
def legacySplit (SPLIT_DISTANCE : Nat) (blocks : List Feature) : Bool :=
  (blocks.foldl (splitStep SPLIT_DISTANCE) { split := false, lastEnd := -1 }).split

/-- The feature `current`: the span of the read, from `Position() + 1` to
`PositionEnd()`. Members the code does not assign are left at fixed
defaults. -/
def readSpan (alignment : Alignment) (chr : Nat) : Feature :=
  { start := cadd alignment.position 1
    end_ := alignment.positionEnd
    chromosome := chr
    strand := Strand.Unknown
    type := FeatureType.Other
    feature_id := ""
    gene_id := ""
    ribosomal := false }

/-- A default-constructed `Feature`, the initial value of the local `exon`. -/
def defaultFeature : Feature :=
  { start := 0, end_ := 0, chromosome := 0, strand := Strand.Unknown,
    type := FeatureType.Other, feature_id := "", gene_id := "", ribosomal := false }

/-- The update `legacySplitDosage[key] += value` on the local map, kept as an
association list in insertion order. -/
def dosageAdd : List (String × Dbl) → String → Dbl → List (String × Dbl)
  | [], key, value => [(key, dblAdd (some 0) value)]
  | (k, d) :: rest, key, value =>
    if k = key then (k, dblAdd d value) :: rest else (k, d) :: dosageAdd rest key value

/-- The variables of `legacyExonAlignmentMetrics`: those of function scope,
those declared in the body of the loop over the results, `firstexon` of the
block loop, and the state the function mutates. -/
structure LegacyVars where
  intragenic : Bool
  transcriptPlus : Bool
  transcriptMinus : Bool
  ribosomal : Bool
  doExonMetrics : Bool
  exonic : Bool
  legacyJunction : Bool
  legacyNotExonic : Bool
  legacyNotSplit : Bool
  exon : Feature
  legacyFoundExon : Bool
  legacyFoundGene : Bool
  legacyTranscriptIntron : Bool
  legacyTranscriptExon : Bool
  legacySplitDosage : List (String × Dbl)
  firstexon : Bool
  st : State

/-- Body of the innermost loop, over the results again, for one gene and one
block; the loop condition `!firstexon` ends it. -/
def exonStep (env : Env) (result block : Feature) (v : LegacyVars) (ex : Feature) :
    LegacyVars :=
  if v.firstexon then v
  else if ex.type = FeatureType.Exon ∧ ex.gene_id = result.gene_id ∧
      env.intersectInterval ex block = true then
    let v1 : LegacyVars := if result.ribosomal then { v with ribosomal := true } else v
    if fullyContains env ex block then
      { v1 with
        exon := ex
        legacyTranscriptExon := true
        firstexon := true
        legacyFoundExon := true
        st := { v1.st with
          baseCoverage := v1.st.baseCoverage ++ [CoverageCall.add ex block.start block.end_] } }
    else if env.partialIntersect ex block > 0 then { v1 with legacyTranscriptIntron := true }
    else v1
  else v

/-- The start of an iteration of the block loop that passes the strand test:
`intragenic` is set, `legacyNotExonic` is set when the block starts after the
gene ends, and the locals `firstexon` and `legacyFoundExon` are cleared. -/
def blockEnter (result block : Feature) (v : LegacyVars) : LegacyVars :=
  { v with
    intragenic := true
    legacyNotExonic := v.legacyNotExonic || decide (block.start > result.end_)
    firstexon := false
    legacyFoundExon := false
    legacyFoundGene := true }

/-- The end of an iteration of the block loop: the `if (split && !legacyNotSplit)`
statement, which adds the block's share to the split dosage of the found exon
or records that the read is not split after all. -/
def blockDosage (split : Bool) (alignment : Alignment) (block : Feature) (v : LegacyVars) :
    LegacyVars :=
  if split && !v.legacyNotSplit then
    if v.legacyFoundExon then
      { v with
        legacySplitDosage := dosageAdd v.legacySplitDosage v.exon.feature_id
          (dblDiv (Int.ofNat (csub block.end_ block.start)) alignment.length) }
    else { v with legacyNotSplit := true }
  else v

/-- Body of the loop over the blocks, for one gene; a block that fails the
strand test is skipped by `continue`. -/
def legacyBlockStep (env : Env) (read_strand : Strand) (split : Bool) (alignment : Alignment)
    (results : List Feature) (result : Feature) (v : LegacyVars) (block : Feature) :
    LegacyVars :=
  if read_strand ≠ Strand.Unknown ∧ read_strand ≠ result.strand then v
  else
    blockDosage split alignment block
      (results.foldl (exonStep env result block) (blockEnter result block v))

/-- The credit given for one gene when an exon was found on the last block
and the read is high-quality. -/
def legacyCredit (split : Bool) (alignment : Alignment) (v : LegacyVars) : State :=
  let tracked := (v.st.fragmentTracker v.exon.gene_id).getD []
  { v.st with
    exonCounts :=
      if split && !v.legacyNotSplit then
        v.legacySplitDosage.foldl
          (fun counts e => Function.update counts e.1 (dblAdd (counts e.1) e.2)) v.st.exonCounts
      else
        Function.update v.st.exonCounts v.exon.feature_id
          (dblAdd (v.st.exonCounts v.exon.feature_id) (some 1))
    geneCounts :=
      Function.update v.st.geneCounts v.exon.gene_id (v.st.geneCounts v.exon.gene_id + 1)
    fragmentTracker :=
      Function.update v.st.fragmentTracker v.exon.gene_id
        (some (if alignment.qname ∈ tracked then tracked else tracked ++ [alignment.qname]))
    geneFragmentCounts :=
      if alignment.qname ∈ tracked then v.st.geneFragmentCounts
      else Function.update v.st.geneFragmentCounts v.exon.gene_id
        (v.st.geneFragmentCounts v.exon.gene_id + 1)
    uniqueGeneCounts :=
      if alignment.duplicateFlag then v.st.uniqueGeneCounts
      else Function.update v.st.uniqueGeneCounts v.exon.gene_id
        (v.st.uniqueGeneCounts v.exon.gene_id + 1)
    baseCoverage := v.st.baseCoverage ++ [CoverageCall.commit v.exon.gene_id] }

/-- The start of an iteration of the loop over the results: the locals
declared in the loop body are fresh and `legacyNotSplit` is cleared. -/
def resultEnter (v : LegacyVars) : LegacyVars :=
  { v with
    exon := defaultFeature
    legacyFoundExon := false
    legacyFoundGene := false
    legacyTranscriptIntron := false
    legacyTranscriptExon := false
    legacySplitDosage := []
    legacyNotSplit := false }

/-- The transcript evidence recorded for a Gene feature, before any strand
test. -/
def markTranscript (result : Feature) (v : LegacyVars) : LegacyVars :=
  if result.strand = Strand.Forward then { v with transcriptPlus := true }
  else if result.strand = Strand.Reverse then { v with transcriptMinus := true }
  else v

/-- The statement `if (legacyFoundExon)` after the block loop. -/
def creditGene (split highQuality : Bool) (alignment : Alignment) (v : LegacyVars) :
    LegacyVars :=
  if v.legacyFoundExon then
    { v with
      st := if highQuality then legacyCredit split alignment v else v.st
      doExonMetrics := true }
  else v

/-- The statement `if (legacyTranscriptIntron && legacyTranscriptExon)`. -/
def markJunction (v : LegacyVars) : LegacyVars :=
  if v.legacyTranscriptIntron && v.legacyTranscriptExon then { v with legacyJunction := true }
  else v

/-- The statement `if (legacyTranscriptExon) exonic = true`. -/
def markExonic (v : LegacyVars) : LegacyVars :=
  if v.legacyTranscriptExon then { v with exonic := true } else v

/-- Body of the loop over the results. -/
def legacyResultStep (env : Env) (read_strand : Strand) (split : Bool) (highQuality : Bool)
    (alignment : Alignment) (blocks : List Feature) (results : List Feature)
    (v : LegacyVars) (result : Feature) : LegacyVars :=
  if result.type = FeatureType.Gene then
    markExonic (markJunction (creditGene split highQuality alignment
      (blocks.foldl (legacyBlockStep env read_strand split alignment results result)
        (markTranscript result (resultEnter v)))))
  else resultEnter v

/-- The variables before the loop over the results. -/
def initLegacyVars (st : State) : LegacyVars :=
  { intragenic := false
    transcriptPlus := false
    transcriptMinus := false
    ribosomal := false
    doExonMetrics := false
    exonic := false
    legacyJunction := false
    legacyNotExonic := false
    legacyNotSplit := false
    exon := defaultFeature
    legacyFoundExon := false
    legacyFoundGene := false
    legacyTranscriptIntron := false
    legacyTranscriptExon := false
    legacySplitDosage := []
    firstexon := false
    st := st }

/-- The loop over the results of intersecting the read span with the
window. -/
def legacyScan (env : Env) (window : List Feature) (chr : Nat) (SPLIT_DISTANCE : Nat)
    (blocks : List Feature) (alignment : Alignment) (orientation : Strand)
    (highQuality : Bool) (st : State) : LegacyVars :=
  let results := intersectBlock env.intersectInterval (readSpan alignment chr) window
  results.foldl
    (legacyResultStep env (feature_strand alignment orientation)
      (legacySplit SPLIT_DISTANCE blocks) highQuality alignment blocks results)
    (initLegacyVars st)

/-- The labels incremented by the category `if` chain of the legacy engine;
its last `else if` has no `else`. -/
def legacyCategoryLabels (highQuality split : Bool) (v : LegacyVars) : List String :=
  if v.legacyNotExonic || v.legacyJunction || !v.exonic then
    if v.intragenic then
      ["Intronic Reads", "Intragenic Reads"] ++
        (if highQuality then ["HQ Intronic Reads", "HQ Intragenic Reads"] else [])
    else
      ["Intergenic Reads"] ++ (if highQuality then ["HQ Intergenic Reads"] else [])
  else if v.doExonMetrics && !v.legacyJunction && !v.legacyNotExonic then
    ["Exonic Reads", "Intragenic Reads"] ++
      (if highQuality then ["HQ Exonic Reads", "HQ Intragenic Reads"] else []) ++
      (if split && !v.legacyNotSplit then ["Split Reads"] else [])
  else if v.intragenic then
    ["Exonic Reads", "Intragenic Reads"] ++
      (if highQuality then ["HQ Exonic Reads", "HQ Intragenic Reads"] else [])
  else []

/-- The function `legacyExonAlignmentMetrics`: the state afterwards. `window`
is `features[chr]`, `chr` the chromosome of the alignment. The parameter
`length` of the C++ function is not read by it. -/
def legacyExonAlignmentMetrics (env : Env) (SPLIT_DISTANCE : Nat) (window : List Feature)
    (chr : Nat) (blocks : List Feature) (alignment : Alignment) (orientation : Strand)
    (highQuality singleEnd : Bool) (st : State) : State :=
  let v := legacyScan env window chr SPLIT_DISTANCE blocks alignment orientation highQuality st
  { v.st with
    counter :=
      incrementAll v.st.counter
        (legacyCategoryLabels highQuality (legacySplit SPLIT_DISTANCE blocks) v ++
          (if v.ribosomal then ["rRNA Reads"] else []) ++
          strandLabels alignment singleEnd v.transcriptPlus v.transcriptMinus)
    baseCoverage := v.st.baseCoverage ++ [CoverageCall.reset] }

/-! ## The classification outcome in the words of the specification -/

/-- The features a block intersects that pass the strand test of the read. -/
def compatibleHits (env : Env) (read_strand : Strand) (window : List Feature)
    (block : Feature) : List Feature :=
  (intersectBlock env.intersectInterval block window).filter (strandCompatible read_strand)

/-- The strand-compatible Exon features that fully contain the block. -/
def containingExons (env : Env) (read_strand : Strand) (window : List Feature)
    (block : Feature) : List Feature :=
  (compatibleHits env read_strand window block).filter
    (fun f => decide (f.type = FeatureType.Exon) && fullyContains env f block)

/-- The candidate gene set of a block: the gene ids of the strand-compatible
Exon features that fully contain it. -/
def candidateGenes (env : Env) (read_strand : Strand) (window : List Feature)
    (block : Feature) : List String :=
  (containingExons env read_strand window block).map (fun f => f.gene_id)

/-- The genes common to the candidate sets of all blocks: the unambiguous gene
set of the read (empty for a read without blocks). -/
def sharedGenes (env : Env) (read_strand : Strand) (window : List Feature) :
    List Feature → List String
  | [] => []
  | block :: rest =>
    (candidateGenes env read_strand window block).filter
      (fun g => rest.all (fun b => decide (g ∈ candidateGenes env read_strand window b)))

/-- Some strand-compatible Exon feature intersected a block. -/
def exonEvidence (env : Env) (read_strand : Strand) (window : List Feature)
    (blocks : List Feature) : Bool :=
  blocks.any (fun b =>
    (compatibleHits env read_strand window b).any (fun f => decide (f.type = FeatureType.Exon)))

/-- Some strand-compatible Gene feature intersected a block. -/
def geneEvidence (env : Env) (read_strand : Strand) (window : List Feature)
    (blocks : List Feature) : Bool :=
  blocks.any (fun b =>
    (compatibleHits env read_strand window b).any (fun f => decide (f.type = FeatureType.Gene)))

/-- The category counter the specification assigns to a read. -/
def readCategory (env : Env) (read_strand : Strand) (window : List Feature)
    (blocks : List Feature) : String :=
  if (sharedGenes env read_strand window blocks).isEmpty = false then "Exonic Reads"
  else if exonEvidence env read_strand window blocks then "Ambiguous Reads"
  else if geneEvidence env read_strand window blocks then "Intronic Reads"
  else "Intergenic Reads"

/-- No gene of the list has its gene name in the globin blacklist. -/
def noGlobin (env : Env) (genes : List String) : Bool :=
  genes.all (fun g => !decide (env.geneNames g ∈ blacklistedGlobins))

/-! ## Block coordinates and aligned size in the words of the specification -/

/-- The operations that advance the start of the next block: M, =, X, N, D. -/
def advancesStart (c : Char) : Bool := c = 'M' || c = '=' || c = 'X' || c = 'N' || c = 'D'

/-- The sum of the lengths of the M, =, X, N and D operations of a CIGAR
prefix. -/
def advance (cigar : List CigarField) : Nat :=
  ((cigar.filter (fun c => advancesStart c.type)).map (fun c => c.length)).sum

/-- The coordinates `(start, end)` of the blocks of a CIGAR whose first
operation starts at `base`: one block per M, = or X operation, in CIGAR order,
starting at `base` plus the advance of the operations before it and ending
that operation's length later. -/
def specCoordsFrom (base : Nat) (cigar : List CigarField) : List (Nat × Nat) :=
  (cigar.inits.zip cigar).filterMap (fun x =>
    if isAlignedOp x.2.type then
      some (base + advance x.1, base + advance x.1 + x.2.length)
    else none)

/-- The coordinates the specification gives the blocks of a read at 0-based
position `p`: the first operation starts at `p + 1`. -/
def specBlockCoords (p : Nat) (cigar : List CigarField) : List (Nat × Nat) :=
  specCoordsFrom (p + 1) cigar

/-- Reduction of a coordinate pair to the range of `coord`. -/
def wrapCoords (x : Nat × Nat) : Nat × Nat := (x.1 % coordMod, x.2 % coordMod)

/-- The sum of the lengths of the operations of a CIGAR whose type passes a
test. -/
def sumLengths (test : Char → Bool) (cigar : List CigarField) : Nat :=
  ((cigar.filter (fun c => test c.type)).map (fun c => c.length)).sum

/-- The aligned size the specification gives a CIGAR: the lengths of the M, =
and X operations, plus those of the S operations in legacy mode. -/
def specAlignedSize (legacy : Bool) (cigar : List CigarField) : Nat :=
  sumLengths isAlignedOp cigar +
    (if legacy then sumLengths (fun c => decide (c = 'S')) cigar else 0)

/-- The fragment tracker after `fragmentTracker.erase(key)` for each key of a
list, in order. -/
def eraseAll (ft : FragmentTracker) (keys : List String) : FragmentTracker :=
  keys.foldl (fun t k => Function.update t k none) ft

/-! ## GC sampling in the words of the specification -/

/-- The set of aligned exons of a read: the feature ids of the
strand-compatible exons that fully contain one of its blocks. -/
def alignedExonIds (env : Env) (read_strand : Strand) (window : List Feature)
    (blocks : List Feature) : List String :=
  ((blocks.map (fun b =>
    (containingExons env read_strand window b).map (fun f => f.feature_id))).flatten).foldl
      setInsert []

/-- The conditions of GC sampling other than the insert size: exactly one
block, exactly one aligned exon, a high-quality read, at least one unambiguous
gene and a reference sequence for the chromosome. -/
def gcCandidate (env : Env) (read_strand : Strand) (window : List Feature) (chr : Nat)
    (blocks : List Feature) (highQuality : Bool) : Bool :=
  decide (blocks.length = 1) &&
    decide ((alignedExonIds env read_strand window blocks).length = 1) &&
    highQuality && !(sharedGenes env read_strand window blocks).isEmpty && env.hasContig chr

/-- The ordering guards of GC sampling fail: the read does not end after the
recorded end, or it starts where its mate starts. -/
def gcGuardFails (alignment : Alignment) (recordedEnd : Nat) : Bool :=
  decide (alignment.positionEnd ≤ recordedEnd) ||
    decide ((alignment.position : Int) = alignment.matePosition)

/-! ## Fragment-size sampling in the words of the specification -/

/-- The single feature a block intersects, when the block intersects exactly
one window feature and that feature fully contains it. -/
def soleContainer (env : Env) (window : List Feature) (block : Feature) : Option Feature :=
  match intersectBlock env.intersectInterval block window with
  | [f] => if fullyContains env f block then some f else none
  | _ => none

/-- The exon a read is paired on: the read has at least one block, every block
intersects exactly one window feature, that feature fully contains the block
and has the same, non-empty, feature id for every block. -/
def sizeExon (env : Env) (window : List Feature) : List Feature → Option String
  | [] => none
  | block :: rest =>
    match soleContainer env window block with
    | none => none
    | some f =>
      if f.feature_id ≠ "" ∧
          rest.all (fun b => decide ((soleContainer env window b).map (fun g => g.feature_id) =
            some f.feature_id)) = true
        then some f.feature_id else none

/-- The features intersecting a block that fully contain it, partial overlaps
left out. -/
def containers (env : Env) (window : List Feature) (block : Feature) : List Feature :=
  (intersectBlock env.intersectInterval block window).filter (fun f => fullyContains env f block)

/-- The exon a read would be paired on if partial overlaps did not count: the
read has at least one block, every block has exactly one intersecting feature
that fully contains it, and that feature has the same feature id for every
block. -/
def sizeExonIgnoringPartial (env : Env) (window : List Feature) : List Feature → Option String
  | [] => none
  | block :: rest =>
    match containers env window block with
    | [f] =>
      if rest.all (fun b => decide ((containers env window b).map (fun g => g.feature_id) =
          [f.feature_id])) = true
        then some f.feature_id else none
    | _ => none

/-- The four conditions under which the second mate's sample is accepted: the
read is reverse, its mate is not, the read ends strictly after the recorded
end, and the read does not start where its mate starts. -/
def sizeAccepts (alignment : Alignment) (recordedEnd : Nat) : Bool :=
  alignment.reverseFlag && !alignment.mateReverseFlag &&
    decide (recordedEnd < alignment.positionEnd) &&
    decide ((alignment.position : Int) ≠ alignment.matePosition)

/-! ## The legacy split flag in the words of the specification -/

/-- Some two successive blocks have a gap `next.start - previous.end` of at
least `T`, the difference being that of integers. -/
def hasSpliceGap (T : Nat) : List Feature → Bool
  | [] => false
  | [_] => false
  | previous :: next :: rest =>
    decide ((T : Int) ≤ (next.start : Int) - (previous.end_ : Int)) ||
      hasSpliceGap T (next :: rest)

/-- The blocks follow one another without overlap, as `extractBlocks` emits
them: each has its end in the positive range of `long long`, its start in the
range of `coord`, and starts no earlier than the block before it ends. -/
def blocksInOrder : List Feature → Bool
  | [] => true
  | [b] => decide (0 < b.end_ ∧ b.end_ < 2 ^ 63 ∧ b.start < coordMod)
  | previous :: next :: rest =>
    decide (0 < previous.end_ ∧ previous.end_ < 2 ^ 63 ∧ previous.start < coordMod ∧
      previous.end_ ≤ next.start) && blocksInOrder (next :: rest)

/-! ## Strandedness and ribosomal evidence in the words of the specification -/

/-- The strandedness counter of a read, from its transcript-plus and
transcript-minus evidence: none unless exactly one of the two was recorded and
the run is single-end or the read is paired; an End 1 counter when the run is
single-end or the read is first in its pair, an End 2 counter otherwise; a
Sense counter when the reverse flag is set exactly when the evidence is
transcript-minus, an Antisense counter otherwise. -/
def strandCounter (alignment : Alignment) (singleEnd plus minus : Bool) : Option String :=
  if xor plus minus && (singleEnd || alignment.pairedFlag) then
    if singleEnd || alignment.firstFlag then
      (if alignment.reverseFlag = minus then some "End 1 Sense" else some "End 1 Antisense")
    else
      (if alignment.reverseFlag = minus then some "End 2 Sense" else some "End 2 Antisense")
  else none

/-- Transcript evidence of the current engine for a strand: some
strand-compatible feature on that strand intersects a block. -/
def currentTranscript (strand : Strand) (env : Env) (read_strand : Strand)
    (window : List Feature) (blocks : List Feature) : Bool :=
  blocks.any (fun b =>
    (compatibleHits env read_strand window b).any (fun f => decide (f.strand = strand)))

/-- Ribosomal evidence of the current engine: some strand-compatible feature
flagged ribosomal intersects a block. -/
def currentRibosomal (env : Env) (read_strand : Strand) (window : List Feature)
    (blocks : List Feature) : Bool :=
  blocks.any (fun b => (compatibleHits env read_strand window b).any (fun f => f.ribosomal))

/-- The features intersecting the span of the read, which the legacy engine
works on. -/
def legacyResults (env : Env) (window : List Feature) (chr : Nat) (alignment : Alignment) :
    List Feature :=
  intersectBlock env.intersectInterval (readSpan alignment chr) window

/-- Transcript evidence of the legacy engine for a strand: some Gene feature
on that strand intersects the span of the read, strand-compatible or not. -/
def legacyTranscript (strand : Strand) (env : Env) (window : List Feature) (chr : Nat)
    (alignment : Alignment) : Bool :=
  (legacyResults env window chr alignment).any
    (fun g => decide (g.type = FeatureType.Gene) && decide (g.strand = strand))

/-- An exon of the gene `result` that intersects the block. -/
def exonOfGeneHits (env : Env) (result block ex : Feature) : Bool :=
  decide (ex.type = FeatureType.Exon) && decide (ex.gene_id = result.gene_id) &&
    env.intersectInterval ex block

/-- Ribosomal evidence of the legacy engine: some strand-compatible Gene
feature flagged ribosomal intersects the span of the read and, among the
features intersecting the span, an exon of that gene intersects a block. -/
def legacyRibosomal (env : Env) (read_strand : Strand) (window : List Feature) (chr : Nat)
    (blocks : List Feature) (alignment : Alignment) : Bool :=
  (legacyResults env window chr alignment).any (fun g =>
    decide (g.type = FeatureType.Gene) && strandCompatible read_strand g && g.ribosomal &&
      blocks.any (fun b =>
        (legacyResults env window chr alignment).any (fun ex => exonOfGeneHits env g b ex)))

/-! ## Concrete inputs used to instantiate the theorems -/

/-- A forward first-in-pair read at 0-based position 9 with CIGAR `5M3N2S4X`. -/
def sampleAlignment : Alignment :=
  { position := 9
    positionEnd := 21
    cigar := [⟨'M', 5, by decide⟩, ⟨'N', 3, by decide⟩, ⟨'S', 2, by decide⟩, ⟨'X', 4, by decide⟩]
    reverseFlag := false
    firstFlag := true
    pairedFlag := true
    duplicateFlag := false
    mateReverseFlag := true
    qname := "read1"
    matePosition := 120
    insertSize := 150
    length := 11 }

/-- A read at 0-based position 100. -/
def staleAlignment : Alignment := { sampleAlignment with position := 100, positionEnd := 112 }

/-- A window ascending by start whose second feature ends before its first:
a gene spanning 1..1000 followed by one of its exons, 2..50. -/
def staleWindow : List Feature :=
  [ { start := 1, end_ := 1000, chromosome := 1, strand := Strand.Forward,
      type := FeatureType.Gene, feature_id := "G1", gene_id := "G1", ribosomal := false },
    { start := 2, end_ := 50, chromosome := 1, strand := Strand.Forward,
      type := FeatureType.Exon, feature_id := "E1", gene_id := "G1", ribosomal := false } ]

/-- A window whose features ascend by start and by end. -/
def sortedWindow : List Feature :=
  [ { start := 1, end_ := 50, chromosome := 1, strand := Strand.Forward,
      type := FeatureType.Gene, feature_id := "G0", gene_id := "G0", ribosomal := false },
    { start := 60, end_ := 150, chromosome := 1, strand := Strand.Forward,
      type := FeatureType.Gene, feature_id := "G1", gene_id := "G1", ribosomal := false },
    { start := 70, end_ := 150, chromosome := 1, strand := Strand.Forward,
      type := FeatureType.Exon, feature_id := "E1", gene_id := "G1", ribosomal := false } ]

/-- A concrete environment: closed-interval overlap, overlap size equal to the
block length when the block lies inside the feature, gene `G1` named `HBB`. -/
def sampleEnv : Env :=
  { intersectInterval := fun a b => decide (a.start ≤ b.end_ ∧ b.start ≤ a.end_)
    partialIntersect := fun target query =>
      if target.start ≤ query.start ∧ query.end_ ≤ target.end_ then
        ((query.end_ - query.start : Nat) : Int) else 0
    geneNames := fun g => if g = "G1" then "HBB" else g
    hasContig := fun _ => true
    getSeq := fun _ _ _ => ""
    gc := fun _ => some 0 }

/-- Gene `G1` on the forward strand, 1..100. -/
def geneG1 : Feature :=
  { start := 1, end_ := 100, chromosome := 1, strand := Strand.Forward,
    type := FeatureType.Gene, feature_id := "G1", gene_id := "G1", ribosomal := false }

/-- Exon `E1` of gene `G1`, 10..50. -/
def exonE1 : Feature :=
  { start := 10, end_ := 50, chromosome := 1, strand := Strand.Forward,
    type := FeatureType.Exon, feature_id := "E1", gene_id := "G1", ribosomal := false }

/-- Exon `E2` of another gene `G2`, 60..90. -/
def exonE2 : Feature :=
  { start := 60, end_ := 90, chromosome := 1, strand := Strand.Forward,
    type := FeatureType.Exon, feature_id := "E2", gene_id := "G2", ribosomal := false }

/-- A block 20..30 inside `E1`. -/
def blockInE1 : Feature :=
  { start := 20, end_ := 30, chromosome := 1, strand := Strand.Forward,
    type := FeatureType.Other, feature_id := "", gene_id := "", ribosomal := false }

/-- A block 70..80 inside `E2`. -/
def blockInE2 : Feature :=
  { start := 70, end_ := 80, chromosome := 1, strand := Strand.Forward,
    type := FeatureType.Other, feature_id := "", gene_id := "", ribosomal := false }

/-- An empty block at 20 (a zero-length aligned operation). -/
def emptyBlock : Feature :=
  { start := 20, end_ := 20, chromosome := 1, strand := Strand.Forward,
    type := FeatureType.Other, feature_id := "", gene_id := "", ribosomal := false }

/-- The state before any read: all counts zero, nothing tracked. -/
def emptyState : State :=
  { counter := fun _ => 0
    exonCounts := fun _ => some 0
    geneCounts := fun _ => 0
    geneFragmentCounts := fun _ => 0
    uniqueGeneCounts := fun _ => 0
    fragmentTracker := fun _ => none
    baseCoverage := []
    fragments := fun _ => none }

/-- A Gene feature, 1..50, whose `feature_id` differs from its `gene_id`. -/
def renamedGene : Feature :=
  { start := 1, end_ := 50, chromosome := 1, strand := Strand.Forward,
    type := FeatureType.Gene, feature_id := "gene-1", gene_id := "G1", ribosomal := false }

/-- A fragment tracker holding one query name for gene id `G1`. -/
def trackerG1 : FragmentTracker := fun k => if k = "G1" then some ["read1"] else none

/-- Gene `G0` on the forward strand, 1..50, with equal feature and gene id. -/
def geneG0 : Feature :=
  { start := 1, end_ := 50, chromosome := 1, strand := Strand.Forward,
    type := FeatureType.Gene, feature_id := "G0", gene_id := "G0", ribosomal := false }

/-- The sample read with insert size exactly 100. -/
def insert100Alignment : Alignment := { sampleAlignment with insertSize := 100 }

/-- The sample read with insert size -150. -/
def insertNeg150Alignment : Alignment := { sampleAlignment with insertSize := -150 }

/-- A state whose pair-state map records exon `E1` and end position 40 for
the query name of the sample read. -/
def pendingState : State :=
  { emptyState with fragments := fun k => if k = "read1" then some ("E1", 40) else none }

/-- A state whose pair-state map records exon `E1` and end position 15 for
the query name of the sample read. -/
def pendingEarlyState : State :=
  { emptyState with fragments := fun k => if k = "read1" then some ("E1", 15) else none }

/-- An exon `E3`, 25..60, that overlaps the block 20..30 without containing
it. -/
def exonE3 : Feature :=
  { start := 25, end_ := 60, chromosome := 1, strand := Strand.Forward,
    type := FeatureType.Exon, feature_id := "E3", gene_id := "G1", ribosomal := false }

/-- An exon, 10..50, whose feature id is the empty string. -/
def unnamedExon : Feature :=
  { start := 10, end_ := 50, chromosome := 1, strand := Strand.Forward,
    type := FeatureType.Exon, feature_id := "", gene_id := "G1", ribosomal := false }

/-- A reverse-strand second mate of the sample read: it ends at 45 and its
mate, on the forward strand, starts at 9. -/
def mateAlignment : Alignment :=
  { sampleAlignment with
    position := 34, positionEnd := 45, reverseFlag := true, mateReverseFlag := false,
    firstFlag := false, matePosition := 9, insertSize := -150 }

/-- A block 35..45 inside exon `E1`, the block of the second mate. -/
def mateBlock : Feature :=
  { start := 35, end_ := 45, chromosome := 1, strand := Strand.Reverse,
    type := FeatureType.Other, feature_id := "", gene_id := "", ribosomal := false }

/-- A fragment-size sampling state with a budget of 5 and nothing recorded. -/
def emptySizeState : SizeState :=
  { doFragmentSize := 5
    bedFeatures := [exonE1]
    bedReleased := false
    fragments := fun _ => none
    fragmentSizes := fun _ => 0
    fragmentTracker := fun _ => none }

/-- The sampling state after the first mate: the entry `(E1, 21)` is pending
for the query name of the sample read. -/
def pendingSizeState : SizeState :=
  { emptySizeState with fragments := fun k => if k = "read1" then some ("E1", 21) else none }

/-- A block 101..110, past position 100. -/
def lateBlock : Feature :=
  { start := 101, end_ := 110, chromosome := 1, strand := Strand.Forward,
    type := FeatureType.Other, feature_id := "", gene_id := "", ribosomal := false }

/-- The two blocks `extractBlocks` emits for the sample read: 10..15 and
18..22, three bases apart. -/
def splicedBlocks : List Feature :=
  [mkBlock sampleAlignment 1 10 5, mkBlock sampleAlignment 1 18 4]


/-- The gene of the samples, on the reverse strand. -/
def reverseGene : Feature := { geneG1 with strand := Strand.Reverse }

/-- The gene of the samples, flagged ribosomal. -/
def ribosomalGene : Feature := { geneG1 with ribosomal := true }
/-! ## Theorems: `extractBlocks` -/

theorem csub_cadd (a b : Nat) (hb : b < coordMod) : csub (cadd a b) a = b := by
  unfold csub cadd coordMod at *
  omega

theorem blockLength_mkBlock (alignment : Alignment) (chr start : Nat) (c : CigarField) :
    blockLength (mkBlock alignment chr start c.length) = c.length := by
  unfold blockLength mkBlock
  simp only
  apply csub_cadd
  have := c.hlen
  unfold coordMod
  omega

theorem cigarStep_ok (alignment : Alignment) (chr : Nat) (legacy : Bool) (s : ExtractState)
    (c : CigarField) (h : isRecognisedOp c.type = true) :
    ∃ s', cigarStep alignment chr legacy s c = .ok s' ∧
      s'.blocks = s.blocks ++
        (if isAlignedOp c.type then [mkBlock alignment chr s.start c.length] else []) := by
  unfold cigarStep
  simp only [isRecognisedOp, isAlignedOp, Bool.or_eq_true, decide_eq_true_eq] at *
  split_ifs <;> simp_all

theorem cigarStep_error (alignment : Alignment) (chr : Nat) (legacy : Bool) (s : ExtractState)
    (c : CigarField) (h : isRecognisedOp c.type = false) :
    ∃ e, cigarStep alignment chr legacy s c = .error e := by
  unfold cigarStep
  simp only [isRecognisedOp, Bool.or_eq_false_iff, decide_eq_false_iff_not] at h
  simp [h]

/-- On a CIGAR of recognised operations the loop ends normally, and the blocks
it appended have, one by one, the lengths of the aligned operations. -/
theorem extractLoop_ok (alignment : Alignment) (chr : Nat) (legacy : Bool) :
    ∀ (cigar : List CigarField) (s : ExtractState),
      (∀ c ∈ cigar, isRecognisedOp c.type = true) →
      ∃ s' appended, extractLoop alignment chr legacy cigar s = .ok s' ∧
        s'.blocks = s.blocks ++ appended ∧
        appended.map blockLength =
          (cigar.filter (fun c => isAlignedOp c.type)).map (fun c => c.length) := by
  intro cigar
  induction cigar with
  | nil => intro s _; exact ⟨s, [], rfl, by simp, rfl⟩
  | cons c rest ih =>
    intro s h
    obtain ⟨s1, h1, hb1⟩ := cigarStep_ok alignment chr legacy s c (h c (by simp))
    obtain ⟨s2, app, h2, hb2, hl2⟩ := ih s1 (fun c' hc' => h c' (by simp [hc']))
    refine ⟨s2, (if isAlignedOp c.type then [mkBlock alignment chr s.start c.length] else []) ++ app,
      ?_, ?_, ?_⟩
    · simp [extractLoop, h1, h2]
    · rw [hb2, hb1, List.append_assoc]
    · by_cases hc : isAlignedOp c.type = true
      · simp [hc, hl2, blockLength_mkBlock]
      · simp [hc, hl2]

/-- The loop throws exactly when some operation is not recognised. -/
theorem extractLoop_error_iff (alignment : Alignment) (chr : Nat) (legacy : Bool) :
    ∀ (cigar : List CigarField) (s : ExtractState),
      (∃ e, extractLoop alignment chr legacy cigar s = .error e) ↔
        ∃ c ∈ cigar, isRecognisedOp c.type = false := by
  intro cigar
  induction cigar with
  | nil => intro s; simp [extractLoop]
  | cons c rest ih =>
    intro s
    by_cases hc : isRecognisedOp c.type = true
    · obtain ⟨s1, h1, _⟩ := cigarStep_ok alignment chr legacy s c hc
      simp only [extractLoop, h1, ih s1, List.mem_cons, exists_eq_or_imp, hc]
      simp
    · simp only [Bool.not_eq_true] at hc
      obtain ⟨e, he⟩ := cigarStep_error alignment chr legacy s c hc
      simp only [extractLoop, he, List.mem_cons, exists_eq_or_imp, hc]
      simp

/-- C1. For a CIGAR made only of M, I, D, N, S, H, P, = and X, in legacy mode or
not, `extractBlocks` returns normally with the caller's blocks followed by the
appended ones; the lengths `end - start` of the appended blocks add up to the
sum of the lengths of the M, = and X operations, and there is exactly one
appended block per M, = or X operation. -/
theorem extractBlocks_block_lengths (alignment : Alignment) (blocks : List Feature)
    (chr : Nat) (legacy : Bool)
    (h : ∀ c ∈ alignment.cigar, isRecognisedOp c.type = true) :
    ∃ size appended,
      extractBlocks alignment blocks chr legacy = .ok (size, blocks ++ appended) ∧
      (appended.map blockLength).sum =
        ((alignment.cigar.filter (fun c => isAlignedOp c.type)).map (fun c => c.length)).sum ∧
      appended.length = (alignment.cigar.filter (fun c => isAlignedOp c.type)).length := by
  obtain ⟨s', app, h1, h2, h3⟩ := extractLoop_ok alignment chr legacy alignment.cigar
    { start := cadd alignment.position 1, alignedSize := 0, blocks := blocks } h
  refine ⟨s'.alignedSize, app, ?_, ?_, ?_⟩
  · simp [extractBlocks, h1, h2]
  · rw [h3]
  · have := congrArg List.length h3
    simpa using this

/-- Witness for C1: the CIGAR `5M3N2S4X` at position 9 in legacy mode. -/
theorem extractBlocks_block_lengths_witness :
    (∀ c ∈ sampleAlignment.cigar, isRecognisedOp c.type = true) ∧
    ∃ size appended,
      extractBlocks sampleAlignment [] 1 true = .ok (size, [] ++ appended) ∧
      (appended.map blockLength).sum =
        ((sampleAlignment.cigar.filter (fun c => isAlignedOp c.type)).map
          (fun c => c.length)).sum ∧
      appended.length = (sampleAlignment.cigar.filter (fun c => isAlignedOp c.type)).length :=
  ⟨by decide, extractBlocks_block_lengths sampleAlignment [] 1 true (by decide)⟩

/-- C2. `extractBlocks` throws if and only if the CIGAR holds an operation whose
type is outside M, =, X, N, D, H, P, I, S; it returns normally if and only if
every operation is one of those nine. -/
theorem extractBlocks_error_iff (alignment : Alignment) (blocks : List Feature)
    (chr : Nat) (legacy : Bool) :
    ((∃ e, extractBlocks alignment blocks chr legacy = .error e) ↔
      ∃ c ∈ alignment.cigar, isRecognisedOp c.type = false) ∧
    ((∃ r, extractBlocks alignment blocks chr legacy = .ok r) ↔
      ∀ c ∈ alignment.cigar, isRecognisedOp c.type = true) := by
  have key := extractLoop_error_iff alignment chr legacy alignment.cigar
    { start := cadd alignment.position 1, alignedSize := 0, blocks := blocks }
  unfold extractBlocks
  constructor
  · rw [← key]
    cases hx : extractLoop alignment chr legacy alignment.cigar
      { start := cadd alignment.position 1, alignedSize := 0, blocks := blocks } <;> simp
  · have hneg : (∀ c ∈ alignment.cigar, isRecognisedOp c.type = true) ↔
        ¬ ∃ c ∈ alignment.cigar, isRecognisedOp c.type = false := by
      simp
    rw [hneg, ← key]
    cases hx : extractLoop alignment chr legacy alignment.cigar
      { start := cadd alignment.position 1, alignedSize := 0, blocks := blocks } <;> simp

/-! ## Theorems: the annotation window -/

/-- The window left by the two-argument overload is the drop-while of the
original window. -/
theorem trimFeatures_window (alignment : Alignment) :
    ∀ (features : List Feature) (ft : FragmentTracker),
      (trimFeatures alignment features ft).1 =
        features.dropWhile (fun f => decide (f.end_ < alignment.position)) := by
  intro features
  induction features with
  | nil => intro ft; rfl
  | cons f rest ih =>
    intro ft
    by_cases h : f.end_ < alignment.position
    · simp [trimFeatures, h, ih, List.dropWhile_cons]
    · simp [trimFeatures, h, List.dropWhile_cons]

/-- The window and the coverage calls left by the overload with a coverage
sink. -/
theorem trimFeaturesCoverage_spec (alignment : Alignment) :
    ∀ (features : List Feature) (coverage : BaseCoverage) (ft : FragmentTracker),
      (trimFeaturesCoverage alignment features coverage ft).1 =
        features.dropWhile (fun f => decide (f.end_ < alignment.position)) ∧
      (trimFeaturesCoverage alignment features coverage ft).2.1 =
        coverage ++
          ((features.takeWhile (fun f => decide (f.end_ < alignment.position))).filter
            (fun f => decide (f.type = FeatureType.Gene))).map CoverageCall.compute := by
  intro features
  induction features with
  | nil => intro coverage ft; simp [trimFeaturesCoverage]
  | cons f rest ih =>
    intro coverage ft
    by_cases h : f.end_ < alignment.position
    · by_cases hg : f.type = FeatureType.Gene
      · have := ih (coverage ++ [CoverageCall.compute f]) (Function.update ft f.feature_id none)
        simp [trimFeaturesCoverage, h, hg, this, List.dropWhile_cons, List.takeWhile_cons]
      · have := ih coverage ft
        simp [trimFeaturesCoverage, h, hg, this, List.dropWhile_cons, List.takeWhile_cons]
    · simp [trimFeaturesCoverage, h, List.dropWhile_cons, List.takeWhile_cons]

/-- C3. For every window and position, both overloads of `trimFeatures` leave
the window with its longest leading run of features having `end < position`
removed; what remains is a suffix of the original window, in unchanged order;
and the features passed to coverage finalisation are exactly the Gene features
of the removed prefix, each once, in window order. -/
theorem trimFeatures_drop_while (alignment : Alignment) (features : List Feature)
    (coverage : BaseCoverage) (ft : FragmentTracker) :
    (trimFeatures alignment features ft).1 =
        features.dropWhile (fun f => decide (f.end_ < alignment.position)) ∧
    (trimFeaturesCoverage alignment features coverage ft).1 =
        features.dropWhile (fun f => decide (f.end_ < alignment.position)) ∧
    (trimFeaturesCoverage alignment features coverage ft).1 <:+ features ∧
    features.takeWhile (fun f => decide (f.end_ < alignment.position)) ++
        (trimFeaturesCoverage alignment features coverage ft).1 = features ∧
    (trimFeaturesCoverage alignment features coverage ft).2.1 =
        coverage ++
          ((features.takeWhile (fun f => decide (f.end_ < alignment.position))).filter
            (fun f => decide (f.type = FeatureType.Gene))).map CoverageCall.compute := by
  have h := trimFeaturesCoverage_spec alignment features coverage ft
  refine ⟨trimFeatures_window alignment features ft, h.1, ?_, ?_, h.2⟩
  · rw [h.1]; exact List.dropWhile_suffix _
  · rw [h.1]; exact List.takeWhile_append_dropWhile _ _

/-- Counterexample to C4 as stated: the window `[gene 1..1000, exon 2..50]` is
ascending by start, yet after trimming at position 100 the exon, whose end 50
is below 100, is still in the window, because the gene in front of it stops
the loop. -/
theorem trimFeatures_leaves_stale_feature :
    List.Pairwise (fun f g : Feature => f.start ≤ g.start) staleWindow ∧
    (∃ f ∈ (trimFeaturesCoverage staleAlignment staleWindow [] (fun _ => none)).1,
      f.end_ < staleAlignment.position) ∧
    (∃ f ∈ (trimFeatures staleAlignment staleWindow (fun _ => none)).1,
      f.end_ < staleAlignment.position) := by
  refine ⟨by decide, ⟨staleWindow.get ⟨1, by decide⟩, by decide, by decide⟩,
    ⟨staleWindow.get ⟨1, by decide⟩, by decide, by decide⟩⟩

/-- C4, amended. After `trimFeatures` at a position the window is empty or its
front feature has `end >= position`; and when the ends of the features do not
decrease along the window, no feature remaining anywhere in the window has
`end < position`. Both overloads. -/
theorem trimFeatures_front_not_stale (alignment : Alignment) (features : List Feature)
    (coverage : BaseCoverage) (ft : FragmentTracker) :
    (trimFeatures alignment features ft).1 =
      (trimFeaturesCoverage alignment features coverage ft).1 ∧
    (∀ f ∈ (trimFeaturesCoverage alignment features coverage ft).1.head?,
      alignment.position ≤ f.end_) ∧
    (List.Pairwise (fun f g : Feature => f.end_ ≤ g.end_) features →
      ∀ f ∈ (trimFeaturesCoverage alignment features coverage ft).1,
        alignment.position ≤ f.end_) := by
  have h := (trimFeaturesCoverage_spec alignment features coverage ft).1
  refine ⟨by rw [h, trimFeatures_window], ?_, ?_⟩
  · rw [h]
    intro f hf
    have := List.head?_dropWhile_not (fun f : Feature => decide (f.end_ < alignment.position))
      features
    rw [Option.mem_def] at hf
    rw [hf] at this
    simpa using this
  · intro hs f hf
    rw [h] at hf
    have hsub : List.Pairwise (fun f g : Feature => f.end_ ≤ g.end_)
        (features.dropWhile (fun f => decide (f.end_ < alignment.position))) :=
      hs.sublist (List.dropWhile_sublist _)
    cases hd : features.dropWhile (fun f => decide (f.end_ < alignment.position)) with
    | nil => rw [hd] at hf; cases hf
    | cons x xs =>
      have hx : alignment.position ≤ x.end_ := by
        have := List.head?_dropWhile_not
          (fun f : Feature => decide (f.end_ < alignment.position)) features
        rw [hd] at this
        simpa using this
      rw [hd] at hf hsub
      rcases List.mem_cons.mp hf with rfl | hmem
      · exact hx
      · exact le_trans hx (List.rel_of_pairwise_cons hsub hmem)

/-- Witness for the amended C4: a window whose ends ascend, trimmed at
position 100. -/
theorem trimFeatures_front_not_stale_witness :
    List.Pairwise (fun f g : Feature => f.end_ ≤ g.end_) sortedWindow ∧
    ∀ f ∈ (trimFeaturesCoverage staleAlignment sortedWindow [] (fun _ => none)).1,
      staleAlignment.position ≤ f.end_ :=
  ⟨by decide,
    (trimFeatures_front_not_stale staleAlignment sortedWindow [] (fun _ => none)).2.2
      (by decide)⟩

/-! ## Theorems: `intersectBlock` and `feature_strand` -/

/-- C5. For every block and window (and whatever the overlap test),
`intersectBlock` returns, in window order, exactly the features of the longest
leading run of the window with `start <= block.end` that pass
`intersectInterval(block, f)`; nothing at or after the first feature with
`start > block.end` is returned. -/
theorem intersectBlock_eq_filter_takeWhile (intersectInterval : Feature → Feature → Bool)
    (block : Feature) (features : List Feature) :
    intersectBlock intersectInterval block features =
      (features.takeWhile (fun f => decide (f.start ≤ block.end_))).filter
        (fun f => intersectInterval block f) := by
  induction features with
  | nil => rfl
  | cons f rest ih =>
    by_cases h : f.start ≤ block.end_
    · by_cases hi : intersectInterval block f = true
      · simp [intersectBlock, h, hi, ih, List.takeWhile_cons]
      · simp [intersectBlock, h, hi, ih, List.takeWhile_cons]
    · simp [intersectBlock, h, List.takeWhile_cons]

/-- C6. `feature_strand` returns Unknown when the orientation is Unknown, and
otherwise Reverse exactly when `r XOR ((orientation == Forward) XOR f)` holds
and Forward when it does not; (Forward, f = true, r = false) gives Forward,
(Forward, f = false, r = false) gives Reverse, and the result is Unknown only
for the Unknown orientation. -/
theorem feature_strand_table (alignment : Alignment) (orientation : Strand) :
    feature_strand alignment orientation =
      (if orientation = Strand.Unknown then Strand.Unknown
       else if xor alignment.reverseFlag
          (xor (decide (orientation = Strand.Forward)) alignment.firstFlag)
        then Strand.Reverse else Strand.Forward) ∧
    feature_strand { alignment with firstFlag := true, reverseFlag := false } Strand.Forward =
      Strand.Forward ∧
    feature_strand { alignment with firstFlag := false, reverseFlag := false } Strand.Forward =
      Strand.Reverse ∧
    (feature_strand alignment orientation = Strand.Unknown ↔ orientation = Strand.Unknown) := by
  refine ⟨?_, rfl, rfl, ?_⟩
  · cases orientation <;> cases hr : alignment.reverseFlag <;>
      cases hf : alignment.firstFlag <;> simp [feature_strand, hr, hf]
  · cases orientation <;> cases hr : alignment.reverseFlag <;>
      cases hf : alignment.firstFlag <;> simp [feature_strand, hr, hf]

/-! ## Theorems: the block loop of `exonAlignmentMetrics` -/

theorem insertLast_append (gs : List (List String)) (cur : List String) (g : String) :
    insertLast (gs ++ [cur]) g = gs ++ [setInsert cur g] := by
  induction gs with
  | nil => rfl
  | cons s t ih =>
    cases t with
    | nil => rfl
    | cons u v => simpa [insertLast] using ih

/-- The fields of the scan after one feature of the inner loop. -/
theorem resultStep_fields (env : Env) (rs : Strand) (length : Nat) (block : Feature)
    (s : Scan) (r : Feature) (gs : List (List String)) (cur : List String)
    (hg : s.genes = gs ++ [cur]) :
    let q := strandCompatible rs r && (decide (r.type = FeatureType.Exon) &&
      fullyContains env r block)
    (resultStep env rs length block s r).genes =
        gs ++ [if q then setInsert cur r.gene_id else cur] ∧
    (resultStep env rs length block s r).exonic =
        (s.exonic || (strandCompatible rs r && decide (r.type = FeatureType.Exon))) ∧
    (resultStep env rs length block s r).intragenic =
        (s.intragenic || (strandCompatible rs r && decide (r.type = FeatureType.Gene))) ∧
    (resultStep env rs length block s r).collector.data =
        s.collector.data ++ (if q then
          [(r.gene_id, r.feature_id, dblDiv (env.partialIntersect r block) length)] else []) := by
  unfold resultStep
  by_cases hc : strandCompatible rs r = true
  · by_cases he : r.type = FeatureType.Exon
    · by_cases hf : fullyContains env r block = true
      · simp only [hc, he, hf, if_true]
        split_ifs <;> simp_all [insertLast_append, Collector.add]
      · simp only [hc, he, hf, if_true]
        split_ifs <;> simp_all
    · by_cases hgene : r.type = FeatureType.Gene
      · simp only [hc, he, hgene, if_true, if_false]
        split_ifs <;> simp_all
      · simp only [hc, he, hgene, if_true, if_false]
        split_ifs <;> simp_all
  · simp [hc, hg]

/-- The fields of the scan after the inner loop over the features intersecting
one block. -/
theorem foldl_resultStep_fields (env : Env) (rs : Strand) (length : Nat) (block : Feature) :
    ∀ (results : List Feature) (s : Scan) (gs : List (List String)) (cur : List String),
      s.genes = gs ++ [cur] →
      (results.foldl (resultStep env rs length block) s).genes =
          gs ++ [((results.filter (fun r => strandCompatible rs r &&
            (decide (r.type = FeatureType.Exon) && fullyContains env r block))).map
              (fun r => r.gene_id)).foldl setInsert cur] ∧
      (results.foldl (resultStep env rs length block) s).exonic =
          (s.exonic || results.any (fun r => strandCompatible rs r &&
            decide (r.type = FeatureType.Exon))) ∧
      (results.foldl (resultStep env rs length block) s).intragenic =
          (s.intragenic || results.any (fun r => strandCompatible rs r &&
            decide (r.type = FeatureType.Gene))) ∧
      (results.foldl (resultStep env rs length block) s).collector.data =
          s.collector.data ++ (results.filter (fun r => strandCompatible rs r &&
            (decide (r.type = FeatureType.Exon) && fullyContains env r block))).map
              (fun r => (r.gene_id, r.feature_id, dblDiv (env.partialIntersect r block) length)) := by
  intro results
  induction results with
  | nil => intro s gs cur hg; simp [hg]
  | cons r rest ih =>
    intro s gs cur hg
    obtain ⟨h1, h2, h3, h4⟩ := resultStep_fields env rs length block s r gs cur hg
    obtain ⟨i1, i2, i3, i4⟩ := ih (resultStep env rs length block s r) gs _ h1
    simp only [List.foldl_cons]
    refine ⟨?_, ?_, ?_, ?_⟩
    · rw [i1]
      by_cases hq : (strandCompatible rs r && (decide (r.type = FeatureType.Exon) &&
          fullyContains env r block)) = true
      · simp [List.filter_cons, hq]
      · simp [List.filter_cons, hq]
    · rw [i2, h2]; simp [Bool.or_assoc]
    · rw [i3, h3]; simp [Bool.or_assoc]
    · rw [i4, h4]
      by_cases hq : (strandCompatible rs r && (decide (r.type = FeatureType.Exon) &&
          fullyContains env r block)) = true
      · simp [List.filter_cons, hq]
      · simp [List.filter_cons, hq]

/-- The fields of the scan after one block. -/
theorem blockStep_fields (env : Env) (rs : Strand) (length : Nat) (window : List Feature)
    (s : Scan) (block : Feature) :
    (blockStep env rs length window s block).genes =
        s.genes ++ [(candidateGenes env rs window block).foldl setInsert []] ∧
    (blockStep env rs length window s block).exonic =
        (s.exonic || (compatibleHits env rs window block).any
          (fun f => decide (f.type = FeatureType.Exon))) ∧
    (blockStep env rs length window s block).intragenic =
        (s.intragenic || (compatibleHits env rs window block).any
          (fun f => decide (f.type = FeatureType.Gene))) ∧
    (blockStep env rs length window s block).collector.data =
        s.collector.data ++ (containingExons env rs window block).map
          (fun r => (r.gene_id, r.feature_id, dblDiv (env.partialIntersect r block) length)) := by
  obtain ⟨h1, h2, h3, h4⟩ := foldl_resultStep_fields env rs length block
    (intersectBlock env.intersectInterval block window)
    { s with genes := s.genes ++ [[]] } s.genes [] rfl
  unfold blockStep candidateGenes containingExons compatibleHits
  refine ⟨?_, ?_, ?_, ?_⟩
  · rw [h1, List.filter_filter]
    simp only [Bool.and_comm, Bool.and_assoc, Bool.and_left_comm]
  · rw [h2, List.any_filter]
  · rw [h3, List.any_filter]
  · rw [h4, List.filter_filter]
    simp only [Bool.and_comm, Bool.and_assoc, Bool.and_left_comm]

/-- The fields of the scan after the loop over the blocks, from any starting
scan. -/
theorem foldl_blockStep_fields (env : Env) (rs : Strand) (length : Nat)
    (window : List Feature) :
    ∀ (blocks : List Feature) (s : Scan),
      (blocks.foldl (blockStep env rs length window) s).genes =
          s.genes ++ blocks.map (fun b => (candidateGenes env rs window b).foldl setInsert []) ∧
      (blocks.foldl (blockStep env rs length window) s).exonic =
          (s.exonic || exonEvidence env rs window blocks) ∧
      (blocks.foldl (blockStep env rs length window) s).intragenic =
          (s.intragenic || geneEvidence env rs window blocks) ∧
      (blocks.foldl (blockStep env rs length window) s).collector.data =
          s.collector.data ++ (blocks.map (fun b => (containingExons env rs window b).map
            (fun r => (r.gene_id, r.feature_id,
              dblDiv (env.partialIntersect r b) length)))).flatten := by
  intro blocks
  induction blocks with
  | nil => intro s; simp [exonEvidence, geneEvidence]
  | cons b rest ih =>
    intro s
    obtain ⟨h1, h2, h3, h4⟩ := blockStep_fields env rs length window s b
    obtain ⟨i1, i2, i3, i4⟩ := ih (blockStep env rs length window s b)
    simp only [List.foldl_cons]
    refine ⟨?_, ?_, ?_, ?_⟩
    · rw [i1, h1]; simp
    · rw [i2, h2]; simp [exonEvidence, Bool.or_assoc]
    · rw [i3, h3]; simp [geneEvidence, Bool.or_assoc]
    · rw [i4, h4]; simp

/-- The scan of a read: per-block gene sets, the two evidence flags and the
staged dosage. -/
theorem scanBlocks_fields (env : Env) (rs : Strand) (length : Nat) (window : List Feature)
    (blocks : List Feature) (coverage : BaseCoverage) :
    (scanBlocks env rs length window blocks coverage).genes =
        blocks.map (fun b => (candidateGenes env rs window b).foldl setInsert []) ∧
    (scanBlocks env rs length window blocks coverage).exonic = exonEvidence env rs window blocks ∧
    (scanBlocks env rs length window blocks coverage).intragenic =
        geneEvidence env rs window blocks ∧
    (scanBlocks env rs length window blocks coverage).collector.data =
        (blocks.map (fun b => (containingExons env rs window b).map
          (fun r => (r.gene_id, r.feature_id, dblDiv (env.partialIntersect r b) length)))).flatten := by
  obtain ⟨h1, h2, h3, h4⟩ := foldl_blockStep_fields env rs length window blocks
    (initScan coverage)
  unfold scanBlocks
  refine ⟨?_, ?_, ?_, ?_⟩
  · rw [h1]; simp [initScan]
  · rw [h2]; simp [initScan]
  · rw [h3]; simp [initScan]
  · rw [h4]; simp [initScan]

theorem mem_foldl_setInsert (g : String) :
    ∀ (l cur : List String), g ∈ l.foldl setInsert cur ↔ g ∈ cur ∨ g ∈ l := by
  intro l
  induction l with
  | nil => intro cur; simp
  | cons x rest ih =>
    intro cur
    rw [List.foldl_cons, ih]
    unfold setInsert
    by_cases hx : x ∈ cur
    · simp only [hx, if_true, List.mem_cons]
      constructor
      · rintro (h | h)
        · exact Or.inl h
        · exact Or.inr (Or.inr h)
      · rintro (h | h | h)
        · exact Or.inl h
        · exact Or.inl (h ▸ hx)
        · exact Or.inr h
    · simp only [hx, if_false, List.mem_append, List.mem_singleton, List.mem_cons]
      tauto

theorem mem_foldl_setInter (g : String) :
    ∀ (rest : List (List String)) (first : List String),
      g ∈ rest.foldl setInter first ↔ g ∈ first ∧ ∀ c ∈ rest, g ∈ c := by
  intro rest
  induction rest with
  | nil => intro first; simp
  | cons c cs ih =>
    intro first
    rw [List.foldl_cons, ih]
    simp [setInter, and_assoc]

/-- The set `last` of the engine has the members of the specification's
unambiguous gene set. -/
theorem mem_intersectGenes_scan (env : Env) (rs : Strand) (length : Nat)
    (window : List Feature) (blocks : List Feature) (coverage : BaseCoverage) (g : String) :
    g ∈ intersectGenes (scanBlocks env rs length window blocks coverage).genes ↔
      g ∈ sharedGenes env rs window blocks := by
  rw [(scanBlocks_fields env rs length window blocks coverage).1]
  cases blocks with
  | nil => simp [intersectGenes, sharedGenes]
  | cons b rest =>
    simp only [List.map_cons, intersectGenes, sharedGenes, mem_foldl_setInter,
      mem_foldl_setInsert, List.mem_filter, List.all_eq_true, decide_eq_true_eq,
      List.mem_map, forall_exists_index, and_imp, forall_apply_eq_imp_iff₂]
    simp

/-- The flag `doExonMetrics` says that the unambiguous gene set is not empty. -/
theorem doExonMetrics_scan (env : Env) (rs : Strand) (length : Nat)
    (window : List Feature) (blocks : List Feature) (coverage : BaseCoverage) :
    doExonMetrics (scanBlocks env rs length window blocks coverage) =
      !(sharedGenes env rs window blocks).isEmpty := by
  have hmem := mem_intersectGenes_scan env rs length window blocks coverage
  have hlen : (scanBlocks env rs length window blocks coverage).genes.length = blocks.length := by
    rw [(scanBlocks_fields env rs length window blocks coverage).1]; simp
  unfold doExonMetrics
  cases hl : intersectGenes (scanBlocks env rs length window blocks coverage).genes with
  | nil =>
    have : sharedGenes env rs window blocks = [] := by
      apply List.eq_nil_iff_forall_not_mem.mpr
      intro g hg
      have := (hmem g).mpr hg
      rw [hl] at this
      cases this
    simp [this]
  | cons x xs =>
    have hx : x ∈ sharedGenes env rs window blocks := (hmem x).mp (by rw [hl]; simp)
    have hne : sharedGenes env rs window blocks ≠ [] := List.ne_nil_of_mem hx
    have hb : blocks ≠ [] := by
      intro hb
      rw [hb] at hx
      simp [sharedGenes] at hx
    have hpos : 1 ≤ blocks.length := List.length_pos.mpr hb
    cases hs : sharedGenes env rs window blocks with
    | nil => exact absurd hs hne
    | cons y ys => simp [hlen, hpos]

/-! ## Theorems: the counters of `exonAlignmentMetrics` -/

/-- A run of increments raises each label by the number of times it occurs. -/
theorem incrementAll_apply (names : List String) :
    ∀ (counter : String → Nat) (n : String),
      incrementAll counter names n = counter n + names.count n := by
  induction names with
  | nil => intro counter n; simp [incrementAll]
  | cons x rest ih =>
    intro counter n
    have h := ih (increment counter x) n
    unfold incrementAll at h ⊢
    rw [List.foldl_cons, h]
    by_cases hx : n = x
    · subst hx
      simp [increment, List.count_cons]
      omega
    · have hx' : ¬ x = n := fun h => hx h.symm
      simp [increment, List.count_cons, hx, hx', Function.update_noteq hx]

theorem geneStep_counter (highQuality : Bool) (alignment : Alignment) (collector : Collector)
    (st : State) (gene : String) :
    (geneStep highQuality alignment collector st gene).counter = st.counter ∧
    (geneStep highQuality alignment collector st gene).fragments = st.fragments := by
  unfold geneStep
  split_ifs <;> simp

theorem foldl_geneStep_counter (highQuality : Bool) (alignment : Alignment)
    (collector : Collector) :
    ∀ (genes : List String) (st : State),
      (genes.foldl (geneStep highQuality alignment collector) st).counter = st.counter ∧
      (genes.foldl (geneStep highQuality alignment collector) st).fragments = st.fragments := by
  intro genes
  induction genes with
  | nil => intro st; simp
  | cons g rest ih =>
    intro st
    rw [List.foldl_cons]
    obtain ⟨h1, h2⟩ := ih (geneStep highQuality alignment collector st g)
    obtain ⟨k1, k2⟩ := geneStep_counter highQuality alignment collector st g
    exact ⟨h1.trans k1, h2.trans k2⟩

/-- The counter after `exonAlignmentMetrics`: every label rises by the number
of times the four label groups name it. -/
theorem exonAlignmentMetrics_counter (env : Env) (window : List Feature) (chr : Nat)
    (blocks : List Feature) (alignment : Alignment) (length : Nat) (orientation : Strand)
    (highQuality singleEnd : Bool) (st : State) (n : String) :
    (exonAlignmentMetrics env window chr blocks alignment length orientation highQuality
        singleEnd st).2.counter n =
      st.counter n +
        (globinLabels env alignment
            (scanBlocks env (feature_strand alignment orientation) length window blocks
              st.baseCoverage) ++
          categoryLabels highQuality
            (scanBlocks env (feature_strand alignment orientation) length window blocks
              st.baseCoverage) ++
          (if (scanBlocks env (feature_strand alignment orientation) length window blocks
              st.baseCoverage).ribosomal then ["rRNA Reads"] else []) ++
          strandLabels alignment singleEnd
            (scanBlocks env (feature_strand alignment orientation) length window blocks
              st.baseCoverage).transcriptPlus
            (scanBlocks env (feature_strand alignment orientation) length window blocks
              st.baseCoverage).transcriptMinus).count n := by
  unfold exonAlignmentMetrics
  simp only
  rw [incrementAll_apply]
  congr 1
  split_ifs
  · exact congrFun (foldl_geneStep_counter highQuality alignment _ _ _).1 n
  · rfl

/-- Labels of the globin check, the rRNA counter and the strandedness block. -/
theorem side_labels_count_zero (env : Env) (alignment : Alignment) (scan : Scan)
    (singleEnd : Bool) (n : String)
    (hn : n ∉ ["Non-Globin Reads", "Non-Globin Duplicate Reads", "rRNA Reads", "End 1 Sense",
      "End 1 Antisense", "End 2 Sense", "End 2 Antisense"]) :
    (globinLabels env alignment scan).count n = 0 ∧
    (if scan.ribosomal then ["rRNA Reads"] else []).count n = 0 ∧
    (strandLabels alignment singleEnd scan.transcriptPlus scan.transcriptMinus).count n = 0 := by
  simp only [List.mem_cons, List.mem_singleton, List.not_mem_nil, or_false, not_or] at hn
  obtain ⟨h1, h2, h3, h4, h5, h6, h7⟩ := hn
  have g1 : ¬ "Non-Globin Reads" = n := fun h => h1 h.symm
  have g2 : ¬ "Non-Globin Duplicate Reads" = n := fun h => h2 h.symm
  have g3 : ¬ "rRNA Reads" = n := fun h => h3 h.symm
  have g4 : ¬ "End 1 Sense" = n := fun h => h4 h.symm
  have g5 : ¬ "End 1 Antisense" = n := fun h => h5 h.symm
  have g6 : ¬ "End 2 Sense" = n := fun h => h6 h.symm
  have g7 : ¬ "End 2 Antisense" = n := fun h => h7 h.symm
  refine ⟨?_, ?_, ?_⟩
  · unfold globinLabels
    split_ifs <;> simp [List.count_cons, g1, g2]
  · split_ifs <;> simp [List.count_cons, g3]
  · unfold strandLabels
    split_ifs <;> simp [List.count_cons, g4, g5, g6, g7]

/-- A read with an unambiguous gene has exon evidence. -/
theorem exonEvidence_of_sharedGenes (env : Env) (rs : Strand) (window : List Feature)
    (blocks : List Feature) (h : (sharedGenes env rs window blocks).isEmpty = false) :
    exonEvidence env rs window blocks = true := by
  cases blocks with
  | nil => simp [sharedGenes] at h
  | cons b rest =>
    cases hs : sharedGenes env rs window (b :: rest) with
    | nil => rw [hs] at h; simp at h
    | cons g gs =>
      have hg : g ∈ sharedGenes env rs window (b :: rest) := by rw [hs]; simp
      simp only [sharedGenes, List.mem_filter] at hg
      have hc := hg.1
      simp only [candidateGenes, containingExons, List.mem_map, List.mem_filter,
        Bool.and_eq_true, decide_eq_true_eq] at hc
      obtain ⟨f, ⟨hf, hE, _⟩, _⟩ := hc
      simp only [exonEvidence, List.any_cons, Bool.or_eq_true, List.any_eq_true,
        decide_eq_true_eq]
      exact Or.inl ⟨f, hf, hE⟩

/-- The labels of the category branch, by the specification's category. -/
theorem categoryLabels_scan (env : Env) (rs : Strand) (length : Nat) (window : List Feature)
    (blocks : List Feature) (coverage : BaseCoverage) (highQuality : Bool) :
    categoryLabels highQuality (scanBlocks env rs length window blocks coverage) =
      if (sharedGenes env rs window blocks).isEmpty = false then
        ["Exonic Reads", "Intragenic Reads"] ++
          (if highQuality then ["HQ Exonic Reads", "HQ Intragenic Reads"] else [])
      else if exonEvidence env rs window blocks then
        ["Ambiguous Reads"] ++ (if highQuality then ["HQ Ambiguous Reads"] else [])
      else if geneEvidence env rs window blocks then
        ["Intronic Reads", "Intragenic Reads"] ++
          (if highQuality then ["HQ Intronic Reads", "HQ Intragenic Reads"] else [])
      else ["Intergenic Reads"] ++ (if highQuality then ["HQ Intergenic Reads"] else []) := by
  obtain ⟨_, hE, hI, _⟩ := scanBlocks_fields env rs length window blocks coverage
  have hD := doExonMetrics_scan env rs length window blocks coverage
  unfold categoryLabels
  rw [hE, hI, hD]
  by_cases hs : (sharedGenes env rs window blocks).isEmpty = false
  · have := exonEvidence_of_sharedGenes env rs window blocks hs
    simp [hs, this]
  · simp only [Bool.not_eq_false] at hs
    cases hx : exonEvidence env rs window blocks <;> simp [hs, hx]

/-- The category labels name each of the four category counters as often as
the specification's category says, whatever the four conditions. -/
theorem category_count_table (s e i hq : Bool) (n : String)
    (hn : n ∈ ["Intronic Reads", "Intergenic Reads", "Exonic Reads", "Ambiguous Reads"]) :
    (if s = false then
        ["Exonic Reads", "Intragenic Reads"] ++
          (if hq then ["HQ Exonic Reads", "HQ Intragenic Reads"] else [])
      else if e then
        ["Ambiguous Reads"] ++ (if hq then ["HQ Ambiguous Reads"] else [])
      else if i then
        ["Intronic Reads", "Intragenic Reads"] ++
          (if hq then ["HQ Intronic Reads", "HQ Intragenic Reads"] else [])
      else ["Intergenic Reads"] ++ (if hq then ["HQ Intergenic Reads"] else [])).count n =
    (if (if s = false then "Exonic Reads"
      else if e then "Ambiguous Reads"
      else if i then "Intronic Reads"
      else "Intergenic Reads") = n then 1 else 0) := by
  simp only [List.mem_cons, List.mem_singleton, List.not_mem_nil, or_false] at hn
  rcases hn with rfl | rfl | rfl | rfl <;>
    cases s <;> cases e <;> cases i <;> cases hq <;> decide

/-- The four category counters after `exonAlignmentMetrics`. -/
theorem exonAlignmentMetrics_category_counter (env : Env) (window : List Feature) (chr : Nat)
    (blocks : List Feature) (alignment : Alignment) (length : Nat) (orientation : Strand)
    (highQuality singleEnd : Bool) (st : State) (n : String)
    (hn : n ∈ ["Intronic Reads", "Intergenic Reads", "Exonic Reads", "Ambiguous Reads"]) :
    (exonAlignmentMetrics env window chr blocks alignment length orientation highQuality
        singleEnd st).2.counter n =
      st.counter n +
        (if readCategory env (feature_strand alignment orientation) window blocks = n
          then 1 else 0) := by
  have hside : n ∉ ["Non-Globin Reads", "Non-Globin Duplicate Reads", "rRNA Reads",
      "End 1 Sense", "End 1 Antisense", "End 2 Sense", "End 2 Antisense"] := by
    simp only [List.mem_cons, List.mem_singleton, List.not_mem_nil, or_false] at hn
    rcases hn with rfl | rfl | rfl | rfl <;> decide
  obtain ⟨h1, h2, h3⟩ := side_labels_count_zero env alignment
    (scanBlocks env (feature_strand alignment orientation) length window blocks st.baseCoverage)
    singleEnd n hside
  rw [exonAlignmentMetrics_counter]
  congr 1
  simp only [List.count_append]
  rw [h1, h2, h3, categoryLabels_scan]
  unfold readCategory
  rw [Nat.zero_add, Nat.add_zero]
  exact category_count_table
    (sharedGenes env (feature_strand alignment orientation) window blocks).isEmpty
    (exonEvidence env (feature_strand alignment orientation) window blocks)
    (geneEvidence env (feature_strand alignment orientation) window blocks) highQuality n hn

/-- C7. For every read the current engine processes, exactly one of the
counters "Intronic Reads", "Intergenic Reads", "Exonic Reads", "Ambiguous
Reads" rises, by one, and it is the category of the read: Exonic when the
intersection of the per-block candidate gene sets is not empty; Ambiguous when
it is empty but a strand-compatible Exon feature intersected a block;
otherwise Intronic when a strand-compatible Gene feature intersected a block
and Intergenic when none did. -/
theorem exonAlignmentMetrics_one_category (env : Env) (window : List Feature) (chr : Nat)
    (blocks : List Feature) (alignment : Alignment) (length : Nat) (orientation : Strand)
    (highQuality singleEnd : Bool) (st : State) :
    readCategory env (feature_strand alignment orientation) window blocks ∈
        ["Intronic Reads", "Intergenic Reads", "Exonic Reads", "Ambiguous Reads"] ∧
    (exonAlignmentMetrics env window chr blocks alignment length orientation highQuality
        singleEnd st).2.counter "Intronic Reads" =
      st.counter "Intronic Reads" +
        (if readCategory env (feature_strand alignment orientation) window blocks =
          "Intronic Reads" then 1 else 0) ∧
    (exonAlignmentMetrics env window chr blocks alignment length orientation highQuality
        singleEnd st).2.counter "Intergenic Reads" =
      st.counter "Intergenic Reads" +
        (if readCategory env (feature_strand alignment orientation) window blocks =
          "Intergenic Reads" then 1 else 0) ∧
    (exonAlignmentMetrics env window chr blocks alignment length orientation highQuality
        singleEnd st).2.counter "Exonic Reads" =
      st.counter "Exonic Reads" +
        (if readCategory env (feature_strand alignment orientation) window blocks =
          "Exonic Reads" then 1 else 0) ∧
    (exonAlignmentMetrics env window chr blocks alignment length orientation highQuality
        singleEnd st).2.counter "Ambiguous Reads" =
      st.counter "Ambiguous Reads" +
        (if readCategory env (feature_strand alignment orientation) window blocks =
          "Ambiguous Reads" then 1 else 0) := by
  refine ⟨?_, ?_, ?_, ?_, ?_⟩
  · unfold readCategory
    split_ifs <;> simp
  · rw [exonAlignmentMetrics_category_counter _ _ _ _ _ _ _ _ _ _ _ (by decide)]
  · rw [exonAlignmentMetrics_category_counter _ _ _ _ _ _ _ _ _ _ _ (by decide)]
  · rw [exonAlignmentMetrics_category_counter _ _ _ _ _ _ _ _ _ _ _ (by decide)]
  · rw [exonAlignmentMetrics_category_counter _ _ _ _ _ _ _ _ _ _ _ (by decide)]

/-! ## Theorems: what `exonAlignmentMetrics` credits -/

/-- The state after the loop over the unambiguous genes, whether or not the
`if (genes.size() >= 1)` block is entered. -/
theorem exonAlignmentMetrics_credit (env : Env) (window : List Feature) (chr : Nat)
    (blocks : List Feature) (alignment : Alignment) (length : Nat) (orientation : Strand)
    (highQuality singleEnd : Bool) (st : State) :
    ∃ counter coverage fragments,
      (exonAlignmentMetrics env window chr blocks alignment length orientation highQuality
        singleEnd st).2 =
      { (List.foldl
            (geneStep highQuality alignment
              (scanBlocks env (feature_strand alignment orientation) length window blocks
                st.baseCoverage).collector)
            { st with baseCoverage :=
                (scanBlocks env (feature_strand alignment orientation) length window blocks
                  st.baseCoverage).coverage }
            (intersectGenes
              (scanBlocks env (feature_strand alignment orientation) length window blocks
                st.baseCoverage).genes)) with
        counter := counter
        baseCoverage := coverage
        fragments := fragments } := by
  unfold exonAlignmentMetrics
  simp only
  by_cases hl : (scanBlocks env (feature_strand alignment orientation) length window blocks
      st.baseCoverage).genes.length ≥ 1
  · rw [if_pos hl]
    exact ⟨_, _, _, rfl⟩
  · rw [if_neg hl]
    have : (scanBlocks env (feature_strand alignment orientation) length window blocks
        st.baseCoverage).genes = [] := by
      cases hg : (scanBlocks env (feature_strand alignment orientation) length window blocks
        st.baseCoverage).genes with
      | nil => rfl
      | cons a b => rw [hg] at hl; simp at hl
    rw [this]
    exact ⟨_, _, _, rfl⟩

/-- C9. In the current engine, when some block is fully contained in a
strand-compatible exon but the per-block candidate gene sets share no gene,
"Ambiguous Reads" rises by one and `geneCounts`, `exonCounts`,
`geneFragmentCounts`, `uniqueGeneCounts` and the fragment tracker are left as
they were, whether or not the read is high-quality. -/
theorem exonAlignmentMetrics_ambiguous_frame (env : Env) (window : List Feature) (chr : Nat)
    (blocks : List Feature) (alignment : Alignment) (length : Nat) (orientation : Strand)
    (highQuality singleEnd : Bool) (st : State)
    (hexon : ∃ b ∈ blocks,
      containingExons env (feature_strand alignment orientation) window b ≠ [])
    (hshared : sharedGenes env (feature_strand alignment orientation) window blocks = []) :
    (exonAlignmentMetrics env window chr blocks alignment length orientation highQuality
        singleEnd st).2.counter "Ambiguous Reads" = st.counter "Ambiguous Reads" + 1 ∧
    (exonAlignmentMetrics env window chr blocks alignment length orientation highQuality
        singleEnd st).2.geneCounts = st.geneCounts ∧
    (exonAlignmentMetrics env window chr blocks alignment length orientation highQuality
        singleEnd st).2.exonCounts = st.exonCounts ∧
    (exonAlignmentMetrics env window chr blocks alignment length orientation highQuality
        singleEnd st).2.geneFragmentCounts = st.geneFragmentCounts ∧
    (exonAlignmentMetrics env window chr blocks alignment length orientation highQuality
        singleEnd st).2.uniqueGeneCounts = st.uniqueGeneCounts ∧
    (exonAlignmentMetrics env window chr blocks alignment length orientation highQuality
        singleEnd st).2.fragmentTracker = st.fragmentTracker := by
  have hlast : intersectGenes (scanBlocks env (feature_strand alignment orientation) length
      window blocks st.baseCoverage).genes = [] := by
    apply List.eq_nil_iff_forall_not_mem.mpr
    intro g hg
    have := (mem_intersectGenes_scan env _ length window blocks st.baseCoverage g).mp hg
    rw [hshared] at this
    cases this
  have hev : exonEvidence env (feature_strand alignment orientation) window blocks = true := by
    obtain ⟨b, hb, hne⟩ := hexon
    obtain ⟨f, hf⟩ := List.exists_mem_of_ne_nil _ hne
    simp only [containingExons, List.mem_filter, Bool.and_eq_true, decide_eq_true_eq] at hf
    simp only [exonEvidence, List.any_eq_true, decide_eq_true_eq]
    exact ⟨b, hb, f, hf.1, hf.2.1⟩
  obtain ⟨c, cov, fr, hst⟩ := exonAlignmentMetrics_credit env window chr blocks alignment
    length orientation highQuality singleEnd st
  refine ⟨?_, ?_, ?_, ?_, ?_, ?_⟩
  · rw [exonAlignmentMetrics_category_counter _ _ _ _ _ _ _ _ _ _ _ (by decide)]
    simp [readCategory, hshared, hev]
  all_goals
    rw [hst, hlast]
    rfl

/-- Witness for C9: a read with one block inside exon `E1` of gene `G1` and one
inside exon `E2` of gene `G2`. -/
theorem exonAlignmentMetrics_ambiguous_frame_witness :
    (∃ b ∈ [blockInE1, blockInE2],
      containingExons sampleEnv (feature_strand sampleAlignment Strand.Unknown)
        [geneG1, exonE1, exonE2] b ≠ []) ∧
    sharedGenes sampleEnv (feature_strand sampleAlignment Strand.Unknown)
      [geneG1, exonE1, exonE2] [blockInE1, blockInE2] = [] ∧
    (exonAlignmentMetrics sampleEnv [geneG1, exonE1, exonE2] 1 [blockInE1, blockInE2]
      sampleAlignment 20 Strand.Unknown true false emptyState).2.counter "Ambiguous Reads" =
        emptyState.counter "Ambiguous Reads" + 1 :=
  ⟨⟨blockInE1, by decide, by decide⟩, by decide,
    (exonAlignmentMetrics_ambiguous_frame sampleEnv [geneG1, exonE1, exonE2] 1
      [blockInE1, blockInE2] sampleAlignment 20 Strand.Unknown true false emptyState
      ⟨blockInE1, by decide, by decide⟩ (by decide)).1⟩

/-- Labels of the category branch, the rRNA counter and the strandedness
block. -/
theorem main_labels_count_zero (highQuality : Bool) (alignment : Alignment) (scan : Scan)
    (singleEnd : Bool) (n : String)
    (hn : n = "Non-Globin Reads" ∨ n = "Non-Globin Duplicate Reads") :
    (categoryLabels highQuality scan).count n = 0 ∧
    (if scan.ribosomal then ["rRNA Reads"] else []).count n = 0 ∧
    (strandLabels alignment singleEnd scan.transcriptPlus scan.transcriptMinus).count n = 0 := by
  refine ⟨?_, ?_, ?_⟩
  · unfold categoryLabels
    rcases hn with rfl | rfl <;> cases highQuality <;> split_ifs <;> decide
  · rcases hn with rfl | rfl <;> split_ifs <;> decide
  · unfold strandLabels
    rcases hn with rfl | rfl <;> split_ifs <;> decide

theorem mem_unambiguousGeneNames (env : Env) (last : List String) (x : String) :
    x ∈ unambiguousGeneNames env last ↔ ∃ g ∈ last, env.geneNames g = x := by
  have h : unambiguousGeneNames env last = (last.map env.geneNames).foldl setInsert [] := by
    unfold unambiguousGeneNames
    rw [List.foldl_map]
  rw [h, mem_foldl_setInsert]
  simp

/-- The globin test of the engine, on any gene list with the members of the
unambiguous gene set. -/
theorem globin_test_iff (env : Env) (last shared : List String)
    (hmem : ∀ g, g ∈ last ↔ g ∈ shared) :
    setInter (unambiguousGeneNames env last) blacklistedGlobins = [] ↔
      noGlobin env shared = true := by
  unfold setInter noGlobin
  rw [List.filter_eq_nil_iff]
  simp only [mem_unambiguousGeneNames, decide_eq_true_eq, List.all_eq_true,
    Bool.not_eq_true', decide_eq_false_iff_not, forall_exists_index, and_imp]
  constructor
  · intro h g hg
    exact h _ g ((hmem g).mpr hg) rfl
  · intro h x g hg hx
    rw [← hx]
    exact h g ((hmem g).mp hg)

/-- C10. In the current engine, for a read with at least one block,
"Non-Globin Reads" rises (by one) if and only if no gene of the read's
unambiguous gene set has its gene name in the blacklist, and "Non-Globin
Duplicate Reads" rises only then, for a duplicate; so a read unambiguously
assigned to a blacklisted globin gene raises neither. -/
theorem exonAlignmentMetrics_non_globin (env : Env) (window : List Feature) (chr : Nat)
    (blocks : List Feature) (alignment : Alignment) (length : Nat) (orientation : Strand)
    (highQuality singleEnd : Bool) (st : State) (hblocks : blocks ≠ []) :
    (exonAlignmentMetrics env window chr blocks alignment length orientation highQuality
        singleEnd st).2.counter "Non-Globin Reads" =
      st.counter "Non-Globin Reads" +
        (if noGlobin env (sharedGenes env (feature_strand alignment orientation) window blocks)
          then 1 else 0) ∧
    (exonAlignmentMetrics env window chr blocks alignment length orientation highQuality
        singleEnd st).2.counter "Non-Globin Duplicate Reads" =
      st.counter "Non-Globin Duplicate Reads" +
        (if noGlobin env (sharedGenes env (feature_strand alignment orientation) window blocks)
            && alignment.duplicateFlag
          then 1 else 0) := by
  have hlen : (scanBlocks env (feature_strand alignment orientation) length window blocks
      st.baseCoverage).genes.length ≥ 1 := by
    rw [(scanBlocks_fields env _ length window blocks st.baseCoverage).1, List.length_map]
    exact List.length_pos.mpr hblocks
  have htest := globin_test_iff env
    (intersectGenes (scanBlocks env (feature_strand alignment orientation) length window blocks
      st.baseCoverage).genes)
    (sharedGenes env (feature_strand alignment orientation) window blocks)
    (mem_intersectGenes_scan env _ length window blocks st.baseCoverage)
  constructor
  · obtain ⟨h1, h2, h3⟩ := main_labels_count_zero highQuality alignment
      (scanBlocks env (feature_strand alignment orientation) length window blocks
        st.baseCoverage) singleEnd "Non-Globin Reads" (Or.inl rfl)
    rw [exonAlignmentMetrics_counter]
    congr 1
    simp only [List.count_append]
    rw [h1, h2, h3]
    unfold globinLabels
    rw [if_pos hlen]
    by_cases hg : noGlobin env
        (sharedGenes env (feature_strand alignment orientation) window blocks) = true
    · rw [if_pos (htest.mpr hg), if_pos hg]
      split_ifs <;> decide
    · rw [if_neg (fun h => hg (htest.mp h)), if_neg hg]
      decide
  · obtain ⟨h1, h2, h3⟩ := main_labels_count_zero highQuality alignment
      (scanBlocks env (feature_strand alignment orientation) length window blocks
        st.baseCoverage) singleEnd "Non-Globin Duplicate Reads" (Or.inr rfl)
    rw [exonAlignmentMetrics_counter]
    congr 1
    simp only [List.count_append]
    rw [h1, h2, h3]
    unfold globinLabels
    rw [if_pos hlen]
    by_cases hg : noGlobin env
        (sharedGenes env (feature_strand alignment orientation) window blocks) = true
    · rw [if_pos (htest.mpr hg), hg]
      cases alignment.duplicateFlag <;> decide
    · rw [if_neg (fun h => hg (htest.mp h))]
      simp only [Bool.not_eq_true] at hg
      rw [hg]
      simp

/-- Witness for C10: a read with one block inside exon `E1` of gene `G1`, whose
gene name is `HBB`; "Non-Globin Reads" does not rise. -/
theorem exonAlignmentMetrics_non_globin_witness :
    [blockInE1] ≠ [] ∧
    noGlobin sampleEnv (sharedGenes sampleEnv (feature_strand sampleAlignment Strand.Unknown)
      [geneG1, exonE1, exonE2] [blockInE1]) = false ∧
    (exonAlignmentMetrics sampleEnv [geneG1, exonE1, exonE2] 1 [blockInE1]
      sampleAlignment 10 Strand.Unknown true false emptyState).2.counter "Non-Globin Reads" =
        emptyState.counter "Non-Globin Reads" +
          (if noGlobin sampleEnv (sharedGenes sampleEnv
              (feature_strand sampleAlignment Strand.Unknown)
              [geneG1, exonE1, exonE2] [blockInE1])
            then 1 else 0) :=
  ⟨by decide, by decide,
    (exonAlignmentMetrics_non_globin sampleEnv [geneG1, exonE1, exonE2] 1 [blockInE1]
      sampleAlignment 10 Strand.Unknown true false emptyState (by decide)).1⟩

theorem toCoord_natCast (n : Nat) (h : n < coordMod) : toCoord (n : Int) = n := by
  unfold toCoord
  have h1 : ((n : Int) % (coordMod : Int)) = ((n % coordMod : Nat) : Int) := by
    rw [Int.ofNat_mod_ofNat]
  rw [h1, Int.toNat_ofNat, Nat.mod_eq_of_lt h]

theorem blockLength_lt (b : Feature) : blockLength b < coordMod := by
  unfold blockLength csub
  exact Nat.mod_lt _ (by unfold coordMod; positivity)

/-- A counter outside the globin, rRNA and strandedness labels rises by the
number of times the category branch names it. -/
theorem exonAlignmentMetrics_main_counter (env : Env) (window : List Feature) (chr : Nat)
    (blocks : List Feature) (alignment : Alignment) (length : Nat) (orientation : Strand)
    (highQuality singleEnd : Bool) (st : State) (n : String)
    (hside : n ∉ ["Non-Globin Reads", "Non-Globin Duplicate Reads", "rRNA Reads",
      "End 1 Sense", "End 1 Antisense", "End 2 Sense", "End 2 Antisense"]) :
    (exonAlignmentMetrics env window chr blocks alignment length orientation highQuality
        singleEnd st).2.counter n =
      st.counter n +
        (categoryLabels highQuality
          (scanBlocks env (feature_strand alignment orientation) length window blocks
            st.baseCoverage)).count n := by
  obtain ⟨h1, h2, h3⟩ := side_labels_count_zero env alignment
    (scanBlocks env (feature_strand alignment orientation) length window blocks st.baseCoverage)
    singleEnd n hside
  rw [exonAlignmentMetrics_counter]
  congr 1
  simp only [List.count_append]
  rw [h1, h2, h3, Nat.zero_add, Nat.add_zero]

/-- The exons containing the single block, when the block intersects just a
gene and one exon that contains it. -/
theorem containingExons_gene_exon (env : Env) (rs : Strand) (window : List Feature)
    (b g e : Feature)
    (hhits : intersectBlock env.intersectInterval b window = [g, e] ∨
      intersectBlock env.intersectInterval b window = [e, g])
    (hg : g.type = FeatureType.Gene) (he : e.type = FeatureType.Exon)
    (hce : strandCompatible rs e = true)
    (hfull : env.partialIntersect e b = (blockLength b : Int)) :
    containingExons env rs window b = [e] := by
  have hf : fullyContains env e b = true := by
    unfold fullyContains
    rw [hfull, toCoord_natCast _ (blockLength_lt b)]
    simp [blockLength]
  have hgx : ¬ g.type = FeatureType.Exon := by rw [hg]; decide
  unfold containingExons compatibleHits
  rw [List.filter_filter]
  rcases hhits with h | h <;> rw [h] <;> simp [List.filter_cons, hgx, he, hce, hf]

/-- C8, amended. In the current engine, a read with a single block of positive
length whose only intersecting features are a gene `g` and one strand-compatible
exon `e` of `g` that fully contains the block, that is high-quality and not a
duplicate, whose read length is the block length and whose query name is not
yet tracked for `g`, raises "Exonic Reads", "Intragenic Reads", "HQ Exonic
Reads" and "HQ Intragenic Reads" by one each, `geneCounts[g]`,
`geneFragmentCounts[g]` and `uniqueGeneCounts[g]` by one, and `exonCounts[e]`
by 1.0. -/
theorem exonAlignmentMetrics_single_exon_read (env : Env) (window : List Feature) (chr : Nat)
    (b g e : Feature) (alignment : Alignment) (length : Nat) (orientation : Strand)
    (singleEnd : Bool) (st : State)
    (hhits : intersectBlock env.intersectInterval b window = [g, e] ∨
      intersectBlock env.intersectInterval b window = [e, g])
    (hg : g.type = FeatureType.Gene) (he : e.type = FeatureType.Exon)
    (hge : e.gene_id = g.gene_id)
    (hce : strandCompatible (feature_strand alignment orientation) e = true)
    (hfull : env.partialIntersect e b = (blockLength b : Int))
    (hlen : length = blockLength b) (hpos : 0 < blockLength b)
    (hdup : alignment.duplicateFlag = false)
    (hnew : alignment.qname ∉ (st.fragmentTracker g.gene_id).getD []) :
    (exonAlignmentMetrics env window chr [b] alignment length orientation true
        singleEnd st).2.counter "Exonic Reads" = st.counter "Exonic Reads" + 1 ∧
    (exonAlignmentMetrics env window chr [b] alignment length orientation true
        singleEnd st).2.counter "Intragenic Reads" = st.counter "Intragenic Reads" + 1 ∧
    (exonAlignmentMetrics env window chr [b] alignment length orientation true
        singleEnd st).2.counter "HQ Exonic Reads" = st.counter "HQ Exonic Reads" + 1 ∧
    (exonAlignmentMetrics env window chr [b] alignment length orientation true
        singleEnd st).2.counter "HQ Intragenic Reads" = st.counter "HQ Intragenic Reads" + 1 ∧
    (exonAlignmentMetrics env window chr [b] alignment length orientation true
        singleEnd st).2.geneCounts g.gene_id = st.geneCounts g.gene_id + 1 ∧
    (exonAlignmentMetrics env window chr [b] alignment length orientation true
        singleEnd st).2.exonCounts e.feature_id =
      dblAdd (st.exonCounts e.feature_id) (some 1) ∧
    (exonAlignmentMetrics env window chr [b] alignment length orientation true
        singleEnd st).2.geneFragmentCounts g.gene_id = st.geneFragmentCounts g.gene_id + 1 ∧
    (exonAlignmentMetrics env window chr [b] alignment length orientation true
        singleEnd st).2.uniqueGeneCounts g.gene_id = st.uniqueGeneCounts g.gene_id + 1 := by
  have hce' := containingExons_gene_exon env (feature_strand alignment orientation) window
    b g e hhits hg he hce hfull
  have hcand : candidateGenes env (feature_strand alignment orientation) window b =
      [g.gene_id] := by
    unfold candidateGenes; rw [hce']; simp [hge]
  obtain ⟨hgenes, _, _, hdata⟩ := scanBlocks_fields env (feature_strand alignment orientation)
    length window [b] st.baseCoverage
  have hdos : dblDiv (env.partialIntersect e b) length = some 1 := by
    unfold dblDiv
    rw [hfull, hlen, if_neg (by omega)]
    have : ((blockLength b : ℕ) : ℚ) ≠ 0 := by exact_mod_cast (by omega : blockLength b ≠ 0)
    simp [this]
  have hgenes' : (scanBlocks env (feature_strand alignment orientation) length window [b]
      st.baseCoverage).genes = [[g.gene_id]] := by
    rw [hgenes]; simp [hcand, setInsert]
  have hdata' : (scanBlocks env (feature_strand alignment orientation) length window [b]
      st.baseCoverage).collector.data = [(g.gene_id, e.feature_id, some 1)] := by
    rw [hdata]; simp [hce', hdos, hge]
  have hshared : sharedGenes env (feature_strand alignment orientation) window [b] =
      [g.gene_id] := by
    simp [sharedGenes, hcand]
  have hcat := categoryLabels_scan env (feature_strand alignment orientation) length window
    [b] st.baseCoverage true
  rw [hshared] at hcat
  simp only [List.isEmpty_cons, if_true] at hcat
  obtain ⟨c, cov, fr, hst⟩ := exonAlignmentMetrics_credit env window chr [b] alignment
    length orientation true singleEnd st
  rw [hgenes'] at hst
  simp only [intersectGenes, List.foldl_nil, List.foldl_cons] at hst
  refine ⟨?_, ?_, ?_, ?_, ?_, ?_, ?_, ?_⟩
  · rw [exonAlignmentMetrics_main_counter _ _ _ _ _ _ _ _ _ _ _ (by decide), hcat]; rfl
  · rw [exonAlignmentMetrics_main_counter _ _ _ _ _ _ _ _ _ _ _ (by decide), hcat]; rfl
  · rw [exonAlignmentMetrics_main_counter _ _ _ _ _ _ _ _ _ _ _ (by decide), hcat]; rfl
  · rw [exonAlignmentMetrics_main_counter _ _ _ _ _ _ _ _ _ _ _ (by decide), hcat]; rfl
  · rw [hst]
    simp [geneStep, Collector.queryGene, hdata']
  · rw [hst]
    simp [geneStep, Collector.queryGene, Collector.collect, hdata']
  · rw [hst]
    simp [geneStep, Collector.queryGene, hdata', hnew]
  · rw [hst]
    simp [geneStep, Collector.queryGene, hdata', hdup]

/-- Witness for the amended C8: the block 20..30 inside exon `E1` of gene `G1`,
read length 10. -/
theorem exonAlignmentMetrics_single_exon_read_witness :
    intersectBlock sampleEnv.intersectInterval blockInE1 [geneG1, exonE1] = [geneG1, exonE1] ∧
    0 < blockLength blockInE1 ∧
    (exonAlignmentMetrics sampleEnv [geneG1, exonE1] 1 [blockInE1] sampleAlignment 10
        Strand.Unknown true false emptyState).2.geneCounts geneG1.gene_id =
      emptyState.geneCounts geneG1.gene_id + 1 ∧
    (exonAlignmentMetrics sampleEnv [geneG1, exonE1] 1 [blockInE1] sampleAlignment 10
        Strand.Unknown true false emptyState).2.exonCounts exonE1.feature_id =
      dblAdd (emptyState.exonCounts exonE1.feature_id) (some 1) :=
  have h := exonAlignmentMetrics_single_exon_read sampleEnv [geneG1, exonE1] 1 blockInE1
    geneG1 exonE1 sampleAlignment 10 Strand.Unknown false emptyState
    (Or.inl (by decide)) (by decide) (by decide) (by decide) (by decide) (by decide)
    (by decide) (by decide) (by decide) (by decide)
  ⟨by decide, by decide, h.2.2.2.2.1, h.2.2.2.2.2.1⟩

/-- Counterexample to C8 as stated: a read whose single block is empty
(20..20, from a zero-length aligned operation) lies inside exon `E1` of gene
`G1` and meets every condition of the claim with read length 0 equal to the
block length; the staged dosage is 0/0, which is not a number, so
`exonCounts[E1]` does not rise by 1.0. -/
theorem exonAlignmentMetrics_empty_block_dosage :
    intersectBlock sampleEnv.intersectInterval emptyBlock [geneG1, exonE1] = [geneG1, exonE1] ∧
    geneG1.type = FeatureType.Gene ∧ exonE1.type = FeatureType.Exon ∧
    exonE1.gene_id = geneG1.gene_id ∧
    strandCompatible (feature_strand sampleAlignment Strand.Unknown) geneG1 = true ∧
    strandCompatible (feature_strand sampleAlignment Strand.Unknown) exonE1 = true ∧
    sampleEnv.partialIntersect exonE1 emptyBlock = (blockLength emptyBlock : Int) ∧
    fullyContains sampleEnv exonE1 emptyBlock = true ∧
    0 = blockLength emptyBlock ∧
    sampleAlignment.duplicateFlag = false ∧
    sampleAlignment.qname ∉ (emptyState.fragmentTracker geneG1.gene_id).getD [] ∧
    (exonAlignmentMetrics sampleEnv [geneG1, exonE1] 1 [emptyBlock] sampleAlignment 0
        Strand.Unknown true false emptyState).2.exonCounts exonE1.feature_id ≠
      dblAdd (emptyState.exonCounts exonE1.feature_id) (some 1) := by
  refine ⟨by decide, by decide, by decide, by decide, by decide, by decide, by decide,
    by decide, by decide, by decide, by decide, ?_⟩
  have h : (exonAlignmentMetrics sampleEnv [geneG1, exonE1] 1 [emptyBlock] sampleAlignment 0
      Strand.Unknown true false emptyState).2.exonCounts exonE1.feature_id = none := by
    decide
  rw [h]
  simp [dblAdd, emptyState]

/-! ## Theorems: `dropFeatures` and the window protocol -/

/-- The coverage calls of the loop of `dropFeatures`. -/
theorem dropLoop_coverage :
    ∀ (features : List Feature) (coverage : BaseCoverage) (ft : FragmentTracker),
      (dropLoop features coverage ft).1 =
        coverage ++ (features.filter (fun f => decide (f.type = FeatureType.Gene))).map
          CoverageCall.compute := by
  intro features
  induction features with
  | nil => intro coverage ft; simp [dropLoop]
  | cons f rest ih =>
    intro coverage ft
    by_cases hg : f.type = FeatureType.Gene
    · simp [dropLoop, hg, ih, List.filter_cons]
    · simp [dropLoop, hg, ih, List.filter_cons]

/-- The coverage calls after `dropFeatures`. -/
theorem dropFeatures_coverage (features : List Feature) (coverage : BaseCoverage)
    (ft : FragmentTracker) :
    (dropFeatures features coverage ft).2.1 =
      coverage ++ (features.filter (fun f => decide (f.type = FeatureType.Gene))).map
        CoverageCall.compute := by
  simp [dropFeatures, dropLoop_coverage]

/-- C12. After `dropFeatures` the window is empty, and coverage finalisation
has been called exactly once for each Gene feature that was in the window, in
window order, whatever their coordinates, and never for an Exon feature. -/
theorem dropFeatures_finalises_genes (features : List Feature) (coverage : BaseCoverage)
    (ft : FragmentTracker) :
    (dropFeatures features coverage ft).1 = [] ∧
    (dropFeatures features coverage ft).2.1 =
      coverage ++ (features.filter (fun f => decide (f.type = FeatureType.Gene))).map
        CoverageCall.compute ∧
    (∀ f : Feature, f.type = FeatureType.Exon →
      CoverageCall.compute f ∉
        (features.filter (fun f => decide (f.type = FeatureType.Gene))).map
          CoverageCall.compute) := by
  refine ⟨rfl, ?_, ?_⟩
  · exact dropFeatures_coverage features coverage ft
  · intro f hf hmem
    simp only [List.mem_map, List.mem_filter, decide_eq_true_eq] at hmem
    obtain ⟨g, ⟨_, hg⟩, hgf⟩ := hmem
    have : g = f := by injection hgf
    rw [this, hf] at hg
    cases hg

/-- The trims of a stream finalise the Gene features they remove and leave the
rest: the calls made so far followed by the Gene features still in the window
are the Gene features of the initial window. -/
theorem trimSequence_coverage :
    ∀ (alignments : List Alignment) (features : List Feature) (coverage : BaseCoverage)
      (ft : FragmentTracker),
      (trimSequence alignments features coverage ft).2.1 ++
          ((trimSequence alignments features coverage ft).1.filter
            (fun f => decide (f.type = FeatureType.Gene))).map CoverageCall.compute =
        coverage ++ (features.filter (fun f => decide (f.type = FeatureType.Gene))).map
          CoverageCall.compute := by
  intro alignments
  induction alignments with
  | nil => intro features coverage ft; rfl
  | cons a rest ih =>
    intro features coverage ft
    obtain ⟨hw, hc⟩ := trimFeaturesCoverage_spec a features coverage ft
    simp only [trimSequence]
    rw [ih, hw, hc, List.append_assoc, ← List.map_append, ← List.filter_append,
      List.takeWhile_append_dropWhile]

/-- C13. For every initial window and every finite sequence of positions,
trimming (with a coverage sink) once per position in order and then calling
`dropFeatures` passes to coverage finalisation exactly the Gene features of
the initial window, each once, in window order: none twice, none skipped. The
window is empty afterwards. -/
theorem trimThenDrop_finalises_each_gene_once (alignments : List Alignment)
    (features : List Feature) (coverage : BaseCoverage) (ft : FragmentTracker) :
    (trimThenDrop alignments features coverage ft).1 = [] ∧
    (trimThenDrop alignments features coverage ft).2.1 =
      coverage ++ (features.filter (fun f => decide (f.type = FeatureType.Gene))).map
        CoverageCall.compute := by
  refine ⟨rfl, ?_⟩
  unfold trimThenDrop
  simp only
  rw [dropFeatures_coverage, trimSequence_coverage]

/-! ## Theorems: block coordinates and aligned size -/

/-- One recognised operation: the new start and the new aligned size. -/
theorem cigarStep_start_size (alignment : Alignment) (chr : Nat) (legacy : Bool)
    (s : ExtractState) (c : CigarField) (h : isRecognisedOp c.type = true)
    (hs : s.start < coordMod) (ha : s.alignedSize < uintMod) :
    ∃ s', cigarStep alignment chr legacy s c = .ok s' ∧
      s'.start = (s.start + (if advancesStart c.type then c.length else 0)) % coordMod ∧
      s'.alignedSize = (s.alignedSize + ((if isAlignedOp c.type then c.length else 0) +
        (if legacy then (if c.type = 'S' then c.length else 0) else 0))) % uintMod ∧
      s'.blocks = s.blocks ++
        (if isAlignedOp c.type then [mkBlock alignment chr s.start c.length] else []) := by
  have hs' : s.start % coordMod = s.start := Nat.mod_eq_of_lt hs
  have ha' : s.alignedSize % uintMod = s.alignedSize := Nat.mod_eq_of_lt ha
  unfold cigarStep
  simp only [isRecognisedOp, isAlignedOp, advancesStart, Bool.or_eq_true, decide_eq_true_eq] at *
  by_cases h1 : c.type = 'M' ∨ c.type = '=' ∨ c.type = 'X'
  · have h2 : ¬ c.type = 'S' := by rcases h1 with h | h | h <;> rw [h] <;> decide
    have h3 : (((c.type = 'M' ∨ c.type = '=') ∨ c.type = 'X') ∨ c.type = 'N') ∨ c.type = 'D' := by
      tauto
    have h4 : (c.type = 'M' ∨ c.type = '=') ∨ c.type = 'X' := by tauto
    simp [h1, h2, h3, h4, cadd]
  · have h4 : ¬ ((c.type = 'M' ∨ c.type = '=') ∨ c.type = 'X') := by tauto
    by_cases h5 : c.type = 'N' ∨ c.type = 'D'
    · have h2 : ¬ c.type = 'S' := by rcases h5 with h | h <;> rw [h] <;> decide
      have h3 : (((c.type = 'M' ∨ c.type = '=') ∨ c.type = 'X') ∨ c.type = 'N') ∨
          c.type = 'D' := by tauto
      simp [h1, h2, h3, h4, h5, cadd, ha']
    · have h3 : ¬ ((((c.type = 'M' ∨ c.type = '=') ∨ c.type = 'X') ∨ c.type = 'N') ∨
          c.type = 'D') := by tauto
      by_cases h6 : c.type = 'H' ∨ c.type = 'P' ∨ c.type = 'I'
      · have h2 : ¬ c.type = 'S' := by rcases h6 with h | h | h <;> rw [h] <;> decide
        simp [h1, h2, h3, h4, h5, h6, hs', ha']
      · have h2 : c.type = 'S' := by tauto
        cases legacy <;> simp [h1, h2, h3, h4, h5, h6, hs', ha']

theorem sumLengths_cons (test : Char → Bool) (c : CigarField) (cs : List CigarField) :
    sumLengths test (c :: cs) = (if test c.type then c.length else 0) + sumLengths test cs := by
  unfold sumLengths
  by_cases h : test c.type = true
  · simp [List.filter_cons, h]
  · simp [List.filter_cons, h]

theorem specAlignedSize_cons (legacy : Bool) (c : CigarField) (cs : List CigarField) :
    specAlignedSize legacy (c :: cs) =
      ((if isAlignedOp c.type then c.length else 0) +
        (if legacy then (if c.type = 'S' then c.length else 0) else 0)) +
      specAlignedSize legacy cs := by
  unfold specAlignedSize
  rw [sumLengths_cons, sumLengths_cons]
  cases legacy
  · simp
  · simp only [if_true, decide_eq_true_eq]
    omega

theorem advance_cons (c : CigarField) (cs : List CigarField) :
    advance (c :: cs) = (if advancesStart c.type then c.length else 0) + advance cs := by
  unfold advance
  by_cases h : advancesStart c.type = true
  · simp [List.filter_cons, h]
  · simp [List.filter_cons, h]

/-- The specification's coordinates, one operation at a time. -/
theorem specCoordsFrom_cons (base : Nat) (c : CigarField) (cs : List CigarField) :
    specCoordsFrom base (c :: cs) =
      (if isAlignedOp c.type then [(base, base + c.length)] else []) ++
        specCoordsFrom (base + (if advancesStart c.type then c.length else 0)) cs := by
  unfold specCoordsFrom
  rw [List.inits_cons, List.zip_cons_cons, List.zip_map_left, List.filterMap_cons]
  have hrest : List.filterMap (fun x : List CigarField × CigarField =>
        if isAlignedOp x.2.type = true then
          some (base + advance x.1, base + advance x.1 + x.2.length) else none)
        (List.map (Prod.map (fun t => c :: t) id) (cs.inits.zip cs)) =
      List.filterMap (fun x : List CigarField × CigarField =>
        if isAlignedOp x.2.type = true then
          some (base + (if advancesStart c.type then c.length else 0) + advance x.1,
            base + (if advancesStart c.type then c.length else 0) + advance x.1 + x.2.length)
        else none) (cs.inits.zip cs) := by
    rw [List.filterMap_map]
    congr 1
    funext x
    simp only [Function.comp, Prod.map, id, advance_cons]
    split_ifs
    · simp only [Option.some.injEq, Prod.mk.injEq]
      omega
    · simp only [Option.some.injEq, Prod.mk.injEq]
      omega
    · rfl
  rw [hrest]
  by_cases h : isAlignedOp c.type = true
  · simp [h, advance]
  · simp [h]

theorem wrapCoords_specCoordsFrom_mod (base : Nat) :
    ∀ (cigar : List CigarField),
      (specCoordsFrom (base % coordMod) cigar).map wrapCoords =
        (specCoordsFrom base cigar).map wrapCoords := by
  intro cigar
  induction cigar generalizing base with
  | nil => simp [specCoordsFrom]
  | cons c cs ih =>
    rw [specCoordsFrom_cons, specCoordsFrom_cons, List.map_append, List.map_append]
    congr 1
    · split_ifs
      · simp [wrapCoords, Nat.add_mod]
      · rfl
    · rw [← ih (base % coordMod + _), ← ih (base + _)]
      congr 2
      simp [Nat.add_mod]

/-- The loop on a CIGAR of recognised operations: the appended blocks have the
specification's coordinates, reduced to the range of `coord`, and the aligned
size has grown by the specification's amount, modulo `uintMod`. -/
theorem extractLoop_coords (alignment : Alignment) (chr : Nat) (legacy : Bool) :
    ∀ (cigar : List CigarField) (s : ExtractState),
      (∀ c ∈ cigar, isRecognisedOp c.type = true) →
      s.start < coordMod → s.alignedSize < uintMod →
      ∃ s' appended, extractLoop alignment chr legacy cigar s = .ok s' ∧
        s'.blocks = s.blocks ++ appended ∧
        appended.map (fun b => (b.start, b.end_)) =
          (specCoordsFrom s.start cigar).map wrapCoords ∧
        s'.alignedSize = (s.alignedSize + specAlignedSize legacy cigar) % uintMod := by
  intro cigar
  induction cigar with
  | nil =>
    intro s _ _ ha
    exact ⟨s, [], rfl, by simp, by simp [specCoordsFrom],
      by simp [specAlignedSize, sumLengths, Nat.mod_eq_of_lt ha]⟩
  | cons c rest ih =>
    intro s h hs ha
    obtain ⟨s1, h1, hst, hsz, hb1⟩ := cigarStep_start_size alignment chr legacy s c
      (h c (by simp)) hs ha
    have hs1 : s1.start < coordMod := by
      rw [hst]; exact Nat.mod_lt _ (by unfold coordMod; positivity)
    have ha1 : s1.alignedSize < uintMod := by
      rw [hsz]; exact Nat.mod_lt _ (by unfold uintMod; positivity)
    obtain ⟨s2, app, h2, hb2, hc2, hz2⟩ := ih s1 (fun c' hc' => h c' (by simp [hc'])) hs1 ha1
    refine ⟨s2, (if isAlignedOp c.type then [mkBlock alignment chr s.start c.length] else []) ++ app,
      ?_, ?_, ?_, ?_⟩
    · simp [extractLoop, h1, h2]
    · rw [hb2, hb1, List.append_assoc]
    · rw [List.map_append, hc2, hst, wrapCoords_specCoordsFrom_mod, specCoordsFrom_cons,
        List.map_append]
      congr 1
      split_ifs
      · simp [mkBlock, wrapCoords, cadd, Nat.mod_eq_of_lt hs]
      · rfl
    · rw [hz2, hsz, specAlignedSize_cons]
      generalize ((if isAlignedOp c.type then c.length else 0) +
        (if legacy then (if c.type = 'S' then c.length else 0) else 0)) = x
      generalize specAlignedSize legacy rest = y
      generalize s.alignedSize = z
      unfold uintMod
      omega

/-- No coordinate of the specification exceeds the base plus the whole
advance of the CIGAR. -/
theorem specCoordsFrom_le :
    ∀ (cigar : List CigarField) (base : Nat),
      ∀ x ∈ specCoordsFrom base cigar,
        x.1 ≤ base + advance cigar ∧ x.2 ≤ base + advance cigar := by
  intro cigar
  induction cigar with
  | nil => intro base x hx; simp [specCoordsFrom] at hx
  | cons c cs ih =>
    intro base x hx
    rw [specCoordsFrom_cons, List.mem_append] at hx
    rw [advance_cons]
    rcases hx with hx | hx
    · by_cases ha : isAlignedOp c.type = true
      · have hadv : advancesStart c.type = true := by
          simp only [isAlignedOp, advancesStart, Bool.or_eq_true, decide_eq_true_eq] at *
          tauto
        simp only [ha, if_true, List.mem_singleton] at hx
        subst hx
        simp only [hadv, if_true]
        omega
      · simp [ha] at hx
    · have := ih _ x hx
      omega

/-- Without overflow the reduction to the range of `coord` changes nothing. -/
theorem map_wrapCoords_specCoordsFrom (base : Nat) (cigar : List CigarField)
    (h : base + advance cigar < coordMod) :
    (specCoordsFrom base cigar).map wrapCoords = specCoordsFrom base cigar := by
  conv_rhs => rw [← List.map_id (specCoordsFrom base cigar)]
  apply List.map_congr_left
  intro x hx
  obtain ⟨h1, h2⟩ := specCoordsFrom_le cigar base x hx
  unfold wrapCoords
  rw [Nat.mod_eq_of_lt (by omega), Nat.mod_eq_of_lt (by omega)]
  rfl

/-- What `extractBlocks` returns on a CIGAR of recognised operations. -/
theorem extractBlocks_spec (alignment : Alignment) (blocks : List Feature)
    (chr : Nat) (legacy : Bool)
    (h : ∀ c ∈ alignment.cigar, isRecognisedOp c.type = true) :
    ∃ appended,
      extractBlocks alignment blocks chr legacy =
        .ok (specAlignedSize legacy alignment.cigar % uintMod, blocks ++ appended) ∧
      appended.map (fun b => (b.start, b.end_)) =
        (specBlockCoords alignment.position alignment.cigar).map wrapCoords := by
  obtain ⟨s', app, h1, h2, h3, h4⟩ := extractLoop_coords alignment chr legacy alignment.cigar
    { start := cadd alignment.position 1, alignedSize := 0, blocks := blocks } h
    (Nat.mod_lt _ (by unfold coordMod; positivity)) (by unfold uintMod; positivity)
  refine ⟨app, ?_, ?_⟩
  · simp only [Nat.zero_add] at h4
    simp [extractBlocks, h1, h2, h4]
  · rw [h3]
    exact wrapCoords_specCoordsFrom_mod (alignment.position + 1) alignment.cigar

/-- C14. For a CIGAR of recognised operations and an alignment at 0-based
position `p`, the blocks are emitted in CIGAR order, one per M, = or X
operation, and the block of an operation has
`start = p + 1 + (lengths of the M, =, X, N and D operations before it)` and
`end = start + (its length)`, in the arithmetic of `coord`; the equalities are
exact whenever `p + 1` plus the whole advance of the CIGAR fits a `coord`,
which every alignment record satisfies. I, S, H and P operations enter no
coordinate. -/
theorem extractBlocks_block_coordinates (alignment : Alignment) (blocks : List Feature)
    (chr : Nat) (legacy : Bool)
    (h : ∀ c ∈ alignment.cigar, isRecognisedOp c.type = true) :
    ∃ size appended,
      extractBlocks alignment blocks chr legacy = .ok (size, blocks ++ appended) ∧
      appended.map (fun b => (b.start, b.end_)) =
        (specBlockCoords alignment.position alignment.cigar).map wrapCoords ∧
      (alignment.position + 1 + advance alignment.cigar < coordMod →
        appended.map (fun b => (b.start, b.end_)) =
          specBlockCoords alignment.position alignment.cigar) := by
  obtain ⟨app, h1, h2⟩ := extractBlocks_spec alignment blocks chr legacy h
  refine ⟨_, app, h1, h2, ?_⟩
  intro hno
  rw [h2]
  exact map_wrapCoords_specCoordsFrom _ _ hno

/-- Witness for C14: the CIGAR `5M3N2S4X` at position 9 gives the blocks
10..15 and 18..22. -/
theorem extractBlocks_block_coordinates_witness :
    (∀ c ∈ sampleAlignment.cigar, isRecognisedOp c.type = true) ∧
    sampleAlignment.position + 1 + advance sampleAlignment.cigar < coordMod ∧
    ∃ size appended,
      extractBlocks sampleAlignment [] 1 true = .ok (size, [] ++ appended) ∧
      appended.map (fun b => (b.start, b.end_)) = [(10, 15), (18, 22)] := by
  obtain ⟨size, appended, h1, _, h3⟩ :=
    extractBlocks_block_coordinates sampleAlignment [] 1 true (by decide)
  exact ⟨by decide, by decide, size, appended, h1, (h3 (by decide)).trans (by decide)⟩

/-- C15. For a CIGAR of recognised operations the aligned size returned by
`extractBlocks` is, modulo 2^32, the sum of the lengths of the M, = and X
operations when legacy mode is off, and that sum plus the sum of the lengths
of the S operations when legacy mode is on; N, D, H, P and I never
contribute. -/
theorem extractBlocks_aligned_size (alignment : Alignment) (blocks : List Feature)
    (chr : Nat) (legacy : Bool)
    (h : ∀ c ∈ alignment.cigar, isRecognisedOp c.type = true) :
    ∃ appended,
      extractBlocks alignment blocks chr legacy =
        .ok ((sumLengths isAlignedOp alignment.cigar +
            (if legacy then sumLengths (fun c => decide (c = 'S')) alignment.cigar else 0)) %
              uintMod,
          blocks ++ appended) := by
  obtain ⟨app, h1, _⟩ := extractBlocks_spec alignment blocks chr legacy h
  exact ⟨app, h1⟩

/-- Witness for C15: the CIGAR `5M3N2S4X` has aligned size 11 in legacy mode
and 9 otherwise. -/
theorem extractBlocks_aligned_size_witness :
    (∀ c ∈ sampleAlignment.cigar, isRecognisedOp c.type = true) ∧
    (∃ appended, extractBlocks sampleAlignment [] 1 true = .ok (11, [] ++ appended)) ∧
    (∃ appended, extractBlocks sampleAlignment [] 1 false = .ok (9, [] ++ appended)) := by
  obtain ⟨a1, h1⟩ := extractBlocks_aligned_size sampleAlignment [] 1 true (by decide)
  obtain ⟨a2, h2⟩ := extractBlocks_aligned_size sampleAlignment [] 1 false (by decide)
  exact ⟨by decide, ⟨a1, h1⟩, ⟨a2, h2⟩⟩

/-! ## Theorems: `intersectBlock` as a call -/

/-- The loop of `intersectBlock` returns the window it was given and appends
the matches of the part not yet visited. -/
theorem intersectScan_eq (intersectInterval : Feature → Feature → Bool) (block : Feature)
    (features : List Feature) :
    ∀ (remaining output : List Feature),
      intersectScan intersectInterval block features remaining output =
        (features, output ++ intersectBlock intersectInterval block remaining) := by
  intro remaining
  induction remaining with
  | nil => intro output; simp [intersectScan, intersectBlock]
  | cons f rest ih =>
    intro output
    by_cases h : f.start ≤ block.end_
    · by_cases hi : intersectInterval block f = true
      · simp [intersectScan, intersectBlock, h, hi, ih]
      · simp [intersectScan, intersectBlock, h, hi, ih]
    · simp [intersectScan, intersectBlock, h]

/-- C17. For every block and window, a call of `intersectBlock` leaves the
window as it was, and a second call with the same block on that window returns
the same list of matches as the first. -/
theorem intersectBlock_idempotent (intersectInterval : Feature → Feature → Bool)
    (block : Feature) (features : List Feature) :
    (intersectBlockCall intersectInterval block features).1 = features ∧
    (intersectBlockCall intersectInterval block
        (intersectBlockCall intersectInterval block features).1).2 =
      (intersectBlockCall intersectInterval block features).2 ∧
    (intersectBlockCall intersectInterval block features).2 =
      intersectBlock intersectInterval block features := by
  unfold intersectBlockCall
  simp [intersectScan_eq]

/-! ## Theorems: the fragment tracker under `trimFeatures` and `dropFeatures` -/

theorem eraseAll_apply (keys : List String) :
    ∀ (ft : FragmentTracker) (k : String),
      eraseAll ft keys k = if k ∈ keys then none else ft k := by
  induction keys with
  | nil => intro ft k; simp [eraseAll]
  | cons x rest ih =>
    intro ft k
    have h := ih (Function.update ft x none) k
    unfold eraseAll at h ⊢
    rw [List.foldl_cons, h]
    by_cases hk : k ∈ rest
    · simp [hk]
    · by_cases hx : k = x
      · subst hx; simp [hk]
      · simp [hk, hx, Function.update_noteq hx]

/-- The tracker after either overload of `trimFeatures`: the feature ids of
the removed Gene features are erased. -/
theorem trimFeatures_tracker (alignment : Alignment) :
    ∀ (features : List Feature) (coverage : BaseCoverage) (ft : FragmentTracker),
      (trimFeatures alignment features ft).2 =
        eraseAll ft (((features.takeWhile (fun f => decide (f.end_ < alignment.position))).filter
          (fun f => decide (f.type = FeatureType.Gene))).map (fun f => f.feature_id)) ∧
      (trimFeaturesCoverage alignment features coverage ft).2.2 =
        eraseAll ft (((features.takeWhile (fun f => decide (f.end_ < alignment.position))).filter
          (fun f => decide (f.type = FeatureType.Gene))).map (fun f => f.feature_id)) := by
  intro features
  induction features with
  | nil => intro coverage ft; simp [trimFeatures, trimFeaturesCoverage, eraseAll]
  | cons f rest ih =>
    intro coverage ft
    by_cases h : f.end_ < alignment.position
    · by_cases hg : f.type = FeatureType.Gene
      · obtain ⟨i1, i2⟩ := ih (coverage ++ [CoverageCall.compute f])
          (Function.update ft f.feature_id none)
        simp [trimFeatures, trimFeaturesCoverage, h, hg, i1, i2, List.takeWhile_cons,
          List.filter_cons, eraseAll]
      · obtain ⟨i1, i2⟩ := ih coverage ft
        simp [trimFeatures, trimFeaturesCoverage, h, hg, i1, i2, List.takeWhile_cons,
          List.filter_cons]
    · simp [trimFeatures, trimFeaturesCoverage, h, List.takeWhile_cons, eraseAll]

/-- The tracker after `dropFeatures`: the feature ids of all Gene features of
the window are erased. -/
theorem dropFeatures_tracker :
    ∀ (features : List Feature) (coverage : BaseCoverage) (ft : FragmentTracker),
      (dropFeatures features coverage ft).2.2 =
        eraseAll ft ((features.filter (fun f => decide (f.type = FeatureType.Gene))).map
          (fun f => f.feature_id)) := by
  intro features
  induction features with
  | nil => intro coverage ft; simp [dropFeatures, dropLoop, eraseAll]
  | cons f rest ih =>
    intro coverage ft
    by_cases hg : f.type = FeatureType.Gene
    · have := ih (coverage ++ [CoverageCall.compute f]) (Function.update ft f.feature_id none)
      simp only [dropFeatures] at this ⊢
      simp [dropLoop, hg, this, List.filter_cons, eraseAll]
    · have := ih coverage ft
      simp only [dropFeatures] at this ⊢
      simp [dropLoop, hg, this, List.filter_cons]

/-- Counterexample to C18 as stated: a Gene feature with `feature_id`
"gene-1" and `gene_id` "G1" is removed from the window by `trimFeatures`
(both overloads) at position 100 and by `dropFeatures`, yet the tracker still
holds the entry keyed by its gene id "G1", because the code erases the key
`feature_id`. -/
theorem trim_keeps_entry_keyed_by_gene_id :
    renamedGene.type = FeatureType.Gene ∧
    (trimFeatures staleAlignment [renamedGene] trackerG1).1 = [] ∧
    (trimFeatures staleAlignment [renamedGene] trackerG1).2 renamedGene.gene_id ≠ none ∧
    (trimFeaturesCoverage staleAlignment [renamedGene] [] trackerG1).1 = [] ∧
    (trimFeaturesCoverage staleAlignment [renamedGene] [] trackerG1).2.2 renamedGene.gene_id ≠
      none ∧
    (dropFeatures [renamedGene] [] trackerG1).1 = [] ∧
    (dropFeatures [renamedGene] [] trackerG1).2.2 renamedGene.gene_id ≠ none := by
  refine ⟨by decide, by decide, by decide, by decide, by decide, by decide, by decide⟩

/-- C18, amended. Whenever `trimFeatures` (either overload) or `dropFeatures`
removes a Gene feature from the window, the fragment tracker afterwards holds
no entry keyed by that feature's `feature_id`; it holds none keyed by its
`gene_id` when the two ids of the Gene feature are equal. -/
theorem removed_gene_not_tracked (alignment : Alignment) (features : List Feature)
    (coverage : BaseCoverage) (ft : FragmentTracker) :
    (∀ f ∈ features.takeWhile (fun f => decide (f.end_ < alignment.position)),
      f.type = FeatureType.Gene →
        (trimFeatures alignment features ft).2 f.feature_id = none ∧
        (trimFeaturesCoverage alignment features coverage ft).2.2 f.feature_id = none ∧
        (f.feature_id = f.gene_id →
          (trimFeatures alignment features ft).2 f.gene_id = none ∧
          (trimFeaturesCoverage alignment features coverage ft).2.2 f.gene_id = none)) ∧
    (∀ f ∈ features, f.type = FeatureType.Gene →
      (dropFeatures features coverage ft).2.2 f.feature_id = none ∧
      (f.feature_id = f.gene_id → (dropFeatures features coverage ft).2.2 f.gene_id = none)) := by
  obtain ⟨h1, h2⟩ := trimFeatures_tracker alignment features coverage ft
  have h3 := dropFeatures_tracker features coverage ft
  constructor
  · intro f hf hg
    have hmem : f.feature_id ∈ ((features.takeWhile
        (fun f => decide (f.end_ < alignment.position))).filter
          (fun f => decide (f.type = FeatureType.Gene))).map (fun f => f.feature_id) :=
      List.mem_map.mpr ⟨f, List.mem_filter.mpr ⟨hf, by simp [hg]⟩, rfl⟩
    have e1 : (trimFeatures alignment features ft).2 f.feature_id = none := by
      rw [h1, eraseAll_apply, if_pos hmem]
    have e2 : (trimFeaturesCoverage alignment features coverage ft).2.2 f.feature_id = none := by
      rw [h2, eraseAll_apply, if_pos hmem]
    refine ⟨e1, e2, ?_⟩
    intro heq
    rw [← heq]
    exact ⟨e1, e2⟩
  · intro f hf hg
    have hmem : f.feature_id ∈ (features.filter
        (fun f => decide (f.type = FeatureType.Gene))).map (fun f => f.feature_id) :=
      List.mem_map.mpr ⟨f, List.mem_filter.mpr ⟨hf, by simp [hg]⟩, rfl⟩
    have e3 : (dropFeatures features coverage ft).2.2 f.feature_id = none := by
      rw [h3, eraseAll_apply, if_pos hmem]
    refine ⟨e3, ?_⟩
    intro heq
    rw [← heq]
    exact e3

/-- Witness for the amended C18: gene `G0`, whose two ids are equal, is removed
by a trim at position 100. -/
theorem removed_gene_not_tracked_witness :
    geneG0 ∈ [geneG0, geneG1].takeWhile
      (fun f => decide (f.end_ < staleAlignment.position)) ∧
    geneG0.type = FeatureType.Gene ∧
    geneG0.feature_id = geneG0.gene_id ∧
    (trimFeatures staleAlignment [geneG0, geneG1]
      (fun k => if k = "G0" then some ["read1"] else none)).2 geneG0.gene_id = none :=
  ⟨by decide, by decide, by decide,
    (((removed_gene_not_tracked staleAlignment [geneG0, geneG1] []
      (fun k => if k = "G0" then some ["read1"] else none)).1 geneG0
        (by decide) (by decide)).2.2 (by decide)).1⟩

/-! ## Theorems: GC sampling in `exonAlignmentMetrics` -/

theorem resultStep_alignedExons (env : Env) (rs : Strand) (length : Nat) (block : Feature)
    (s : Scan) (r : Feature) :
    (resultStep env rs length block s r).alignedExons =
      if strandCompatible rs r && (decide (r.type = FeatureType.Exon) &&
          fullyContains env r block)
        then setInsert s.alignedExons r.feature_id else s.alignedExons := by
  unfold resultStep
  by_cases hc : strandCompatible rs r = true
  · by_cases he : r.type = FeatureType.Exon
    · by_cases hf : fullyContains env r block = true
      · simp only [hc, he, hf, if_true]
        split_ifs <;> simp_all
      · simp only [hc, he, hf, if_true]
        split_ifs <;> simp_all
    · by_cases hgene : r.type = FeatureType.Gene
      · simp only [hc, he, hgene, if_true, if_false]
        split_ifs <;> simp_all
      · simp only [hc, he, hgene, if_true, if_false]
        split_ifs <;> simp_all
  · simp [hc]

theorem foldl_resultStep_alignedExons (env : Env) (rs : Strand) (length : Nat)
    (block : Feature) :
    ∀ (results : List Feature) (s : Scan),
      (results.foldl (resultStep env rs length block) s).alignedExons =
        ((results.filter (fun r => strandCompatible rs r &&
          (decide (r.type = FeatureType.Exon) && fullyContains env r block))).map
            (fun r => r.feature_id)).foldl setInsert s.alignedExons := by
  intro results
  induction results with
  | nil => intro s; rfl
  | cons r rest ih =>
    intro s
    rw [List.foldl_cons, ih, resultStep_alignedExons]
    by_cases hq : (strandCompatible rs r && (decide (r.type = FeatureType.Exon) &&
        fullyContains env r block)) = true
    · simp [List.filter_cons, hq]
    · simp [List.filter_cons, hq]

theorem blockStep_alignedExons (env : Env) (rs : Strand) (length : Nat)
    (window : List Feature) (s : Scan) (block : Feature) :
    (blockStep env rs length window s block).alignedExons =
      ((containingExons env rs window block).map (fun f => f.feature_id)).foldl
        setInsert s.alignedExons := by
  unfold blockStep containingExons compatibleHits
  rw [foldl_resultStep_alignedExons, List.filter_filter]
  simp only [Bool.and_comm, Bool.and_assoc, Bool.and_left_comm]

theorem foldl_blockStep_alignedExons (env : Env) (rs : Strand) (length : Nat)
    (window : List Feature) :
    ∀ (blocks : List Feature) (s : Scan),
      (blocks.foldl (blockStep env rs length window) s).alignedExons =
        ((blocks.map (fun b =>
          (containingExons env rs window b).map (fun f => f.feature_id))).flatten).foldl
            setInsert s.alignedExons := by
  intro blocks
  induction blocks with
  | nil => intro s; rfl
  | cons b rest ih =>
    intro s
    rw [List.foldl_cons, ih, blockStep_alignedExons]
    simp [List.foldl_append]

/-- The set `alignedExons` after the block loop is the specification's set of
aligned exons. -/
theorem scanBlocks_alignedExons (env : Env) (rs : Strand) (length : Nat)
    (window : List Feature) (blocks : List Feature) (coverage : BaseCoverage) :
    (scanBlocks env rs length window blocks coverage).alignedExons =
      alignedExonIds env rs window blocks := by
  unfold scanBlocks alignedExonIds
  rw [foldl_blockStep_alignedExons]
  rfl

/-- The guard of the GC-sampling block, in the words of the specification. -/
theorem gcEligible_scan (env : Env) (chr : Nat) (window blocks : List Feature)
    (alignment : Alignment) (length : Nat) (rs : Strand) (highQuality : Bool)
    (coverage : BaseCoverage) :
    gcEligible env chr blocks alignment highQuality
        (scanBlocks env rs length window blocks coverage) =
      (gcCandidate env rs window chr blocks highQuality &&
        (decide (100 < alignment.insertSize.natAbs) &&
          decide (alignment.insertSize.natAbs < 1000))) := by
  unfold gcEligible gcCandidate
  rw [scanBlocks_alignedExons, doExonMetrics_scan,
    (scanBlocks_fields env rs length window blocks coverage).2.1]
  by_cases hs : (sharedGenes env rs window blocks).isEmpty = false
  · have := exonEvidence_of_sharedGenes env rs window blocks hs
    rw [this, hs]
    simp only [Bool.and_comm, Bool.and_assoc, Bool.and_left_comm, gt_iff_lt, Bool.not_false,
      Bool.true_and, Bool.and_true]
  · simp only [Bool.not_eq_false] at hs
    simp [hs]

/-- The returned value and the pair-state map of `exonAlignmentMetrics` are
those of its GC-sampling block run on the caller's pair-state map. -/
theorem exonAlignmentMetrics_sample (env : Env) (window : List Feature) (chr : Nat)
    (blocks : List Feature) (alignment : Alignment) (length : Nat) (orientation : Strand)
    (highQuality singleEnd : Bool) (st : State) :
    (exonAlignmentMetrics env window chr blocks alignment length orientation highQuality
        singleEnd st).1 =
      (gcSample env chr blocks alignment highQuality
        (scanBlocks env (feature_strand alignment orientation) length window blocks
          st.baseCoverage) st.fragments).1 ∧
    (exonAlignmentMetrics env window chr blocks alignment length orientation highQuality
        singleEnd st).2.fragments =
      (gcSample env chr blocks alignment highQuality
        (scanBlocks env (feature_strand alignment orientation) length window blocks
          st.baseCoverage) st.fragments).2 := by
  unfold exonAlignmentMetrics
  simp only
  split_ifs
  · rw [(foldl_geneStep_counter highQuality alignment _ _ _).2]
    exact ⟨rfl, rfl⟩
  · exact ⟨rfl, rfl⟩

/-- Counterexample to C16 as stated: the otherwise eligible sample read with
insert size exactly 100 (inside `100 <= s < 1000`) takes no part in pair
tracking, no entry is created for its query name; and with insert size -150
(outside `100 <= s < 1000`) it does, an entry is created. The guard is
`100 < |s| < 1000`. -/
theorem gc_insert_size_guard_is_strict_and_absolute :
    gcCandidate sampleEnv (feature_strand insert100Alignment Strand.Unknown)
      [geneG1, exonE1] 1 [blockInE1] true = true ∧
    (100 ≤ insert100Alignment.insertSize ∧ insert100Alignment.insertSize < 1000) ∧
    emptyState.fragments insert100Alignment.qname = none ∧
    (exonAlignmentMetrics sampleEnv [geneG1, exonE1] 1 [blockInE1] insert100Alignment 10
      Strand.Unknown true false emptyState).2.fragments insert100Alignment.qname = none ∧
    gcCandidate sampleEnv (feature_strand insertNeg150Alignment Strand.Unknown)
      [geneG1, exonE1] 1 [blockInE1] true = true ∧
    ¬ (100 ≤ insertNeg150Alignment.insertSize ∧ insertNeg150Alignment.insertSize < 1000) ∧
    (exonAlignmentMetrics sampleEnv [geneG1, exonE1] 1 [blockInE1] insertNeg150Alignment 10
      Strand.Unknown true false emptyState).2.fragments insertNeg150Alignment.qname =
        some ("E1", 21) := by
  refine ⟨by decide, by decide, by decide, by decide, by decide, by decide, by decide⟩

/-- C16, amended. In the current engine, a read that is otherwise eligible for
GC sampling (exactly one block, exactly one aligned exon, high-quality, at
least one unambiguous gene, reference sequence available) takes part in pair
tracking if and only if its insert size `s` satisfies `100 < |s| < 1000`: the
guard of the sampling block holds exactly then; on the first occurrence of its
query name an entry is created exactly then; and outside that range the
pair-state map is left as it was and the no-sample value -1 is returned. -/
theorem gc_pair_tracking_iff_insert_window (env : Env) (window : List Feature) (chr : Nat)
    (blocks : List Feature) (alignment : Alignment) (length : Nat) (orientation : Strand)
    (highQuality singleEnd : Bool) (st : State)
    (hcand : gcCandidate env (feature_strand alignment orientation) window chr blocks
      highQuality = true) :
    (gcEligible env chr blocks alignment highQuality
        (scanBlocks env (feature_strand alignment orientation) length window blocks
          st.baseCoverage) = true ↔
      (100 < alignment.insertSize.natAbs ∧ alignment.insertSize.natAbs < 1000)) ∧
    (st.fragments alignment.qname = none →
      ((exonAlignmentMetrics env window chr blocks alignment length orientation highQuality
          singleEnd st).2.fragments alignment.qname ≠ none ↔
        (100 < alignment.insertSize.natAbs ∧ alignment.insertSize.natAbs < 1000))) ∧
    (¬ (100 < alignment.insertSize.natAbs ∧ alignment.insertSize.natAbs < 1000) →
      (exonAlignmentMetrics env window chr blocks alignment length orientation highQuality
          singleEnd st).2.fragments = st.fragments ∧
      (exonAlignmentMetrics env window chr blocks alignment length orientation highQuality
          singleEnd st).1 = some (-1)) := by
  have hel := gcEligible_scan env chr window blocks alignment length
    (feature_strand alignment orientation) highQuality st.baseCoverage
  rw [hcand, Bool.true_and] at hel
  obtain ⟨hret, hfr⟩ := exonAlignmentMetrics_sample env window chr blocks alignment length
    orientation highQuality singleEnd st
  have hiff : gcEligible env chr blocks alignment highQuality
        (scanBlocks env (feature_strand alignment orientation) length window blocks
          st.baseCoverage) = true ↔
      (100 < alignment.insertSize.natAbs ∧ alignment.insertSize.natAbs < 1000) := by
    rw [hel]; simp
  refine ⟨hiff, ?_, ?_⟩
  · intro hnone
    rw [hfr]
    unfold gcSample
    by_cases hin : 100 < alignment.insertSize.natAbs ∧ alignment.insertSize.natAbs < 1000
    · rw [if_pos (hiff.mpr hin)]
      simp [hnone, hin]
    · rw [if_neg (fun h => hin (hiff.mp h))]
      simp [hnone, hin]
  · intro hout
    rw [hfr, hret]
    unfold gcSample
    rw [if_neg (fun h => hout (hiff.mp h))]
    exact ⟨rfl, rfl⟩

/-- Witness for the amended C16: the sample read, insert size 150, first
occurrence of its query name. -/
theorem gc_pair_tracking_iff_insert_window_witness :
    gcCandidate sampleEnv (feature_strand sampleAlignment Strand.Unknown)
      [geneG1, exonE1] 1 [blockInE1] true = true ∧
    emptyState.fragments sampleAlignment.qname = none ∧
    (100 < sampleAlignment.insertSize.natAbs ∧ sampleAlignment.insertSize.natAbs < 1000) ∧
    (exonAlignmentMetrics sampleEnv [geneG1, exonE1] 1 [blockInE1] sampleAlignment 10
      Strand.Unknown true false emptyState).2.fragments sampleAlignment.qname ≠ none :=
  ⟨by decide, by decide, by decide,
    ((gc_pair_tracking_iff_insert_window sampleEnv [geneG1, exonE1] 1 [blockInE1]
      sampleAlignment 10 Strand.Unknown true false emptyState (by decide)).2.1
        (by decide)).mpr (by decide)⟩

/-- Counterexample to C19 as stated: the eligible sample read (insert size
150, one block inside exon `E1`) arrives when its query name already has the
entry `(E1, 40)`; its end 21 does not exceed the recorded end 40, so the
ordering guard fails, -1 is returned, and the entry is still in the pair-state
map after the call. -/
theorem gc_guard_failure_keeps_entry :
    gcEligible sampleEnv 1 [blockInE1] sampleAlignment true
      (scanBlocks sampleEnv (feature_strand sampleAlignment Strand.Unknown) 10
        [geneG1, exonE1] [blockInE1] pendingState.baseCoverage) = true ∧
    alignedExonIds sampleEnv (feature_strand sampleAlignment Strand.Unknown)
      [geneG1, exonE1] [blockInE1] = ["E1"] ∧
    pendingState.fragments sampleAlignment.qname = some ("E1", 40) ∧
    sampleAlignment.positionEnd ≤ 40 ∧
    (exonAlignmentMetrics sampleEnv [geneG1, exonE1] 1 [blockInE1] sampleAlignment 10
      Strand.Unknown true false pendingState).1 = some (-1) ∧
    (exonAlignmentMetrics sampleEnv [geneG1, exonE1] 1 [blockInE1] sampleAlignment 10
      Strand.Unknown true false pendingState).2.fragments sampleAlignment.qname =
        some ("E1", 40) := by
  refine ⟨by decide, by decide, by decide, by decide, ?_, by decide⟩
  rw [(exonAlignmentMetrics_sample _ _ _ _ _ _ _ _ _ _).1]
  have h : gcEligible sampleEnv 1 [blockInE1] sampleAlignment true
      (scanBlocks sampleEnv (feature_strand sampleAlignment Strand.Unknown) 10
        [geneG1, exonE1] [blockInE1] pendingState.baseCoverage) = true := by decide
  have hx : (scanBlocks sampleEnv (feature_strand sampleAlignment Strand.Unknown) 10
      [geneG1, exonE1] [blockInE1] pendingState.baseCoverage).alignedExons.headD "" = "E1" := by
    decide
  have he : pendingState.fragments sampleAlignment.qname = some ("E1", 40) := by decide
  have hg : sampleAlignment.positionEnd ≤ 40 := by decide
  unfold gcSample
  rw [if_pos h]
  simp only [he, hx, if_true]
  rw [if_pos (Or.inl hg)]

/-- C19, amended. In the current engine, on the second eligible occurrence of
a query name whose recorded exon matches, the tracking entry is absent from
the pair-state map after the call when the ordering guards pass (a GC value is
computed from the reference sequence, or -1 when the sequence is empty) and the
rest of the map is untouched; when the ordering guards fail (read end <=
recorded end, or read position = mate position) the value -1 is returned and
the map, the entry included, is left as it was. -/
theorem gc_second_occurrence_entry (env : Env) (window : List Feature) (chr : Nat)
    (blocks : List Feature) (alignment : Alignment) (length : Nat) (orientation : Strand)
    (highQuality singleEnd : Bool) (st : State) (exon : String) (recordedEnd : Nat)
    (hcand : gcCandidate env (feature_strand alignment orientation) window chr blocks
      highQuality = true)
    (hin : 100 < alignment.insertSize.natAbs ∧ alignment.insertSize.natAbs < 1000)
    (hexon : alignedExonIds env (feature_strand alignment orientation) window blocks = [exon])
    (hentry : st.fragments alignment.qname = some (exon, recordedEnd)) :
    (exonAlignmentMetrics env window chr blocks alignment length orientation highQuality
        singleEnd st).2.fragments =
      (if gcGuardFails alignment recordedEnd then st.fragments
        else Function.update st.fragments alignment.qname none) ∧
    (exonAlignmentMetrics env window chr blocks alignment length orientation highQuality
        singleEnd st).2.fragments alignment.qname =
      (if gcGuardFails alignment recordedEnd then some (exon, recordedEnd) else none) ∧
    (exonAlignmentMetrics env window chr blocks alignment length orientation highQuality
        singleEnd st).1 =
      (if gcGuardFails alignment recordedEnd then some (-1)
        else if (env.getSeq chr (csub recordedEnd alignment.length)
            alignment.positionEnd).length > 0
          then env.gc (env.getSeq chr (csub recordedEnd alignment.length) alignment.positionEnd)
          else some (-1)) := by
  have hel := gcEligible_scan env chr window blocks alignment length
    (feature_strand alignment orientation) highQuality st.baseCoverage
  rw [hcand, Bool.true_and] at hel
  have hE : gcEligible env chr blocks alignment highQuality
      (scanBlocks env (feature_strand alignment orientation) length window blocks
        st.baseCoverage) = true := by
    rw [hel]; simp [hin]
  have hname : (scanBlocks env (feature_strand alignment orientation) length window blocks
      st.baseCoverage).alignedExons.headD "" = exon := by
    rw [scanBlocks_alignedExons, hexon]; rfl
  obtain ⟨hret, hfr⟩ := exonAlignmentMetrics_sample env window chr blocks alignment length
    orientation highQuality singleEnd st
  have hs : gcSample env chr blocks alignment highQuality
      (scanBlocks env (feature_strand alignment orientation) length window blocks
        st.baseCoverage) st.fragments =
      if gcGuardFails alignment recordedEnd then (some (-1), st.fragments)
      else ((if (env.getSeq chr (csub recordedEnd alignment.length)
            alignment.positionEnd).length > 0
          then env.gc (env.getSeq chr (csub recordedEnd alignment.length) alignment.positionEnd)
          else some (-1)), Function.update st.fragments alignment.qname none) := by
    unfold gcSample
    rw [if_pos hE]
    simp only [hentry, hname, if_true]
    unfold gcGuardFails
    by_cases hg : alignment.positionEnd ≤ recordedEnd ∨
        (alignment.position : Int) = alignment.matePosition
    · have : (decide (alignment.positionEnd ≤ recordedEnd) ||
          decide ((alignment.position : Int) = alignment.matePosition)) = true := by
        simpa using hg
      rw [if_pos hg, if_pos this]
    · have : ¬ (decide (alignment.positionEnd ≤ recordedEnd) ||
          decide ((alignment.position : Int) = alignment.matePosition)) = true := by
        simpa using hg
      rw [if_neg hg, if_neg this]
  rw [hfr, hret, hs]
  by_cases hg : gcGuardFails alignment recordedEnd = true
  · simp [hg, hentry]
  · simp [hg]

/-- Witness for the amended C19: the sample read arrives when its query name
has the entry `(E1, 15)`; it ends at 21 and its mate starts elsewhere, so the
guards pass and the entry is erased. -/
theorem gc_second_occurrence_entry_witness :
    gcCandidate sampleEnv (feature_strand sampleAlignment Strand.Unknown)
      [geneG1, exonE1] 1 [blockInE1] true = true ∧
    (100 < sampleAlignment.insertSize.natAbs ∧ sampleAlignment.insertSize.natAbs < 1000) ∧
    alignedExonIds sampleEnv (feature_strand sampleAlignment Strand.Unknown)
      [geneG1, exonE1] [blockInE1] = ["E1"] ∧
    pendingEarlyState.fragments sampleAlignment.qname = some ("E1", 15) ∧
    gcGuardFails sampleAlignment 15 = false ∧
    (exonAlignmentMetrics sampleEnv [geneG1, exonE1] 1 [blockInE1] sampleAlignment 10
      Strand.Unknown true false pendingEarlyState).2.fragments sampleAlignment.qname =
        (if gcGuardFails sampleAlignment 15 then some ("E1", 15) else none) :=
  ⟨by decide, by decide, by decide, by decide, by decide,
    (gc_second_occurrence_entry sampleEnv [geneG1, exonE1] 1 [blockInE1] sampleAlignment 10
      Strand.Unknown true false pendingEarlyState "E1" 15 (by decide) (by decide) (by decide)
      (by decide)).2.1⟩

/-! ## Theorems: `fragmentSizeMetrics` -/

theorem soleContainer_cases (env : Env) (window : List Feature) (block : Feature) :
    (∃ f, intersectBlock env.intersectInterval block window = [f] ∧
        fullyContains env f block = true ∧ soleContainer env window block = some f) ∨
    ((∀ f, intersectBlock env.intersectInterval block window = [f] →
        fullyContains env f block = false) ∧ soleContainer env window block = none) := by
  unfold soleContainer
  cases h : intersectBlock env.intersectInterval block window with
  | nil => right; simp
  | cons f rest =>
    cases rest with
    | nil =>
      by_cases hf : fullyContains env f block = true
      · left; exact ⟨f, rfl, hf, by simp [hf]⟩
      · right
        simp only [Bool.not_eq_true] at hf
        simp [hf]
    | cons g more => right; simp

/-- The first iteration of the block loop. -/
theorem sizeBlockStep_first (env : Env) (window : List Feature) (block : Feature) :
    sizeBlockStep env window { firstBlock := true, sameExon := true, exonName := "" } block =
      match soleContainer env window block with
      | some f => { firstBlock := false, sameExon := true, exonName := f.feature_id }
      | none => { firstBlock := false, sameExon := false, exonName := "" } := by
  unfold sizeBlockStep
  rcases soleContainer_cases env window block with ⟨f, h1, h2, h3⟩ | ⟨h1, h3⟩
  · rw [h3]; simp [h1, h2]
  · rw [h3]
    cases h : intersectBlock env.intersectInterval block window with
    | nil => simp
    | cons f rest =>
      cases rest with
      | nil => simp [h1 f h]
      | cons g more => simp

/-- A later iteration of the block loop. -/
theorem sizeBlockStep_later (env : Env) (window : List Feature) (block : Feature)
    (se : Bool) (x : String) :
    sizeBlockStep env window { firstBlock := false, sameExon := se, exonName := x } block =
      { firstBlock := false
        sameExon := se && decide ((soleContainer env window block).map (fun g => g.feature_id) =
          some x)
        exonName := x } := by
  unfold sizeBlockStep
  cases se with
  | false => simp
  | true =>
    rcases soleContainer_cases env window block with ⟨f, h1, h2, h3⟩ | ⟨h1, h3⟩
    · rw [h3]
      by_cases hx : x = f.feature_id
      · simp [h1, h2, hx]
      · have hx' : ¬ f.feature_id = x := fun h => hx h.symm
        simp [h1, h2, hx, hx']
    · rw [h3]
      cases h : intersectBlock env.intersectInterval block window with
      | nil => simp
      | cons f rest =>
        cases rest with
        | nil => simp [h1 f h]
        | cons g more => simp

theorem foldl_sizeBlockStep_later (env : Env) (window : List Feature) :
    ∀ (rest : List Feature) (se : Bool) (x : String),
      rest.foldl (sizeBlockStep env window) { firstBlock := false, sameExon := se, exonName := x } =
        { firstBlock := false
          sameExon := se && rest.all (fun b =>
            decide ((soleContainer env window b).map (fun g => g.feature_id) = some x))
          exonName := x } := by
  intro rest
  induction rest with
  | nil => intro se x; simp
  | cons b bs ih =>
    intro se x
    rw [List.foldl_cons, sizeBlockStep_later, ih]
    simp [Bool.and_assoc]

/-- The decision of the block loop is the specification's pairing exon. -/
theorem pairingExon_sizeScan (env : Env) (window : List Feature) (blocks : List Feature) :
    pairingExon (sizeScan env window blocks) = sizeExon env window blocks := by
  unfold sizeScan
  cases blocks with
  | nil => simp [pairingExon, sizeExon]
  | cons b rest =>
    rw [List.foldl_cons, sizeBlockStep_first]
    cases hs : soleContainer env window b with
    | none => simp [foldl_sizeBlockStep_later, pairingExon, sizeExon, hs]
    | some f =>
      simp only [foldl_sizeBlockStep_later, pairingExon, sizeExon, hs, Bool.true_and]
      by_cases hid : f.feature_id = ""
      · simp [hid]
      · by_cases hall : rest.all (fun b =>
            decide ((soleContainer env window b).map (fun g => g.feature_id) =
              some f.feature_id)) = true
        · simp [hid, hall]
        · simp [hid, hall]

theorem sizeRejects_eq_not_accepts (alignment : Alignment) (recordedEnd : Nat) :
    sizeRejects alignment recordedEnd = !sizeAccepts alignment recordedEnd := by
  unfold sizeRejects sizeAccepts
  cases alignment.mateReverseFlag <;> cases alignment.reverseFlag <;>
    by_cases h1 : alignment.positionEnd ≤ recordedEnd <;>
    by_cases h2 : (alignment.position : Int) = alignment.matePosition <;>
    simp [h1, h2, Nat.not_lt.mpr, Nat.lt_of_not_le]

/-- The state after `fragmentSizeMetrics`, by the specification's pairing exon
and acceptance test. -/
theorem fragmentSizeMetrics_eq (env : Env) (st : SizeState) (blocks : List Feature)
    (alignment : Alignment) :
    fragmentSizeMetrics env st blocks alignment =
      match sizeExon env (trimFeatures alignment st.bedFeatures st.fragmentTracker).1 blocks with
      | none =>
        { st with
          bedFeatures := (trimFeatures alignment st.bedFeatures st.fragmentTracker).1
          fragmentTracker := (trimFeatures alignment st.bedFeatures st.fragmentTracker).2 }
      | some exonName =>
        match st.fragments alignment.qname with
        | none =>
          { st with
            bedFeatures := (trimFeatures alignment st.bedFeatures st.fragmentTracker).1
            fragmentTracker := (trimFeatures alignment st.bedFeatures st.fragmentTracker).2
            fragments := Function.update st.fragments alignment.qname
              (some (exonName, alignment.positionEnd)) }
        | some entry =>
          if exonName = entry.1 ∧ sizeAccepts alignment entry.2 = true then
            { st with
              bedFeatures := (trimFeatures alignment st.bedFeatures st.fragmentTracker).1
              fragmentTracker := (trimFeatures alignment st.bedFeatures st.fragmentTracker).2
              fragmentSizes :=
                Function.update st.fragmentSizes (alignment.insertSize.natAbs : Int)
                  (st.fragmentSizes (alignment.insertSize.natAbs : Int) + 1)
              fragments := Function.update st.fragments alignment.qname none
              doFragmentSize := (st.doFragmentSize + uintMod - 1) % uintMod
              bedReleased := st.bedReleased ||
                decide ((st.doFragmentSize + uintMod - 1) % uintMod = 0) }
          else
            { st with
              bedFeatures := (trimFeatures alignment st.bedFeatures st.fragmentTracker).1
              fragmentTracker := (trimFeatures alignment st.bedFeatures st.fragmentTracker).2 } := by
  unfold fragmentSizeMetrics
  simp only [pairingExon_sizeScan]
  cases hx : sizeExon env (trimFeatures alignment st.bedFeatures st.fragmentTracker).1 blocks with
  | none => rfl
  | some exonName =>
    cases he : st.fragments alignment.qname with
    | none => simp [he]
    | some entry =>
      simp only [he, sizeRejects_eq_not_accepts]
      by_cases h1 : exonName = entry.1
      · cases h2 : sizeAccepts alignment entry.2 <;> simp [h1, h2]
      · simp [h1]

/-- C11. In `fragmentSizeMetrics`, for a qualifying read whose query name
already has a pending entry with the same exon id, the sample is accepted if
and only if the read is reverse, its mate is not, the read ends strictly after
the recorded end and the read's position differs from its mate's. On
acceptance the histogram count at `abs(insert size)` rises by exactly one (no
other count changes), the budget is decremented (by exactly one for a budget
still positive, the subtraction being that of an `unsigned int`) and the
pending entry is erased; otherwise the histogram, the budget and the
pair-state map are unchanged. The function is total: no error is raised. -/
theorem fragmentSizeMetrics_second_mate (env : Env) (st : SizeState) (blocks : List Feature)
    (alignment : Alignment) (exon : String) (recordedEnd : Nat)
    (hqual : sizeExon env (trimFeatures alignment st.bedFeatures st.fragmentTracker).1 blocks =
      some exon)
    (hentry : st.fragments alignment.qname = some (exon, recordedEnd)) :
    (∀ k : Int, (fragmentSizeMetrics env st blocks alignment).fragmentSizes k =
      st.fragmentSizes k +
        (if sizeAccepts alignment recordedEnd = true ∧ k = (alignment.insertSize.natAbs : Int)
          then 1 else 0)) ∧
    (fragmentSizeMetrics env st blocks alignment).doFragmentSize =
      (if sizeAccepts alignment recordedEnd then (st.doFragmentSize + uintMod - 1) % uintMod
        else st.doFragmentSize) ∧
    (0 < st.doFragmentSize ∧ st.doFragmentSize < uintMod →
      (fragmentSizeMetrics env st blocks alignment).doFragmentSize =
        (if sizeAccepts alignment recordedEnd then st.doFragmentSize - 1
          else st.doFragmentSize)) ∧
    (fragmentSizeMetrics env st blocks alignment).fragments =
      (if sizeAccepts alignment recordedEnd then Function.update st.fragments alignment.qname none
        else st.fragments) := by
  have h := fragmentSizeMetrics_eq env st blocks alignment
  rw [hqual] at h
  simp only [hentry, true_and] at h
  by_cases ha : sizeAccepts alignment recordedEnd = true
  · rw [if_pos ha] at h
    rw [h]
    refine ⟨?_, by simp [ha], ?_, by simp [ha]⟩
    · intro k
      by_cases hk : k = (alignment.insertSize.natAbs : Int)
      · subst hk; simp [ha]
      · rw [if_neg (fun h => hk h.2), Nat.add_zero]
        exact Function.update_noteq hk _ _
    · intro hb
      simp only [ha, if_true]
      unfold uintMod at *
      omega
  · rw [if_neg ha] at h
    rw [h]
    simp [ha]

/-- Witness for C11: the reverse second mate of the sample read, ending at 45
after the recorded end 21, with a budget of 5: the count at 150 rises to 1,
the budget falls to 4 and the entry is erased. -/
theorem fragmentSizeMetrics_second_mate_witness :
    sizeExon sampleEnv
      (trimFeatures mateAlignment pendingSizeState.bedFeatures
        pendingSizeState.fragmentTracker).1 [mateBlock] = some "E1" ∧
    pendingSizeState.fragments mateAlignment.qname = some ("E1", 21) ∧
    sizeAccepts mateAlignment 21 = true ∧
    (0 < pendingSizeState.doFragmentSize ∧ pendingSizeState.doFragmentSize < uintMod) ∧
    (fragmentSizeMetrics sampleEnv pendingSizeState [mateBlock] mateAlignment).fragmentSizes 150 =
      pendingSizeState.fragmentSizes 150 +
        (if sizeAccepts mateAlignment 21 = true ∧
          (150 : Int) = (mateAlignment.insertSize.natAbs : Int) then 1 else 0) ∧
    (fragmentSizeMetrics sampleEnv pendingSizeState [mateBlock] mateAlignment).doFragmentSize =
      (if sizeAccepts mateAlignment 21 then pendingSizeState.doFragmentSize - 1
        else pendingSizeState.doFragmentSize) :=
  have h := fragmentSizeMetrics_second_mate sampleEnv pendingSizeState [mateBlock]
    mateAlignment "E1" 21 (by decide) (by decide)
  ⟨by decide, by decide, by decide, by decide, h.1 150, h.2.2.1 (by decide)⟩

/-- Counterexample to C20 as stated. First, the block 20..30 intersects two
window features, exon `E1` that fully contains it and exon `E3` that overlaps
it partially: exactly one intersecting feature fully contains the block, yet
the read does not qualify and no pending entry is created, because the code
requires the block to intersect one feature in all. Second, a block fully
contained in the only intersecting feature does not qualify either when that
feature's id is the empty string. -/
theorem fragmentSizeMetrics_partial_overlap_disqualifies :
    sizeExonIgnoringPartial sampleEnv
      (trimFeatures sampleAlignment [exonE1, exonE3] (fun _ => none)).1 [blockInE1] =
        some "E1" ∧
    pairingExon (sizeScan sampleEnv
      (trimFeatures sampleAlignment [exonE1, exonE3] (fun _ => none)).1 [blockInE1]) = none ∧
    (fragmentSizeMetrics sampleEnv { emptySizeState with bedFeatures := [exonE1, exonE3] }
      [blockInE1] sampleAlignment).fragments sampleAlignment.qname = none ∧
    sizeExonIgnoringPartial sampleEnv
      (trimFeatures sampleAlignment [unnamedExon] (fun _ => none)).1 [blockInE1] = some "" ∧
    pairingExon (sizeScan sampleEnv
      (trimFeatures sampleAlignment [unnamedExon] (fun _ => none)).1 [blockInE1]) = none ∧
    (fragmentSizeMetrics sampleEnv { emptySizeState with bedFeatures := [unnamedExon] }
      [blockInE1] sampleAlignment).fragments sampleAlignment.qname = none := by
  refine ⟨by decide, by decide, by decide, by decide, by decide, by decide⟩

/-- C20, amended. In `fragmentSizeMetrics`, a read qualifies for pair sampling
if and only if it has at least one block, every block intersects exactly one
feature of the trimmed window (partial overlaps included in the count), that
feature fully contains the block, and it has the same non-empty feature id for
every block. A qualifying read whose query name has no pending entry creates
one, with that exon and the read's end; a non-qualifying read leaves the
pair-state map, the size histogram and the budget unchanged. -/
theorem fragmentSizeMetrics_qualifies_iff (env : Env) (st : SizeState)
    (blocks : List Feature) (alignment : Alignment) :
    pairingExon
        (sizeScan env (trimFeatures alignment st.bedFeatures st.fragmentTracker).1 blocks) =
      sizeExon env (trimFeatures alignment st.bedFeatures st.fragmentTracker).1 blocks ∧
    (∀ exon,
      sizeExon env (trimFeatures alignment st.bedFeatures st.fragmentTracker).1 blocks =
        some exon →
      st.fragments alignment.qname = none →
      (fragmentSizeMetrics env st blocks alignment).fragments alignment.qname =
        some (exon, alignment.positionEnd)) ∧
    (sizeExon env (trimFeatures alignment st.bedFeatures st.fragmentTracker).1 blocks = none →
      (fragmentSizeMetrics env st blocks alignment).fragments = st.fragments ∧
      (fragmentSizeMetrics env st blocks alignment).fragmentSizes = st.fragmentSizes ∧
      (fragmentSizeMetrics env st blocks alignment).doFragmentSize = st.doFragmentSize) := by
  have h := fragmentSizeMetrics_eq env st blocks alignment
  refine ⟨pairingExon_sizeScan _ _ _, ?_, ?_⟩
  · intro exon hq hnone
    rw [hq] at h
    simp only [hnone] at h
    rw [h]
    simp
  · intro hq
    rw [hq] at h
    rw [h]
    exact ⟨rfl, rfl, rfl⟩

/-- Witness for the amended C20: the sample read with one block inside exon
`E1`, the only feature of the window, and no pending entry. -/
theorem fragmentSizeMetrics_qualifies_iff_witness :
    sizeExon sampleEnv
      (trimFeatures sampleAlignment emptySizeState.bedFeatures
        emptySizeState.fragmentTracker).1 [blockInE1] = some "E1" ∧
    emptySizeState.fragments sampleAlignment.qname = none ∧
    (fragmentSizeMetrics sampleEnv emptySizeState [blockInE1] sampleAlignment).fragments
      sampleAlignment.qname = some ("E1", sampleAlignment.positionEnd) :=
  ⟨by decide, by decide,
    (fragmentSizeMetrics_qualifies_iff sampleEnv emptySizeState [blockInE1]
      sampleAlignment).2.1 "E1" (by decide) (by decide)⟩

/-! ## Theorems: trimming and the early exit against a full scan -/

/-- Dropping a leading run of features that all end before the block starts
(and start no later than they end) does not change what `intersectBlock`
returns. -/
theorem intersectBlock_dropWhile (intersectInterval : Feature → Feature → Bool)
    (block : Feature) (p : Nat) (hb1 : p + 1 ≤ block.start) (hb2 : block.start ≤ block.end_)
    (hov : ∀ f : Feature, f.end_ < block.start → intersectInterval block f = false) :
    ∀ (features : List Feature), (∀ f ∈ features, f.start ≤ f.end_) →
      intersectBlock intersectInterval block
          (features.dropWhile (fun f => decide (f.end_ < p))) =
        intersectBlock intersectInterval block features := by
  intro features
  induction features with
  | nil => intro _; rfl
  | cons f rest ih =>
    intro hw
    by_cases h : f.end_ < p
    · have hfs : f.start ≤ f.end_ := hw f (by simp)
      have h1 : f.start ≤ block.end_ := by omega
      have h2 : intersectInterval block f = false := hov f (by omega)
      rw [List.dropWhile_cons_of_pos (by simpa using h), ih (fun g hg => hw g (by simp [hg]))]
      simp [intersectBlock, h1, h2]
    · rw [List.dropWhile_cons_of_neg (by simpa using h)]

/-- C26. Trimming never evicts a feature a block of the current read could
match: for a window whose features all have `start <= end`, an alignment at
0-based position `p`, a block with `p + 1 <= block.start <= block.end` and an
overlap test that is false whenever `feature.end < block.start`,
`intersectBlock` returns on the window trimmed at `p` (by either overload)
what it returns on the original window. -/
theorem intersectBlock_after_trim (intersectInterval : Feature → Feature → Bool)
    (alignment : Alignment) (block : Feature) (features : List Feature)
    (coverage : BaseCoverage) (ft : FragmentTracker)
    (hw : ∀ f ∈ features, f.start ≤ f.end_)
    (hb1 : alignment.position + 1 ≤ block.start) (hb2 : block.start ≤ block.end_)
    (hov : ∀ f : Feature, f.end_ < block.start → intersectInterval block f = false) :
    intersectBlock intersectInterval block (trimFeatures alignment features ft).1 =
      intersectBlock intersectInterval block features ∧
    intersectBlock intersectInterval block
        (trimFeaturesCoverage alignment features coverage ft).1 =
      intersectBlock intersectInterval block features := by
  rw [trimFeatures_window, (trimFeaturesCoverage_spec alignment features coverage ft).1]
  have h := intersectBlock_dropWhile intersectInterval block alignment.position hb1 hb2 hov
    features hw
  exact ⟨h, h⟩

/-- Witness for C26: the sorted window trimmed at position 100, against the
block 101..110 and the closed-interval overlap test. -/
theorem intersectBlock_after_trim_witness :
    (∀ f ∈ sortedWindow, f.start ≤ f.end_) ∧
    staleAlignment.position + 1 ≤ lateBlock.start ∧ lateBlock.start ≤ lateBlock.end_ ∧
    (trimFeatures staleAlignment sortedWindow (fun _ => none)).1 ≠ sortedWindow ∧
    intersectBlock sampleEnv.intersectInterval lateBlock
        (trimFeatures staleAlignment sortedWindow (fun _ => none)).1 =
      intersectBlock sampleEnv.intersectInterval lateBlock sortedWindow :=
  ⟨by decide, by decide, by decide, by decide,
    (intersectBlock_after_trim sampleEnv.intersectInterval staleAlignment lateBlock
      sortedWindow [] (fun _ => none) (by decide) (by decide) (by decide)
      (by
        intro f hf
        simp only [sampleEnv, decide_eq_false_iff_not, not_and, not_le]
        intro h
        omega)).1⟩

/-- C27. The early exit of `intersectBlock` loses no match on a sorted window:
for a window ascending by start, any block and an overlap test that holds only
when `feature.start <= block.end`, `intersectBlock` returns the whole window
filtered by the overlap test. -/
theorem intersectBlock_eq_filter_of_sorted (intersectInterval : Feature → Feature → Bool)
    (block : Feature) (features : List Feature)
    (hs : List.Pairwise (fun f g : Feature => f.start ≤ g.start) features)
    (hov : ∀ f : Feature, intersectInterval block f = true → f.start ≤ block.end_) :
    intersectBlock intersectInterval block features =
      features.filter (fun f => intersectInterval block f) := by
  induction features with
  | nil => rfl
  | cons f rest ih =>
    have hrest := List.Pairwise.of_cons hs
    by_cases h : f.start ≤ block.end_
    · by_cases hi : intersectInterval block f = true
      · simp [intersectBlock, h, hi, ih hrest, List.filter_cons]
      · simp [intersectBlock, h, hi, ih hrest, List.filter_cons]
    · have hf : intersectInterval block f = false := by
        cases hx : intersectInterval block f with
        | false => rfl
        | true => exact absurd (hov f hx) h
      have hnone : rest.filter (fun g => intersectInterval block g) = [] := by
        rw [List.filter_eq_nil_iff]
        intro g hg hgi
        have h1 : f.start ≤ g.start := List.rel_of_pairwise_cons hs hg
        have h2 := hov g hgi
        omega
      simp [intersectBlock, h, hf, hnone, List.filter_cons]

/-- Witness for C27: the sorted window, the block 20..30 and the
closed-interval overlap test. -/
theorem intersectBlock_eq_filter_of_sorted_witness :
    List.Pairwise (fun f g : Feature => f.start ≤ g.start) sortedWindow ∧
    intersectBlock sampleEnv.intersectInterval blockInE1 sortedWindow =
      sortedWindow.filter (fun f => sampleEnv.intersectInterval blockInE1 f) :=
  ⟨by decide,
    intersectBlock_eq_filter_of_sorted sampleEnv.intersectInterval blockInE1 sortedWindow
      (by decide)
      (by
        intro f hf
        simp only [sampleEnv, decide_eq_true_eq] at hf
        exact hf.2)⟩

/-! ## Theorems: the split flag of the legacy engine -/

theorem toInt64_of_lt (x : Nat) (h : x < 2 ^ 63) : toInt64 x = (x : Int) := by
  unfold toInt64 coordMod
  have h1 : x % 2 ^ 64 = x := Nat.mod_eq_of_lt (by omega)
  rw [h1, if_pos h]

/-- One step of the split loop after a block that ends in the positive range:
the subtraction and the threshold do not wrap for a threshold of at least 1. -/
theorem splitStep_after (T : Nat) (hT1 : 1 ≤ T) (hT2 : T < uintMod) (sp : Bool)
    (previous block : Feature) (hp1 : 0 < previous.end_) (hp2 : previous.end_ < 2 ^ 63)
    (hb : block.start < coordMod) (hord : previous.end_ ≤ block.start) :
    (splitStep T { split := sp, lastEnd := toInt64 previous.end_ } block).split =
      (sp || decide ((T : Int) ≤ (block.start : Int) - (previous.end_ : Int))) := by
  have hl : toInt64 previous.end_ = (previous.end_ : Int) := toInt64_of_lt _ hp2
  have hc : toCoord (previous.end_ : Int) = previous.end_ :=
    toCoord_natCast _ (by unfold coordMod; omega)
  have hsub : csub block.start previous.end_ = block.start - previous.end_ := by
    unfold csub coordMod at *
    omega
  have hthr : (T + uintMod - 1) % uintMod = T - 1 := by
    unfold uintMod at *
    omega
  unfold splitStep
  simp only [hl, hc, hsub, hthr]
  have hpos : ((previous.end_ : Int) > 0) := by exact_mod_cast hp1
  cases sp with
  | true => simp
  | false =>
    simp only [hpos, decide_True, Bool.not_false, Bool.and_self, if_true, Bool.false_or]
    rw [decide_eq_decide]
    constructor
    · intro h; omega
    · intro h; omega

theorem foldl_splitStep_after (T : Nat) (hT1 : 1 ≤ T) (hT2 : T < uintMod) :
    ∀ (blocks : List Feature) (previous : Feature) (sp : Bool),
      blocksInOrder (previous :: blocks) = true →
      (blocks.foldl (splitStep T) { split := sp, lastEnd := toInt64 previous.end_ }).split =
        (sp || hasSpliceGap T (previous :: blocks)) := by
  intro blocks
  induction blocks with
  | nil => intro previous sp _; simp [hasSpliceGap]
  | cons b rest ih =>
    intro previous sp hord
    simp only [blocksInOrder, Bool.and_eq_true, decide_eq_true_eq] at hord
    obtain ⟨⟨hp1, hp2, _, hle⟩, hrest⟩ := hord
    have hb : b.start < coordMod := by
      cases rest with
      | nil =>
        simp only [blocksInOrder, decide_eq_true_eq] at hrest
        exact hrest.2.2
      | cons c more =>
        simp only [blocksInOrder, Bool.and_eq_true, decide_eq_true_eq] at hrest
        exact hrest.1.2.2.1
    have hstep := splitStep_after T hT1 hT2 sp previous b hp1 hp2 hb hle
    rw [List.foldl_cons]
    have hstate : splitStep T { split := sp, lastEnd := toInt64 previous.end_ } b =
        { split := (sp || decide ((T : Int) ≤ (b.start : Int) - (previous.end_ : Int))),
          lastEnd := toInt64 b.end_ } := by
      rw [← hstep]
      rfl
    rw [hstate, ih b _ hrest]
    simp [hasSpliceGap, Bool.or_assoc]

/-- Away from the threshold 0 the split flag is what the specification says:
for a threshold `1 <= T < 2^32` and blocks in order, `split` is true exactly
when two successive blocks are at least `T` apart. -/
theorem legacySplit_eq_hasSpliceGap (T : Nat) (hT1 : 1 ≤ T) (hT2 : T < uintMod)
    (blocks : List Feature) (hord : blocksInOrder blocks = true) :
    legacySplit T blocks = hasSpliceGap T blocks := by
  unfold legacySplit
  cases blocks with
  | nil => rfl
  | cons b rest =>
    rw [List.foldl_cons]
    have h0 : splitStep T { split := false, lastEnd := -1 } b =
        { split := false, lastEnd := toInt64 b.end_ } := by
      simp [splitStep]
    rw [h0, foldl_splitStep_after T hT1 hT2 rest b false hord]
    simp

/-- C21: the code at the failing input. The sample read, CIGAR `5M3N2S4X` at
position 9, has the blocks 10..15 and 18..22, three bases apart. With the
splice-distance threshold 0 the gap 3 is at least the threshold, so the read
is split by the specification, but the code computes `split = false`:
`SPLIT_DISTANCE - 1` wraps to 4294967295 in `unsigned int` and `3 > 4294967295`
is false. With any threshold from 1 to 3 the code does set the flag. -/
theorem legacySplit_threshold_zero :
    (extractBlocks sampleAlignment [] 1 false).toOption = some (9, splicedBlocks) ∧
    blocksInOrder splicedBlocks = true ∧
    hasSpliceGap 0 splicedBlocks = true ∧
    legacySplit 0 splicedBlocks = false ∧
    (0 + uintMod - 1) % uintMod = 4294967295 ∧
    legacySplit 1 splicedBlocks = true ∧
    legacySplit 3 splicedBlocks = true ∧
    legacySplit 4 splicedBlocks = false := by
  refine ⟨by decide, by decide, by decide, by decide, by decide, by decide, by decide,
    by decide⟩

/-! ## Theorems: fragment de-duplication in `exonAlignmentMetrics` -/

/-- A step of the gene loop for another gene leaves the entries of `g`. -/
theorem geneStep_other (highQuality : Bool) (alignment : Alignment) (collector : Collector)
    (st : State) (x g : String) (hx : g ≠ x) :
    (geneStep highQuality alignment collector st x).geneCounts g = st.geneCounts g ∧
    (geneStep highQuality alignment collector st x).geneFragmentCounts g =
      st.geneFragmentCounts g ∧
    (geneStep highQuality alignment collector st x).uniqueGeneCounts g =
      st.uniqueGeneCounts g ∧
    (geneStep highQuality alignment collector st x).fragmentTracker g =
      st.fragmentTracker g := by
  unfold geneStep
  by_cases hq : highQuality = true
  · by_cases hc : collector.queryGene x = true
    · by_cases ht : alignment.qname ∈ (st.fragmentTracker x).getD []
      · by_cases hd : alignment.duplicateFlag = true
        · simp [hq, hc, ht, hd, Function.update_noteq hx]
        · simp [hq, hc, ht, hd, Function.update_noteq hx]
      · by_cases hd : alignment.duplicateFlag = true
        · simp [hq, hc, ht, hd, Function.update_noteq hx]
        · simp [hq, hc, ht, hd, Function.update_noteq hx]
    · simp [hq, hc]
  · simp [hq]

/-- The step of the gene loop for `g` itself, for a high-quality read with
dosage staged for `g`. -/
theorem geneStep_self (alignment : Alignment) (collector : Collector) (st : State)
    (g : String) (hq : collector.queryGene g = true) :
    (geneStep true alignment collector st g).geneCounts g = st.geneCounts g + 1 ∧
    (geneStep true alignment collector st g).geneFragmentCounts g =
      st.geneFragmentCounts g +
        (if alignment.qname ∈ (st.fragmentTracker g).getD [] then 0 else 1) ∧
    (geneStep true alignment collector st g).uniqueGeneCounts g =
      st.uniqueGeneCounts g + (if alignment.duplicateFlag then 0 else 1) ∧
    (geneStep true alignment collector st g).fragmentTracker g =
      some (if alignment.qname ∈ (st.fragmentTracker g).getD [] then
          (st.fragmentTracker g).getD []
        else (st.fragmentTracker g).getD [] ++ [alignment.qname]) := by
  unfold geneStep
  simp only [hq, if_true]
  refine ⟨by simp, ?_, ?_, by simp⟩
  · split_ifs <;> simp
  · split_ifs <;> simp

theorem foldl_geneStep_not_mem (highQuality : Bool) (alignment : Alignment)
    (collector : Collector) (g : String) :
    ∀ (genes : List String) (st : State), g ∉ genes →
      (genes.foldl (geneStep highQuality alignment collector) st).geneCounts g =
        st.geneCounts g ∧
      (genes.foldl (geneStep highQuality alignment collector) st).geneFragmentCounts g =
        st.geneFragmentCounts g ∧
      (genes.foldl (geneStep highQuality alignment collector) st).uniqueGeneCounts g =
        st.uniqueGeneCounts g ∧
      (genes.foldl (geneStep highQuality alignment collector) st).fragmentTracker g =
        st.fragmentTracker g := by
  intro genes
  induction genes with
  | nil => intro st _; exact ⟨rfl, rfl, rfl, rfl⟩
  | cons x rest ih =>
    intro st hmem
    simp only [List.mem_cons, not_or] at hmem
    obtain ⟨h1, h2, h3, h4⟩ := ih (geneStep highQuality alignment collector st x) hmem.2
    obtain ⟨k1, k2, k3, k4⟩ := geneStep_other highQuality alignment collector st x g hmem.1
    rw [List.foldl_cons]
    exact ⟨h1.trans k1, h2.trans k2, h3.trans k3, h4.trans k4⟩

/-- The entries of a gene that occurs once in the list the gene loop runs
over are those after its own step. -/
theorem foldl_geneStep_mem (alignment : Alignment) (collector : Collector) (g : String)
    (hq : collector.queryGene g = true) :
    ∀ (genes : List String) (st : State), genes.Nodup → g ∈ genes →
      (genes.foldl (geneStep true alignment collector) st).geneCounts g =
        st.geneCounts g + 1 ∧
      (genes.foldl (geneStep true alignment collector) st).geneFragmentCounts g =
        st.geneFragmentCounts g +
          (if alignment.qname ∈ (st.fragmentTracker g).getD [] then 0 else 1) ∧
      (genes.foldl (geneStep true alignment collector) st).uniqueGeneCounts g =
        st.uniqueGeneCounts g + (if alignment.duplicateFlag then 0 else 1) ∧
      (genes.foldl (geneStep true alignment collector) st).fragmentTracker g =
        some (if alignment.qname ∈ (st.fragmentTracker g).getD [] then
            (st.fragmentTracker g).getD []
          else (st.fragmentTracker g).getD [] ++ [alignment.qname]) := by
  intro genes
  induction genes with
  | nil => intro st _ hmem; cases hmem
  | cons x rest ih =>
    intro st hnd hmem
    rw [List.nodup_cons] at hnd
    rw [List.foldl_cons]
    by_cases hx : g = x
    · subst hx
      obtain ⟨h1, h2, h3, h4⟩ := foldl_geneStep_not_mem true alignment collector g rest
        (geneStep true alignment collector st g) hnd.1
      obtain ⟨k1, k2, k3, k4⟩ := geneStep_self alignment collector st g hq
      exact ⟨h1.trans k1, h2.trans k2, h3.trans k3, h4.trans k4⟩
    · have hrest : g ∈ rest := by
        rcases List.mem_cons.mp hmem with h | h
        · exact absurd h hx
        · exact h
      obtain ⟨h1, h2, h3, h4⟩ := ih (geneStep true alignment collector st x) hnd.2 hrest
      obtain ⟨k1, k2, k3, k4⟩ := geneStep_other true alignment collector st x g hx
      rw [h1, h2, h3, h4, k1, k2, k3, k4]
      exact ⟨rfl, rfl, rfl, rfl⟩

theorem nodup_foldl_setInsert :
    ∀ (l cur : List String), cur.Nodup → (l.foldl setInsert cur).Nodup := by
  intro l
  induction l with
  | nil => intro cur h; exact h
  | cons x rest ih =>
    intro cur h
    rw [List.foldl_cons]
    apply ih
    unfold setInsert
    by_cases hx : x ∈ cur
    · simp [hx, h]
    · simp only [hx, if_false]
      rw [List.nodup_append]
      refine ⟨h, List.nodup_singleton x, ?_⟩
      intro a ha hb
      rw [List.mem_singleton] at hb
      exact hx (hb ▸ ha)

theorem nodup_foldl_setInter :
    ∀ (rest : List (List String)) (first : List String), first.Nodup →
      (rest.foldl setInter first).Nodup := by
  intro rest
  induction rest with
  | nil => intro first h; exact h
  | cons c cs ih =>
    intro first h
    rw [List.foldl_cons]
    exact ih _ (h.filter _)

/-- The set `last` of the engine holds no gene twice. -/
theorem nodup_intersectGenes_scan (env : Env) (rs : Strand) (length : Nat)
    (window : List Feature) (blocks : List Feature) (coverage : BaseCoverage) :
    (intersectGenes (scanBlocks env rs length window blocks coverage).genes).Nodup := by
  rw [(scanBlocks_fields env rs length window blocks coverage).1]
  cases blocks with
  | nil => simp [intersectGenes]
  | cons b rest =>
    simp only [List.map_cons, intersectGenes]
    exact nodup_foldl_setInter _ _ (nodup_foldl_setInsert _ _ List.nodup_nil)

/-- Dosage is staged for every unambiguous gene. -/
theorem queryGene_of_sharedGenes (env : Env) (rs : Strand) (length : Nat)
    (window : List Feature) (blocks : List Feature) (coverage : BaseCoverage) (g : String)
    (hg : g ∈ sharedGenes env rs window blocks) :
    (scanBlocks env rs length window blocks coverage).collector.queryGene g = true := by
  unfold Collector.queryGene
  rw [(scanBlocks_fields env rs length window blocks coverage).2.2.2]
  cases blocks with
  | nil => simp [sharedGenes] at hg
  | cons b rest =>
    simp only [sharedGenes, List.mem_filter] at hg
    have hc := hg.1
    simp only [candidateGenes, List.mem_map] at hc
    obtain ⟨f, hf, hfg⟩ := hc
    rw [List.any_eq_true]
    refine ⟨(f.gene_id, f.feature_id, dblDiv (env.partialIntersect f b) length), ?_, by simp [hfg]⟩
    simp only [List.map_cons, List.flatten_cons, List.mem_append, List.mem_map]
    exact Or.inl ⟨f, hf, rfl⟩

/-- The entries of an unambiguous gene after `exonAlignmentMetrics` on a
high-quality read. -/
theorem exonAlignmentMetrics_gene_entries (env : Env) (window : List Feature) (chr : Nat)
    (blocks : List Feature) (alignment : Alignment) (length : Nat) (orientation : Strand)
    (singleEnd : Bool) (st : State) (g : String)
    (hg : g ∈ sharedGenes env (feature_strand alignment orientation) window blocks) :
    (exonAlignmentMetrics env window chr blocks alignment length orientation true
        singleEnd st).2.geneCounts g = st.geneCounts g + 1 ∧
    (exonAlignmentMetrics env window chr blocks alignment length orientation true
        singleEnd st).2.geneFragmentCounts g =
      st.geneFragmentCounts g +
        (if alignment.qname ∈ (st.fragmentTracker g).getD [] then 0 else 1) ∧
    (exonAlignmentMetrics env window chr blocks alignment length orientation true
        singleEnd st).2.uniqueGeneCounts g =
      st.uniqueGeneCounts g + (if alignment.duplicateFlag then 0 else 1) ∧
    (exonAlignmentMetrics env window chr blocks alignment length orientation true
        singleEnd st).2.fragmentTracker g =
      some (if alignment.qname ∈ (st.fragmentTracker g).getD [] then
          (st.fragmentTracker g).getD []
        else (st.fragmentTracker g).getD [] ++ [alignment.qname]) := by
  obtain ⟨c, cov, fr, hst⟩ := exonAlignmentMetrics_credit env window chr blocks alignment
    length orientation true singleEnd st
  have hq := queryGene_of_sharedGenes env (feature_strand alignment orientation) length window
    blocks st.baseCoverage g hg
  have hnd := nodup_intersectGenes_scan env (feature_strand alignment orientation) length
    window blocks st.baseCoverage
  have hmem := (mem_intersectGenes_scan env (feature_strand alignment orientation) length
    window blocks st.baseCoverage g).mpr hg
  obtain ⟨h1, h2, h3, h4⟩ := foldl_geneStep_mem alignment _ g hq _
    { st with baseCoverage :=
        (scanBlocks env (feature_strand alignment orientation) length window blocks
          st.baseCoverage).coverage } hnd hmem
  rw [hst]
  exact ⟨h1, h2, h3, h4⟩

/-- C23. In the current engine, for a high-quality read unambiguously assigned
to gene `g`, `geneFragmentCounts[g]` rises (by one) if and only if the read's
query name is not yet in `fragmentTracker[g]`, and the name is in
`fragmentTracker[g]` afterwards. Hence for two such alignments with the same
query name, the second processed in a state that still has the entries of `g`
the first one left (`g` not evicted in between), `geneCounts[g]` rises by 2,
`geneFragmentCounts[g]` by exactly 1 when the name was not tracked before (by 0
when it already was), and `uniqueGeneCounts[g]` once per alignment whose
duplicate flag is clear. -/
theorem exonAlignmentMetrics_fragment_dedup (env : Env) (g : String) (st mid : State)
    (window1 : List Feature) (chr1 : Nat) (blocks1 : List Feature) (alignment1 : Alignment)
    (length1 : Nat) (orientation1 : Strand) (singleEnd1 : Bool)
    (window2 : List Feature) (chr2 : Nat) (blocks2 : List Feature) (alignment2 : Alignment)
    (length2 : Nat) (orientation2 : Strand) (singleEnd2 : Bool)
    (hg1 : g ∈ sharedGenes env (feature_strand alignment1 orientation1) window1 blocks1)
    (hg2 : g ∈ sharedGenes env (feature_strand alignment2 orientation2) window2 blocks2)
    (hname : alignment2.qname = alignment1.qname)
    (hmid : mid.fragmentTracker g =
        (exonAlignmentMetrics env window1 chr1 blocks1 alignment1 length1 orientation1 true
          singleEnd1 st).2.fragmentTracker g ∧
      mid.geneCounts g =
        (exonAlignmentMetrics env window1 chr1 blocks1 alignment1 length1 orientation1 true
          singleEnd1 st).2.geneCounts g ∧
      mid.geneFragmentCounts g =
        (exonAlignmentMetrics env window1 chr1 blocks1 alignment1 length1 orientation1 true
          singleEnd1 st).2.geneFragmentCounts g ∧
      mid.uniqueGeneCounts g =
        (exonAlignmentMetrics env window1 chr1 blocks1 alignment1 length1 orientation1 true
          singleEnd1 st).2.uniqueGeneCounts g) :
    (exonAlignmentMetrics env window1 chr1 blocks1 alignment1 length1 orientation1 true
        singleEnd1 st).2.geneFragmentCounts g =
      st.geneFragmentCounts g +
        (if alignment1.qname ∈ (st.fragmentTracker g).getD [] then 0 else 1) ∧
    alignment1.qname ∈
      ((exonAlignmentMetrics env window1 chr1 blocks1 alignment1 length1 orientation1 true
        singleEnd1 st).2.fragmentTracker g).getD [] ∧
    (exonAlignmentMetrics env window2 chr2 blocks2 alignment2 length2 orientation2 true
        singleEnd2 mid).2.geneCounts g = st.geneCounts g + 2 ∧
    (exonAlignmentMetrics env window2 chr2 blocks2 alignment2 length2 orientation2 true
        singleEnd2 mid).2.geneFragmentCounts g =
      st.geneFragmentCounts g +
        (if alignment1.qname ∈ (st.fragmentTracker g).getD [] then 0 else 1) ∧
    (exonAlignmentMetrics env window2 chr2 blocks2 alignment2 length2 orientation2 true
        singleEnd2 mid).2.uniqueGeneCounts g =
      st.uniqueGeneCounts g + (if alignment1.duplicateFlag then 0 else 1) +
        (if alignment2.duplicateFlag then 0 else 1) := by
  obtain ⟨a1, a2, a3, a4⟩ := exonAlignmentMetrics_gene_entries env window1 chr1 blocks1
    alignment1 length1 orientation1 singleEnd1 st g hg1
  obtain ⟨b1, b2, b3, b4⟩ := exonAlignmentMetrics_gene_entries env window2 chr2 blocks2
    alignment2 length2 orientation2 singleEnd2 mid g hg2
  obtain ⟨m1, m2, m3, m4⟩ := hmid
  have htracked : alignment1.qname ∈
      ((exonAlignmentMetrics env window1 chr1 blocks1 alignment1 length1 orientation1 true
        singleEnd1 st).2.fragmentTracker g).getD [] := by
    rw [a4]
    by_cases h : alignment1.qname ∈ (st.fragmentTracker g).getD []
    · simp [h]
    · simp [h]
  have hmidtracked : alignment2.qname ∈ (mid.fragmentTracker g).getD [] := by
    rw [hname, m1]; exact htracked
  refine ⟨a2, htracked, ?_, ?_, ?_⟩
  · rw [b1, m2, a1]
  · rw [b2, m3, a2, if_pos hmidtracked, Nat.add_zero]
  · rw [b3, m4, a3]

/-- Witness for C23: the sample read processed twice in a row, its block
inside exon `E1` of gene `G1`. -/
theorem exonAlignmentMetrics_fragment_dedup_witness :
    "G1" ∈ sharedGenes sampleEnv (feature_strand sampleAlignment Strand.Unknown)
      [geneG1, exonE1] [blockInE1] ∧
    (exonAlignmentMetrics sampleEnv [geneG1, exonE1] 1 [blockInE1] sampleAlignment 10
      Strand.Unknown true false
      (exonAlignmentMetrics sampleEnv [geneG1, exonE1] 1 [blockInE1] sampleAlignment 10
        Strand.Unknown true false emptyState).2).2.geneCounts "G1" =
      emptyState.geneCounts "G1" + 2 ∧
    (exonAlignmentMetrics sampleEnv [geneG1, exonE1] 1 [blockInE1] sampleAlignment 10
      Strand.Unknown true false
      (exonAlignmentMetrics sampleEnv [geneG1, exonE1] 1 [blockInE1] sampleAlignment 10
        Strand.Unknown true false emptyState).2).2.geneFragmentCounts "G1" =
      emptyState.geneFragmentCounts "G1" +
        (if sampleAlignment.qname ∈ (emptyState.fragmentTracker "G1").getD [] then 0 else 1) :=
  have h := exonAlignmentMetrics_fragment_dedup sampleEnv "G1" emptyState
    (exonAlignmentMetrics sampleEnv [geneG1, exonE1] 1 [blockInE1] sampleAlignment 10
      Strand.Unknown true false emptyState).2
    [geneG1, exonE1] 1 [blockInE1] sampleAlignment 10 Strand.Unknown false
    [geneG1, exonE1] 1 [blockInE1] sampleAlignment 10 Strand.Unknown false
    (by decide) (by decide) rfl ⟨rfl, rfl, rfl, rfl⟩
  ⟨by decide, h.2.2.1, h.2.2.2.1⟩

/-! ## Theorems: the loops of the legacy engine -/

/-- What one step of the innermost loop leaves alone, and what it does to
`ribosomal`. -/
theorem exonStep_fields (env : Env) (result block : Feature) (v : LegacyVars) (ex : Feature) :
    (exonStep env result block v ex).intragenic = v.intragenic ∧
    (exonStep env result block v ex).transcriptPlus = v.transcriptPlus ∧
    (exonStep env result block v ex).transcriptMinus = v.transcriptMinus ∧
    (exonStep env result block v ex).exonic = v.exonic ∧
    (exonStep env result block v ex).st.counter = v.st.counter ∧
    (exonStep env result block v ex).ribosomal =
      (v.ribosomal || (!v.firstexon && (exonOfGeneHits env result block ex &&
        result.ribosomal))) ∧
    (exonStep env result block v ex).firstexon =
      (v.firstexon || (exonOfGeneHits env result block ex && fullyContains env ex block)) := by
  unfold exonStep exonOfGeneHits
  by_cases hf : v.firstexon = true
  · simp [hf]
  · simp only [Bool.not_eq_true] at hf
    by_cases hm : ex.type = FeatureType.Exon ∧ ex.gene_id = result.gene_id ∧
        env.intersectInterval ex block = true
    · obtain ⟨h1, h2, h3⟩ := hm
      simp only [hf, h1, h2, h3, and_self, if_true, Bool.false_eq_true, if_false]
      by_cases hc : fullyContains env ex block = true
      · cases hr : result.ribosomal <;> simp [hc, hf]
      · by_cases hp : env.partialIntersect ex block > 0
        · cases hr : result.ribosomal <;> simp [hc, hp, hf]
        · cases hr : result.ribosomal <;> simp [hc, hp, hf]
    · have hm' : (decide (ex.type = FeatureType.Exon) && decide (ex.gene_id = result.gene_id) &&
          env.intersectInterval ex block) = false := by
        by_contra hne
        simp only [Bool.not_eq_false, Bool.and_eq_true, decide_eq_true_eq] at hne
        exact hm ⟨hne.1.1, hne.1.2, hne.2⟩
      simp [hf, hm, hm']

theorem foldl_exonStep_fields (env : Env) (result block : Feature) :
    ∀ (exs : List Feature) (v : LegacyVars),
      (exs.foldl (exonStep env result block) v).intragenic = v.intragenic ∧
      (exs.foldl (exonStep env result block) v).transcriptPlus = v.transcriptPlus ∧
      (exs.foldl (exonStep env result block) v).transcriptMinus = v.transcriptMinus ∧
      (exs.foldl (exonStep env result block) v).exonic = v.exonic ∧
      (exs.foldl (exonStep env result block) v).st.counter = v.st.counter ∧
      (exs.foldl (exonStep env result block) v).ribosomal =
        (v.ribosomal || (!v.firstexon && (exs.any (exonOfGeneHits env result block) &&
          result.ribosomal))) := by
  intro exs
  induction exs with
  | nil => intro v; simp
  | cons ex rest ih =>
    intro v
    obtain ⟨h1, h2, h3, h4, h5, h6, h7⟩ := exonStep_fields env result block v ex
    obtain ⟨i1, i2, i3, i4, i5, i6⟩ := ih (exonStep env result block v ex)
    rw [List.foldl_cons]
    refine ⟨i1.trans h1, i2.trans h2, i3.trans h3, i4.trans h4, i5.trans h5, ?_⟩
    rw [i6, h6, h7, List.any_cons]
    cases v.firstexon <;> cases v.ribosomal <;> cases exonOfGeneHits env result block ex <;>
      cases result.ribosomal <;> cases fullyContains env ex block <;>
      cases rest.any (exonOfGeneHits env result block) <;> rfl

theorem blockDosage_fields (split : Bool) (alignment : Alignment) (block : Feature)
    (v : LegacyVars) :
    (blockDosage split alignment block v).intragenic = v.intragenic ∧
    (blockDosage split alignment block v).transcriptPlus = v.transcriptPlus ∧
    (blockDosage split alignment block v).transcriptMinus = v.transcriptMinus ∧
    (blockDosage split alignment block v).exonic = v.exonic ∧
    (blockDosage split alignment block v).st.counter = v.st.counter ∧
    (blockDosage split alignment block v).ribosomal = v.ribosomal := by
  unfold blockDosage
  split_ifs <;> exact ⟨rfl, rfl, rfl, rfl, rfl, rfl⟩

/-- What one step of the block loop leaves alone, what it does to `ribosomal`,
and the invariant it keeps: full exon containment and `exonic` are only ever
recorded for a read already marked intragenic. -/
theorem legacyBlockStep_fields (env : Env) (rs : Strand) (split : Bool) (alignment : Alignment)
    (results : List Feature) (result : Feature) (v : LegacyVars) (block : Feature) :
    (legacyBlockStep env rs split alignment results result v block).transcriptPlus =
      v.transcriptPlus ∧
    (legacyBlockStep env rs split alignment results result v block).transcriptMinus =
      v.transcriptMinus ∧
    (legacyBlockStep env rs split alignment results result v block).exonic = v.exonic ∧
    (legacyBlockStep env rs split alignment results result v block).st.counter =
      v.st.counter ∧
    (legacyBlockStep env rs split alignment results result v block).ribosomal =
      (v.ribosomal || (strandCompatible rs result &&
        (results.any (exonOfGeneHits env result block) && result.ribosomal))) ∧
    (((v.legacyTranscriptExon = true → v.intragenic = true) ∧
        (v.exonic = true → v.intragenic = true)) →
      (((legacyBlockStep env rs split alignment results result v block).legacyTranscriptExon =
          true →
        (legacyBlockStep env rs split alignment results result v block).intragenic = true) ∧
      ((legacyBlockStep env rs split alignment results result v block).exonic = true →
        (legacyBlockStep env rs split alignment results result v block).intragenic = true))) := by
  unfold legacyBlockStep
  by_cases hskip : rs ≠ Strand.Unknown ∧ rs ≠ result.strand
  · have hc : strandCompatible rs result = false := by
      unfold strandCompatible
      simp [hskip.1, hskip.2]
    rw [if_pos hskip, hc]
    simp
  · have hc : strandCompatible rs result = true := by
      unfold strandCompatible
      simp only [Bool.not_eq_true', Bool.and_eq_false_iff, decide_eq_false_iff_not]
      by_contra hne
      simp only [not_or, not_not] at hne
      exact hskip hne
    rw [if_neg hskip, hc]
    obtain ⟨h1, h2, h3, h4, h5, h6⟩ := foldl_exonStep_fields env result block results
      (blockEnter result block v)
    obtain ⟨d1, d2, d3, d4, d5, d6⟩ := blockDosage_fields split alignment block
      (results.foldl (exonStep env result block) (blockEnter result block v))
    rw [d1, d2, d3, d4, d5, d6, h1, h2, h3, h4, h5, h6]
    simp [blockEnter]

theorem foldl_legacyBlockStep_fields (env : Env) (rs : Strand) (split : Bool)
    (alignment : Alignment) (results : List Feature) (result : Feature) :
    ∀ (blocks : List Feature) (v : LegacyVars),
      (blocks.foldl (legacyBlockStep env rs split alignment results result) v).transcriptPlus =
        v.transcriptPlus ∧
      (blocks.foldl (legacyBlockStep env rs split alignment results result) v).transcriptMinus =
        v.transcriptMinus ∧
      (blocks.foldl (legacyBlockStep env rs split alignment results result) v).exonic =
        v.exonic ∧
      (blocks.foldl (legacyBlockStep env rs split alignment results result) v).st.counter =
        v.st.counter ∧
      (blocks.foldl (legacyBlockStep env rs split alignment results result) v).ribosomal =
        (v.ribosomal || (strandCompatible rs result &&
          (blocks.any (fun b => results.any (exonOfGeneHits env result b)) &&
            result.ribosomal))) ∧
      (((v.legacyTranscriptExon = true → v.intragenic = true) ∧
          (v.exonic = true → v.intragenic = true)) →
        (((blocks.foldl (legacyBlockStep env rs split alignment results result)
            v).legacyTranscriptExon = true →
          (blocks.foldl (legacyBlockStep env rs split alignment results result)
            v).intragenic = true) ∧
        ((blocks.foldl (legacyBlockStep env rs split alignment results result) v).exonic =
            true →
          (blocks.foldl (legacyBlockStep env rs split alignment results result)
            v).intragenic = true))) := by
  intro blocks
  induction blocks with
  | nil => intro v; simp
  | cons b rest ih =>
    intro v
    obtain ⟨h1, h2, h3, h4, h5, h6⟩ := legacyBlockStep_fields env rs split alignment results
      result v b
    obtain ⟨i1, i2, i3, i4, i5, i6⟩ := ih (legacyBlockStep env rs split alignment results
      result v b)
    rw [List.foldl_cons]
    refine ⟨i1.trans h1, i2.trans h2, i3.trans h3, i4.trans h4, ?_, fun hinv => i6 (h6 hinv)⟩
    rw [i5, h5, List.any_cons]
    cases v.ribosomal <;> cases strandCompatible rs result <;>
      cases results.any (exonOfGeneHits env result b) <;> cases result.ribosomal <;>
      cases rest.any (fun b => results.any (exonOfGeneHits env result b)) <;> rfl

/-- What one step of the loop over the results does to the transcript
evidence, to `ribosomal`, to the counter, and the invariant it keeps. -/
theorem legacyResultStep_fields (env : Env) (rs : Strand) (split highQuality : Bool)
    (alignment : Alignment) (blocks results : List Feature) (v : LegacyVars)
    (result : Feature) :
    (legacyResultStep env rs split highQuality alignment blocks results v
        result).transcriptPlus =
      (v.transcriptPlus || (decide (result.type = FeatureType.Gene) &&
        decide (result.strand = Strand.Forward))) ∧
    (legacyResultStep env rs split highQuality alignment blocks results v
        result).transcriptMinus =
      (v.transcriptMinus || (decide (result.type = FeatureType.Gene) &&
        decide (result.strand = Strand.Reverse))) ∧
    (legacyResultStep env rs split highQuality alignment blocks results v
        result).st.counter = v.st.counter ∧
    (legacyResultStep env rs split highQuality alignment blocks results v result).ribosomal =
      (v.ribosomal || (decide (result.type = FeatureType.Gene) && strandCompatible rs result &&
        result.ribosomal &&
        blocks.any (fun b => results.any (exonOfGeneHits env result b)))) ∧
    ((v.exonic = true → v.intragenic = true) →
      ((legacyResultStep env rs split highQuality alignment blocks results v result).exonic =
          true →
        (legacyResultStep env rs split highQuality alignment blocks results v
          result).intragenic = true)) := by
  unfold legacyResultStep
  by_cases hg : result.type = FeatureType.Gene
  · rw [if_pos hg]
    obtain ⟨b1, b2, b3, b4, b5, b6⟩ := foldl_legacyBlockStep_fields env rs split alignment
      results result blocks (markTranscript result (resultEnter v))
    generalize blocks.foldl (legacyBlockStep env rs split alignment results result)
      (markTranscript result (resultEnter v)) = w at b1 b2 b3 b4 b5 b6 ⊢
    have hm : (markTranscript result (resultEnter v)).transcriptPlus =
          (v.transcriptPlus || decide (result.strand = Strand.Forward)) ∧
        (markTranscript result (resultEnter v)).transcriptMinus =
          (v.transcriptMinus || decide (result.strand = Strand.Reverse)) ∧
        (markTranscript result (resultEnter v)).exonic = v.exonic ∧
        (markTranscript result (resultEnter v)).intragenic = v.intragenic ∧
        (markTranscript result (resultEnter v)).st.counter = v.st.counter ∧
        (markTranscript result (resultEnter v)).ribosomal = v.ribosomal ∧
        (markTranscript result (resultEnter v)).legacyTranscriptExon = false := by
      unfold markTranscript resultEnter
      cases hs : result.strand <;> simp
    obtain ⟨m1, m2, m3, m4, m5, m6, m7⟩ := hm
    have hfin : ∀ u : LegacyVars,
        (markExonic (markJunction (creditGene split highQuality alignment u))).transcriptPlus =
          u.transcriptPlus ∧
        (markExonic (markJunction (creditGene split highQuality alignment u))).transcriptMinus =
          u.transcriptMinus ∧
        (markExonic (markJunction (creditGene split highQuality alignment u))).st.counter =
          u.st.counter ∧
        (markExonic (markJunction (creditGene split highQuality alignment u))).ribosomal =
          u.ribosomal ∧
        (markExonic (markJunction (creditGene split highQuality alignment u))).intragenic =
          u.intragenic ∧
        (markExonic (markJunction (creditGene split highQuality alignment u))).exonic =
          (u.exonic || u.legacyTranscriptExon) := by
      intro u
      obtain ⟨a1, a2, a3, a4, a5, a6, a7, a8, a9, a10, a11, a12, a13, a14, a15, a16, a17⟩ := u
      cases a11 <;> cases highQuality <;> cases a13 <;> cases a14 <;>
        simp [markExonic, markJunction, creditGene, legacyCredit]
    obtain ⟨f1, f2, f3, f4, f5, f6⟩ := hfin w
    rw [f1, f2, f3, f4, f5, f6, b1, b2, b4, b5, m1, m2, m5, m6]
    refine ⟨by simp [hg], by simp [hg], rfl, ?_, ?_⟩
    · simp only [hg, decide_True, Bool.true_and]
      cases v.ribosomal <;> cases strandCompatible rs result <;> cases result.ribosomal <;>
        cases blocks.any (fun b => results.any (exonOfGeneHits env result b)) <;> rfl
    · intro hinv hex
      have hinv' := b6 ⟨(by rw [m7]; intro h; cases h), (by rw [m3, m4]; exact hinv)⟩
      rw [Bool.or_eq_true] at hex
      rcases hex with h | h
      · exact hinv'.2 h
      · exact hinv'.1 h
  · rw [if_neg hg]
    simp [resultEnter, hg]

theorem foldl_legacyResultStep_fields (env : Env) (rs : Strand) (split highQuality : Bool)
    (alignment : Alignment) (blocks results : List Feature) :
    ∀ (rl : List Feature) (v : LegacyVars),
      (rl.foldl (legacyResultStep env rs split highQuality alignment blocks results)
          v).transcriptPlus =
        (v.transcriptPlus || rl.any (fun g => decide (g.type = FeatureType.Gene) &&
          decide (g.strand = Strand.Forward))) ∧
      (rl.foldl (legacyResultStep env rs split highQuality alignment blocks results)
          v).transcriptMinus =
        (v.transcriptMinus || rl.any (fun g => decide (g.type = FeatureType.Gene) &&
          decide (g.strand = Strand.Reverse))) ∧
      (rl.foldl (legacyResultStep env rs split highQuality alignment blocks results)
          v).st.counter = v.st.counter ∧
      (rl.foldl (legacyResultStep env rs split highQuality alignment blocks results)
          v).ribosomal =
        (v.ribosomal || rl.any (fun g =>
          decide (g.type = FeatureType.Gene) && strandCompatible rs g && g.ribosomal &&
            blocks.any (fun b => results.any (exonOfGeneHits env g b)))) ∧
      ((v.exonic = true → v.intragenic = true) →
        ((rl.foldl (legacyResultStep env rs split highQuality alignment blocks results)
            v).exonic = true →
          (rl.foldl (legacyResultStep env rs split highQuality alignment blocks results)
            v).intragenic = true)) := by
  intro rl
  induction rl with
  | nil => intro v; simp
  | cons r rest ih =>
    intro v
    obtain ⟨s1, s2, s3, s4, s5⟩ := legacyResultStep_fields env rs split highQuality alignment
      blocks results v r
    obtain ⟨i1, i2, i3, i4, i5⟩ := ih (legacyResultStep env rs split highQuality alignment
      blocks results v r)
    simp only [List.foldl_cons, List.any_cons]
    rw [i1, i2, i3, i4, s1, s2, s3, s4]
    refine ⟨by rw [Bool.or_assoc], by rw [Bool.or_assoc], rfl, by rw [Bool.or_assoc], ?_⟩
    intro hinv
    exact i5 (s5 hinv)

/-- The variables after the scan of the legacy engine: the transcript
evidence, the ribosomal flag, the untouched counter, and `exonic` only with
`intragenic`. -/
theorem legacyScan_fields (env : Env) (window : List Feature) (chr : Nat)
    (SPLIT_DISTANCE : Nat) (blocks : List Feature) (alignment : Alignment)
    (orientation : Strand) (highQuality : Bool) (st : State) :
    (legacyScan env window chr SPLIT_DISTANCE blocks alignment orientation highQuality
        st).transcriptPlus = legacyTranscript Strand.Forward env window chr alignment ∧
    (legacyScan env window chr SPLIT_DISTANCE blocks alignment orientation highQuality
        st).transcriptMinus = legacyTranscript Strand.Reverse env window chr alignment ∧
    (legacyScan env window chr SPLIT_DISTANCE blocks alignment orientation highQuality
        st).st.counter = st.counter ∧
    (legacyScan env window chr SPLIT_DISTANCE blocks alignment orientation highQuality
        st).ribosomal =
      legacyRibosomal env (feature_strand alignment orientation) window chr blocks alignment ∧
    ((legacyScan env window chr SPLIT_DISTANCE blocks alignment orientation highQuality
        st).exonic = true →
      (legacyScan env window chr SPLIT_DISTANCE blocks alignment orientation highQuality
        st).intragenic = true) := by
  obtain ⟨h1, h2, h3, h4, h5⟩ := foldl_legacyResultStep_fields env
    (feature_strand alignment orientation) (legacySplit SPLIT_DISTANCE blocks) highQuality
    alignment blocks (intersectBlock env.intersectInterval (readSpan alignment chr) window)
    (intersectBlock env.intersectInterval (readSpan alignment chr) window) (initLegacyVars st)
  unfold legacyScan legacyTranscript legacyRibosomal legacyResults
  simp only
  rw [h1, h2, h3, h4]
  refine ⟨by simp [initLegacyVars], by simp [initLegacyVars], by simp [initLegacyVars],
    by simp [initLegacyVars], ?_⟩
  exact h5 (by simp [initLegacyVars])

/-- The counter after `legacyExonAlignmentMetrics`: every label rises by the
number of times the three label groups name it. -/
theorem legacyExonAlignmentMetrics_counter (env : Env) (SPLIT_DISTANCE : Nat)
    (window : List Feature) (chr : Nat) (blocks : List Feature) (alignment : Alignment)
    (orientation : Strand) (highQuality singleEnd : Bool) (st : State) (n : String) :
    (legacyExonAlignmentMetrics env SPLIT_DISTANCE window chr blocks alignment orientation
        highQuality singleEnd st).counter n =
      st.counter n +
        (legacyCategoryLabels highQuality (legacySplit SPLIT_DISTANCE blocks)
            (legacyScan env window chr SPLIT_DISTANCE blocks alignment orientation highQuality
              st) ++
          (if (legacyScan env window chr SPLIT_DISTANCE blocks alignment orientation highQuality
              st).ribosomal then ["rRNA Reads"] else []) ++
          strandLabels alignment singleEnd
            (legacyScan env window chr SPLIT_DISTANCE blocks alignment orientation highQuality
              st).transcriptPlus
            (legacyScan env window chr SPLIT_DISTANCE blocks alignment orientation highQuality
              st).transcriptMinus).count n := by
  unfold legacyExonAlignmentMetrics
  simp only
  rw [incrementAll_apply, (legacyScan_fields env window chr SPLIT_DISTANCE blocks alignment
    orientation highQuality st).2.2.1]

/-! ## Theorems: the category counters of the legacy engine -/

/-- The rRNA counter and the strandedness block name none of the category
labels. -/
theorem legacy_side_labels_count_zero (alignment : Alignment) (singleEnd rib plus minus : Bool)
    (n : String)
    (hn : n ∈ ["Intronic Reads", "Intergenic Reads", "Exonic Reads", "Intragenic Reads"]) :
    (if rib then ["rRNA Reads"] else []).count n = 0 ∧
    (strandLabels alignment singleEnd plus minus).count n = 0 := by
  simp only [List.mem_cons, List.mem_singleton, List.not_mem_nil, or_false] at hn
  refine ⟨?_, ?_⟩
  · rcases hn with rfl | rfl | rfl | rfl <;> cases rib <;> decide
  · unfold strandLabels
    rcases hn with rfl | rfl | rfl | rfl <;> split_ifs <;> decide

/-- The category chain of the legacy engine names exactly one of the three
category labels, once, when `exonic` implies `intragenic`. -/
theorem legacyCategoryLabels_count (highQuality split : Bool) (v : LegacyVars)
    (hinv : v.exonic = true → v.intragenic = true) :
    ∃ cat ∈ ["Intronic Reads", "Intergenic Reads", "Exonic Reads"],
      (∀ n ∈ ["Intronic Reads", "Intergenic Reads", "Exonic Reads"],
        (legacyCategoryLabels highQuality split v).count n = if n = cat then 1 else 0) ∧
      (legacyCategoryLabels highQuality split v).count "Intragenic Reads" =
        if cat = "Intronic Reads" ∨ cat = "Exonic Reads" then 1 else 0 := by
  refine ⟨if (v.legacyNotExonic || v.legacyJunction || !v.exonic) then
      (if v.intragenic then "Intronic Reads" else "Intergenic Reads")
    else "Exonic Reads", ?_⟩
  unfold legacyCategoryLabels
  generalize v.intragenic = a1 at hinv ⊢
  generalize v.exonic = a6 at hinv ⊢
  generalize v.doExonMetrics = a5
  generalize v.legacyJunction = a7
  generalize v.legacyNotExonic = a8
  generalize v.legacyNotSplit = a9
  clear v
  revert hinv
  cases a1 <;> cases a5 <;> cases a6 <;> cases a7 <;> cases a8 <;> cases a9 <;>
    cases highQuality <;> cases split <;> decide

/-- C22: for every read processed by the legacy engine exactly one of the
counters "Intronic Reads", "Intergenic Reads", "Exonic Reads" rises, by one,
and the other two keep their value; "Intragenic Reads" rises by one when the
category is Intronic or Exonic and keeps its value otherwise. -/
theorem legacyExonAlignmentMetrics_one_category (env : Env) (SPLIT_DISTANCE : Nat)
    (window : List Feature) (chr : Nat) (blocks : List Feature) (alignment : Alignment)
    (orientation : Strand) (highQuality singleEnd : Bool) (st : State) :
    ∃ cat : String,
      (cat = "Intronic Reads" ∨ cat = "Intergenic Reads" ∨ cat = "Exonic Reads") ∧
      (legacyExonAlignmentMetrics env SPLIT_DISTANCE window chr blocks alignment orientation
          highQuality singleEnd st).counter "Intronic Reads" =
        st.counter "Intronic Reads" + (if cat = "Intronic Reads" then 1 else 0) ∧
      (legacyExonAlignmentMetrics env SPLIT_DISTANCE window chr blocks alignment orientation
          highQuality singleEnd st).counter "Intergenic Reads" =
        st.counter "Intergenic Reads" + (if cat = "Intergenic Reads" then 1 else 0) ∧
      (legacyExonAlignmentMetrics env SPLIT_DISTANCE window chr blocks alignment orientation
          highQuality singleEnd st).counter "Exonic Reads" =
        st.counter "Exonic Reads" + (if cat = "Exonic Reads" then 1 else 0) ∧
      (legacyExonAlignmentMetrics env SPLIT_DISTANCE window chr blocks alignment orientation
          highQuality singleEnd st).counter "Intragenic Reads" =
        st.counter "Intragenic Reads" +
          (if cat = "Intronic Reads" ∨ cat = "Exonic Reads" then 1 else 0) := by
  obtain ⟨cat, hcat, hthree, hintra⟩ := legacyCategoryLabels_count highQuality
    (legacySplit SPLIT_DISTANCE blocks)
    (legacyScan env window chr SPLIT_DISTANCE blocks alignment orientation highQuality st)
    (legacyScan_fields env window chr SPLIT_DISTANCE blocks alignment orientation highQuality
      st).2.2.2.2
  have hside : ∀ n ∈ ["Intronic Reads", "Intergenic Reads", "Exonic Reads", "Intragenic Reads"],
      (legacyExonAlignmentMetrics env SPLIT_DISTANCE window chr blocks alignment orientation
          highQuality singleEnd st).counter n =
        st.counter n + (legacyCategoryLabels highQuality (legacySplit SPLIT_DISTANCE blocks)
          (legacyScan env window chr SPLIT_DISTANCE blocks alignment orientation highQuality
            st)).count n := by
    intro n hn
    obtain ⟨z1, z2⟩ := legacy_side_labels_count_zero alignment singleEnd
      (legacyScan env window chr SPLIT_DISTANCE blocks alignment orientation highQuality
        st).ribosomal
      (legacyScan env window chr SPLIT_DISTANCE blocks alignment orientation highQuality
        st).transcriptPlus
      (legacyScan env window chr SPLIT_DISTANCE blocks alignment orientation highQuality
        st).transcriptMinus n hn
    rw [legacyExonAlignmentMetrics_counter, List.count_append, List.count_append, z1, z2,
      Nat.add_zero]
  refine ⟨cat, ?_, ?_, ?_, ?_, ?_⟩
  · simpa only [List.mem_cons, List.mem_singleton, List.not_mem_nil, or_false] using hcat
  · rw [hside _ (by decide), hthree _ (by decide)]
    simp only [eq_comm]
  · rw [hside _ (by decide), hthree _ (by decide)]
    simp only [eq_comm]
  · rw [hside _ (by decide), hthree _ (by decide)]
    simp only [eq_comm]
  · rw [hside _ (by decide), hintra]

/-! ## Theorems: strandedness and ribosomal evidence of the two engines -/

/-- The evidence flags of the scan after one feature of the inner loop. -/
theorem resultStep_flags (env : Env) (rs : Strand) (length : Nat) (block : Feature)
    (s : Scan) (r : Feature) :
    (resultStep env rs length block s r).transcriptPlus =
        (s.transcriptPlus || (strandCompatible rs r && decide (r.strand = Strand.Forward))) ∧
    (resultStep env rs length block s r).transcriptMinus =
        (s.transcriptMinus || (strandCompatible rs r && decide (r.strand = Strand.Reverse))) ∧
    (resultStep env rs length block s r).ribosomal =
        (s.ribosomal || (strandCompatible rs r && r.ribosomal)) := by
  unfold resultStep
  by_cases hc : strandCompatible rs r = true
  · simp only [hc, if_true]
    cases hs : r.strand <;> cases hr : r.ribosomal <;> simp <;> split_ifs <;> simp
  · simp [hc]

theorem foldl_resultStep_flags (env : Env) (rs : Strand) (length : Nat) (block : Feature) :
    ∀ (results : List Feature) (s : Scan),
      (results.foldl (resultStep env rs length block) s).transcriptPlus =
          (s.transcriptPlus || (results.filter (strandCompatible rs)).any
            (fun f => decide (f.strand = Strand.Forward))) ∧
      (results.foldl (resultStep env rs length block) s).transcriptMinus =
          (s.transcriptMinus || (results.filter (strandCompatible rs)).any
            (fun f => decide (f.strand = Strand.Reverse))) ∧
      (results.foldl (resultStep env rs length block) s).ribosomal =
          (s.ribosomal || (results.filter (strandCompatible rs)).any (fun f => f.ribosomal)) := by
  intro results
  induction results with
  | nil => intro s; simp
  | cons r rest ih =>
    intro s
    obtain ⟨s1, s2, s3⟩ := resultStep_flags env rs length block s r
    obtain ⟨i1, i2, i3⟩ := ih (resultStep env rs length block s r)
    simp only [List.foldl_cons]
    rw [i1, i2, i3, s1, s2, s3]
    cases hc : strandCompatible rs r <;> simp [List.filter_cons, hc, Bool.or_assoc]

theorem foldl_blockStep_flags (env : Env) (rs : Strand) (length : Nat)
    (window : List Feature) :
    ∀ (blocks : List Feature) (s : Scan),
      (blocks.foldl (blockStep env rs length window) s).transcriptPlus =
          (s.transcriptPlus || currentTranscript Strand.Forward env rs window blocks) ∧
      (blocks.foldl (blockStep env rs length window) s).transcriptMinus =
          (s.transcriptMinus || currentTranscript Strand.Reverse env rs window blocks) ∧
      (blocks.foldl (blockStep env rs length window) s).ribosomal =
          (s.ribosomal || currentRibosomal env rs window blocks) := by
  intro blocks
  induction blocks with
  | nil => intro s; simp [currentTranscript, currentRibosomal]
  | cons b rest ih =>
    intro s
    obtain ⟨s1, s2, s3⟩ := foldl_resultStep_flags env rs length b
      (intersectBlock env.intersectInterval b window) { s with genes := s.genes ++ [[]] }
    obtain ⟨i1, i2, i3⟩ := ih (blockStep env rs length window s b)
    simp only [List.foldl_cons]
    rw [i1, i2, i3]
    unfold blockStep
    rw [s1, s2, s3]
    simp only [currentTranscript, currentRibosomal, compatibleHits, List.any_cons,
      Bool.or_assoc, and_self]

/-- The evidence flags after the scan of the current engine. -/
theorem scanBlocks_flags (env : Env) (rs : Strand) (length : Nat) (window : List Feature)
    (blocks : List Feature) (coverage : BaseCoverage) :
    (scanBlocks env rs length window blocks coverage).transcriptPlus =
        currentTranscript Strand.Forward env rs window blocks ∧
    (scanBlocks env rs length window blocks coverage).transcriptMinus =
        currentTranscript Strand.Reverse env rs window blocks ∧
    (scanBlocks env rs length window blocks coverage).ribosomal =
        currentRibosomal env rs window blocks := by
  obtain ⟨h1, h2, h3⟩ := foldl_blockStep_flags env rs length window blocks (initScan coverage)
  unfold scanBlocks
  rw [h1, h2, h3]
  simp [initScan]

/-- The strandedness block names the label of `strandCounter`, once, and no
other strandedness label. -/
theorem strandLabels_count (alignment : Alignment) (singleEnd plus minus : Bool) (n : String)
    (hn : n ∈ ["End 1 Sense", "End 1 Antisense", "End 2 Sense", "End 2 Antisense"]) :
    (strandLabels alignment singleEnd plus minus).count n =
      if strandCounter alignment singleEnd plus minus = some n then 1 else 0 := by
  simp only [List.mem_cons, List.mem_singleton, List.not_mem_nil, or_false] at hn
  unfold strandLabels strandCounter
  generalize alignment.pairedFlag = p
  generalize alignment.firstFlag = f
  generalize alignment.reverseFlag = r
  clear alignment
  rcases hn with rfl | rfl | rfl | rfl <;> cases singleEnd <;> cases plus <;> cases minus <;>
    cases p <;> cases f <;> cases r <;> decide

/-- The strandedness block never names the rRNA label, and the rRNA statement
names it once when the flag is set. -/
theorem rRNA_count (alignment : Alignment) (singleEnd rib plus minus : Bool) :
    (strandLabels alignment singleEnd plus minus).count "rRNA Reads" = 0 ∧
    (if rib then ["rRNA Reads"] else []).count "rRNA Reads" = (if rib then 1 else 0) ∧
    ∀ n ∈ ["End 1 Sense", "End 1 Antisense", "End 2 Sense", "End 2 Antisense"],
      (if rib then ["rRNA Reads"] else []).count n = 0 := by
  refine ⟨?_, ?_, ?_⟩
  · unfold strandLabels
    split_ifs <;> decide
  · cases rib <;> decide
  · cases rib <;> decide

/-- The globin check and the category chains of both engines name neither a
strandedness label nor the rRNA label. -/
theorem category_labels_count_zero (env : Env) (alignment : Alignment) (scan : Scan)
    (highQuality split : Bool) (v : LegacyVars) (n : String)
    (hn : n ∈ ["End 1 Sense", "End 1 Antisense", "End 2 Sense", "End 2 Antisense",
      "rRNA Reads"]) :
    (globinLabels env alignment scan).count n = 0 ∧
    (categoryLabels highQuality scan).count n = 0 ∧
    (legacyCategoryLabels highQuality split v).count n = 0 := by
  simp only [List.mem_cons, List.mem_singleton, List.not_mem_nil, or_false] at hn
  refine ⟨?_, ?_, ?_⟩
  · unfold globinLabels
    rcases hn with rfl | rfl | rfl | rfl | rfl <;> split_ifs <;> decide
  · unfold categoryLabels
    rcases hn with rfl | rfl | rfl | rfl | rfl <;> cases highQuality <;> split_ifs <;> decide
  · unfold legacyCategoryLabels
    rcases hn with rfl | rfl | rfl | rfl | rfl <;> cases highQuality <;> cases split <;>
      split_ifs <;> decide

/-- The strandedness and rRNA counters after `exonAlignmentMetrics`, from the
evidence flags of its scan. -/
theorem exonAlignmentMetrics_strand_counter (env : Env) (window : List Feature) (chr : Nat)
    (blocks : List Feature) (alignment : Alignment) (length : Nat) (orientation : Strand)
    (highQuality singleEnd : Bool) (st : State) :
    (∀ n ∈ ["End 1 Sense", "End 1 Antisense", "End 2 Sense", "End 2 Antisense"],
      (exonAlignmentMetrics env window chr blocks alignment length orientation highQuality
          singleEnd st).2.counter n =
        st.counter n +
          if strandCounter alignment singleEnd
            (scanBlocks env (feature_strand alignment orientation) length window blocks
              st.baseCoverage).transcriptPlus
            (scanBlocks env (feature_strand alignment orientation) length window blocks
              st.baseCoverage).transcriptMinus = some n then 1 else 0) ∧
    (exonAlignmentMetrics env window chr blocks alignment length orientation highQuality
        singleEnd st).2.counter "rRNA Reads" =
      st.counter "rRNA Reads" +
        if (scanBlocks env (feature_strand alignment orientation) length window blocks
          st.baseCoverage).ribosomal then 1 else 0 := by
  constructor
  · intro n hn
    have hn5 : n ∈ ["End 1 Sense", "End 1 Antisense", "End 2 Sense", "End 2 Antisense",
        "rRNA Reads"] := by
      simp only [List.mem_cons, List.mem_singleton, List.not_mem_nil, or_false] at hn ⊢
      tauto
    obtain ⟨c1, c2, -⟩ := category_labels_count_zero env alignment
      (scanBlocks env (feature_strand alignment orientation) length window blocks
        st.baseCoverage) highQuality false (initLegacyVars st) n hn5
    rw [exonAlignmentMetrics_counter, List.count_append, List.count_append, List.count_append,
      c1, c2, (rRNA_count alignment singleEnd _ false false).2.2 n hn,
      strandLabels_count alignment singleEnd _ _ n hn]
    simp only [Nat.zero_add]
  · obtain ⟨c1, c2, -⟩ := category_labels_count_zero env alignment
      (scanBlocks env (feature_strand alignment orientation) length window blocks
        st.baseCoverage) highQuality false (initLegacyVars st) "rRNA Reads" (by decide)
    rw [exonAlignmentMetrics_counter, List.count_append, List.count_append, List.count_append,
      c1, c2, (rRNA_count alignment singleEnd false _ _).1,
      (rRNA_count alignment singleEnd _ false false).2.1]
    simp only [Nat.zero_add, Nat.add_zero]

/-- The strandedness and rRNA counters after `legacyExonAlignmentMetrics`,
from the evidence flags of its scan. -/
theorem legacyExonAlignmentMetrics_strand_counter (env : Env) (SPLIT_DISTANCE : Nat)
    (window : List Feature) (chr : Nat) (blocks : List Feature) (alignment : Alignment)
    (orientation : Strand) (highQuality singleEnd : Bool) (st : State) :
    (∀ n ∈ ["End 1 Sense", "End 1 Antisense", "End 2 Sense", "End 2 Antisense"],
      (legacyExonAlignmentMetrics env SPLIT_DISTANCE window chr blocks alignment orientation
          highQuality singleEnd st).counter n =
        st.counter n +
          if strandCounter alignment singleEnd
            (legacyScan env window chr SPLIT_DISTANCE blocks alignment orientation highQuality
              st).transcriptPlus
            (legacyScan env window chr SPLIT_DISTANCE blocks alignment orientation highQuality
              st).transcriptMinus = some n then 1 else 0) ∧
    (legacyExonAlignmentMetrics env SPLIT_DISTANCE window chr blocks alignment orientation
        highQuality singleEnd st).counter "rRNA Reads" =
      st.counter "rRNA Reads" +
        if (legacyScan env window chr SPLIT_DISTANCE blocks alignment orientation highQuality
          st).ribosomal then 1 else 0 := by
  constructor
  · intro n hn
    have hn5 : n ∈ ["End 1 Sense", "End 1 Antisense", "End 2 Sense", "End 2 Antisense",
        "rRNA Reads"] := by
      simp only [List.mem_cons, List.mem_singleton, List.not_mem_nil, or_false] at hn ⊢
      tauto
    obtain ⟨-, -, c3⟩ := category_labels_count_zero env alignment (initScan [])
      highQuality (legacySplit SPLIT_DISTANCE blocks)
      (legacyScan env window chr SPLIT_DISTANCE blocks alignment orientation highQuality st)
      n hn5
    rw [legacyExonAlignmentMetrics_counter, List.count_append, List.count_append,
      c3, (rRNA_count alignment singleEnd _ false false).2.2 n hn,
      strandLabels_count alignment singleEnd _ _ n hn]
    simp only [Nat.zero_add]
  · obtain ⟨-, -, c3⟩ := category_labels_count_zero env alignment (initScan [])
      highQuality (legacySplit SPLIT_DISTANCE blocks)
      (legacyScan env window chr SPLIT_DISTANCE blocks alignment orientation highQuality st)
      "rRNA Reads" (by decide)
    rw [legacyExonAlignmentMetrics_counter, List.count_append, List.count_append,
      c3, (rRNA_count alignment singleEnd false _ _).1,
      (rRNA_count alignment singleEnd _ false false).2.1]
    simp only [Nat.zero_add, Nat.add_zero]

/-! ## Theorems: the strandedness counters -/

/-- C24: in both engines each of the four strandedness counters rises by one
when it is the counter `strandCounter` names for the recorded transcript-plus
and transcript-minus evidence, and keeps its value otherwise; `strandCounter`
names a counter exactly when one of the two was recorded without the other
and the run is single-end or the read is paired, an End 1 counter when the run
is single-end or the read is first in its pair, and a Sense counter when the
reverse flag is set exactly when the evidence is transcript-minus. -/
theorem strand_counter_rule (env : Env) (SPLIT_DISTANCE : Nat) (window : List Feature)
    (chr : Nat) (blocks : List Feature) (alignment : Alignment) (length : Nat)
    (orientation : Strand) (highQuality singleEnd : Bool) (st : State) (n : String)
    (hn : n ∈ ["End 1 Sense", "End 1 Antisense", "End 2 Sense", "End 2 Antisense"]) :
    (exonAlignmentMetrics env window chr blocks alignment length orientation highQuality
        singleEnd st).2.counter n =
      st.counter n +
        (if strandCounter alignment singleEnd
          (scanBlocks env (feature_strand alignment orientation) length window blocks
            st.baseCoverage).transcriptPlus
          (scanBlocks env (feature_strand alignment orientation) length window blocks
            st.baseCoverage).transcriptMinus = some n then 1 else 0) ∧
    (legacyExonAlignmentMetrics env SPLIT_DISTANCE window chr blocks alignment orientation
        highQuality singleEnd st).counter n =
      st.counter n +
        (if strandCounter alignment singleEnd
          (legacyScan env window chr SPLIT_DISTANCE blocks alignment orientation highQuality
            st).transcriptPlus
          (legacyScan env window chr SPLIT_DISTANCE blocks alignment orientation highQuality
            st).transcriptMinus = some n then 1 else 0) :=
  ⟨(exonAlignmentMetrics_strand_counter env window chr blocks alignment length orientation
      highQuality singleEnd st).1 n hn,
    (legacyExonAlignmentMetrics_strand_counter env SPLIT_DISTANCE window chr blocks alignment
      orientation highQuality singleEnd st).1 n hn⟩

/-- Witness for C24: the sample read over gene `G1` and its exon `E1`, unstranded,
at the label "End 1 Sense". -/
theorem strand_counter_rule_witness :
    "End 1 Sense" ∈ ["End 1 Sense", "End 1 Antisense", "End 2 Sense", "End 2 Antisense"] ∧
    ((exonAlignmentMetrics sampleEnv [geneG1, exonE1] 1 splicedBlocks sampleAlignment 9
        Strand.Unknown true false emptyState).2.counter "End 1 Sense" =
      emptyState.counter "End 1 Sense" +
        (if strandCounter sampleAlignment false
          (scanBlocks sampleEnv (feature_strand sampleAlignment Strand.Unknown) 9
            [geneG1, exonE1] splicedBlocks emptyState.baseCoverage).transcriptPlus
          (scanBlocks sampleEnv (feature_strand sampleAlignment Strand.Unknown) 9
            [geneG1, exonE1] splicedBlocks emptyState.baseCoverage).transcriptMinus =
            some "End 1 Sense" then 1 else 0) ∧
    (legacyExonAlignmentMetrics sampleEnv 100 [geneG1, exonE1] 1 splicedBlocks sampleAlignment
        Strand.Unknown true false emptyState).counter "End 1 Sense" =
      emptyState.counter "End 1 Sense" +
        (if strandCounter sampleAlignment false
          (legacyScan sampleEnv [geneG1, exonE1] 1 100 splicedBlocks sampleAlignment
            Strand.Unknown true emptyState).transcriptPlus
          (legacyScan sampleEnv [geneG1, exonE1] 1 100 splicedBlocks sampleAlignment
            Strand.Unknown true emptyState).transcriptMinus = some "End 1 Sense" then 1 else 0)) :=
  ⟨by decide, strand_counter_rule sampleEnv 100 [geneG1, exonE1] 1 splicedBlocks sampleAlignment
    9 Strand.Unknown true false emptyState "End 1 Sense" (by decide)⟩

/-- C25, counterexamples: for the sample read and a stranded library
(orientation Forward, read strand Forward) over a window holding one gene on
the reverse strand, the legacy engine counts "End 1 Antisense" and the current
engine counts no strandedness label; for an unstranded library over a window
holding one gene flagged ribosomal and no exon, the current engine counts
"rRNA Reads" and the legacy engine does not. -/
theorem engines_differ_on_strand_and_rRNA :
    feature_strand sampleAlignment Strand.Forward = Strand.Forward ∧
    (legacyExonAlignmentMetrics sampleEnv 100 [reverseGene] 1 splicedBlocks sampleAlignment
        Strand.Forward true false emptyState).counter "End 1 Antisense" = 1 ∧
    (exonAlignmentMetrics sampleEnv [reverseGene] 1 splicedBlocks sampleAlignment 9
        Strand.Forward true false emptyState).2.counter "End 1 Antisense" = 0 ∧
    (exonAlignmentMetrics sampleEnv [reverseGene] 1 splicedBlocks sampleAlignment 9
        Strand.Forward true false emptyState).2.counter "End 1 Sense" = 0 ∧
    (exonAlignmentMetrics sampleEnv [reverseGene] 1 splicedBlocks sampleAlignment 9
        Strand.Forward true false emptyState).2.counter "End 2 Sense" = 0 ∧
    (exonAlignmentMetrics sampleEnv [reverseGene] 1 splicedBlocks sampleAlignment 9
        Strand.Forward true false emptyState).2.counter "End 2 Antisense" = 0 ∧
    (exonAlignmentMetrics sampleEnv [ribosomalGene] 1 splicedBlocks sampleAlignment 9
        Strand.Unknown true false emptyState).2.counter "rRNA Reads" = 1 ∧
    (legacyExonAlignmentMetrics sampleEnv 100 [ribosomalGene] 1 splicedBlocks sampleAlignment
        Strand.Unknown true false emptyState).counter "rRNA Reads" = 0 := by
  refine ⟨by decide, by decide, by decide, by decide, by decide, by decide, by decide,
    by decide⟩

/-- C25, amended: when the two engines have the same evidence for a read (for
each strand, some strand-compatible feature on it intersects a block exactly
when some Gene feature on it intersects the span of the read; and some
strand-compatible ribosomal feature intersects a block exactly when some
strand-compatible ribosomal Gene feature intersects the span and has an exon,
among the features intersecting the span, that intersects a block), then from
the same counters both engines leave the same value in each strandedness
counter and in "rRNA Reads". -/
theorem engines_agree_on_equal_evidence (env : Env) (SPLIT_DISTANCE : Nat)
    (window : List Feature) (chr : Nat) (blocks : List Feature) (alignment : Alignment)
    (length : Nat) (orientation : Strand) (highQuality singleEnd : Bool) (st : State)
    (n : String)
    (hn : n ∈ ["End 1 Sense", "End 1 Antisense", "End 2 Sense", "End 2 Antisense"])
    (hplus : currentTranscript Strand.Forward env (feature_strand alignment orientation) window
      blocks = legacyTranscript Strand.Forward env window chr alignment)
    (hminus : currentTranscript Strand.Reverse env (feature_strand alignment orientation) window
      blocks = legacyTranscript Strand.Reverse env window chr alignment)
    (hrib : currentRibosomal env (feature_strand alignment orientation) window blocks =
      legacyRibosomal env (feature_strand alignment orientation) window chr blocks alignment) :
    (exonAlignmentMetrics env window chr blocks alignment length orientation highQuality
        singleEnd st).2.counter n =
      (legacyExonAlignmentMetrics env SPLIT_DISTANCE window chr blocks alignment orientation
        highQuality singleEnd st).counter n ∧
    (exonAlignmentMetrics env window chr blocks alignment length orientation highQuality
        singleEnd st).2.counter "rRNA Reads" =
      (legacyExonAlignmentMetrics env SPLIT_DISTANCE window chr blocks alignment orientation
        highQuality singleEnd st).counter "rRNA Reads" := by
  obtain ⟨c1, c2⟩ := exonAlignmentMetrics_strand_counter env window chr blocks alignment length
    orientation highQuality singleEnd st
  obtain ⟨l1, l2⟩ := legacyExonAlignmentMetrics_strand_counter env SPLIT_DISTANCE window chr
    blocks alignment orientation highQuality singleEnd st
  obtain ⟨f1, f2, f3⟩ := scanBlocks_flags env (feature_strand alignment orientation) length
    window blocks st.baseCoverage
  obtain ⟨g1, g2, -, g4, -⟩ := legacyScan_fields env window chr SPLIT_DISTANCE blocks alignment
    orientation highQuality st
  constructor
  · rw [c1 n hn, l1 n hn, f1, f2, g1, g2, hplus, hminus]
  · rw [c2, l2, f3, g4, hrib]

/-- Witness for C25: the sample read over gene `G1` and its exon `E1`,
unstranded; both engines have forward evidence only and no ribosomal
evidence. -/
theorem engines_agree_on_equal_evidence_witness :
    "End 1 Sense" ∈ ["End 1 Sense", "End 1 Antisense", "End 2 Sense", "End 2 Antisense"] ∧
    currentTranscript Strand.Forward sampleEnv (feature_strand sampleAlignment Strand.Unknown)
      [geneG1, exonE1] splicedBlocks =
        legacyTranscript Strand.Forward sampleEnv [geneG1, exonE1] 1 sampleAlignment ∧
    currentTranscript Strand.Reverse sampleEnv (feature_strand sampleAlignment Strand.Unknown)
      [geneG1, exonE1] splicedBlocks =
        legacyTranscript Strand.Reverse sampleEnv [geneG1, exonE1] 1 sampleAlignment ∧
    currentRibosomal sampleEnv (feature_strand sampleAlignment Strand.Unknown) [geneG1, exonE1]
      splicedBlocks =
        legacyRibosomal sampleEnv (feature_strand sampleAlignment Strand.Unknown)
          [geneG1, exonE1] 1 splicedBlocks sampleAlignment ∧
    ((exonAlignmentMetrics sampleEnv [geneG1, exonE1] 1 splicedBlocks sampleAlignment 9
        Strand.Unknown true false emptyState).2.counter "End 1 Sense" =
      (legacyExonAlignmentMetrics sampleEnv 100 [geneG1, exonE1] 1 splicedBlocks sampleAlignment
        Strand.Unknown true false emptyState).counter "End 1 Sense" ∧
    (exonAlignmentMetrics sampleEnv [geneG1, exonE1] 1 splicedBlocks sampleAlignment 9
        Strand.Unknown true false emptyState).2.counter "rRNA Reads" =
      (legacyExonAlignmentMetrics sampleEnv 100 [geneG1, exonE1] 1 splicedBlocks sampleAlignment
        Strand.Unknown true false emptyState).counter "rRNA Reads") :=
  ⟨by decide, by decide, by decide, by decide,
    engines_agree_on_equal_evidence sampleEnv 100 [geneG1, exonE1] 1 splicedBlocks
      sampleAlignment 9 Strand.Unknown true false emptyState "End 1 Sense" (by decide)
      (by decide) (by decide) (by decide)⟩


end rnaseqc
